import Mathlib

/-!
Verification development for the MTG price checker background service
(`shared/src/background.js`).  The JavaScript source is shallowly embedded:
pure helpers become Lean functions over `String`/`List`, the process-wide
mutable maps (`SCRYFALL_CACHE`, `TCGCSV_CACHE`, the request queue, the
generation counter) become explicit state records threaded through the
functions, and `fetch` becomes an oracle (`NetEnv`) plus a counter of
issued network requests.  JavaScript `Map` objects are modelled as
insertion-ordered association lists, matching the iteration order the code
relies on for eviction.  JavaScript numbers that the code only ever treats
as integers are modelled as `Nat`; decimal prices are `Rat`.  A JS value
that may be `null`/`undefined`/absent is an `Option`; where the code tests
truthiness of a string we model the falsy cases (`undefined`, `""`) as
`none` and note the spot.
-/

namespace MtgPc

/-- Apostrophe character (written via its code point). -/
def apoChar : Char := Char.ofNat 39

/-- Double-quote character (written via its code point). -/
def quotChar : Char := Char.ofNat 34


-- ── JS `Map` semantics ─────────────────────────────────────────────
-- A JS `Map` preserves insertion order; `set` on an existing key keeps the
-- key at its original position, a fresh key is appended at the end.

/-- JS `Map.prototype.set`. -/
def jsMapSet {α β : Type} [DecidableEq α] (m : List (α × β)) (k : α) (v : β) :
    List (α × β) :=
  if m.any (fun p => decide (p.1 = k)) then
    m.map (fun p => if p.1 = k then (k, v) else p)
  else m ++ [(k, v)]

/-- JS `Map.prototype.get` (`none` models `undefined`). -/
def jsMapGet {α β : Type} [DecidableEq α] (m : List (α × β)) (k : α) :
    Option β :=
  (m.find? (fun p => decide (p.1 = k))).map Prod.snd

/-- JS `Map.prototype.has`. -/
def jsMapHas {α β : Type} [DecidableEq α] (m : List (α × β)) (k : α) : Bool :=
  m.any (fun p => decide (p.1 = k))

/-- JS `Map.prototype.delete`. -/
def jsMapDelete {α β : Type} [DecidableEq α] (m : List (α × β)) (k : α) :
    List (α × β) :=
  m.filter (fun p => decide (p.1 ≠ k))

-- ── JS array sort ──────────────────────────────────────────────────

/-- Insert `a` before the first element `b` with `le a b` (stable
insertion). -/
def insertLe {α : Type} (le : α → α → Bool) (a : α) : List α → List α
  | [] => [a]
  | b :: bs => if le a b then a :: b :: bs else b :: insertLe le a bs

/-- Stable sort by a total preorder.  JS `Array.prototype.sort` is
stable, and a stable sort is extensionally unique for a total preorder,
so insertion sort models the engine's sort exactly (a numeric comparator
`a - b` that yields `NaN` on two infinities treats them as equal and
keeps their order, which `le = (· ≤ ·)` reproduces). -/
def stableSortBy {α : Type} (le : α → α → Bool) (l : List α) : List α :=
  l.foldr (insertLe le) []

-- ── JS string helpers ──────────────────────────────────────────────

/-- Does `l` start with `p` (used for JS `String.prototype.startsWith` and
for regex literal matching)? -/
def listStartsWith {α : Type} [DecidableEq α] : List α → List α → Bool
  | _, [] => true
  | [], _ :: _ => false
  | a :: as_, b :: bs => decide (a = b) && listStartsWith as_ bs

/-- JS `String.prototype.includes`, on char lists. -/
def listContainsSub {α : Type} [DecidableEq α] : List α → List α → Bool
  | l, sub =>
    match l with
    | [] => listStartsWith [] sub
    | _ :: rest => listStartsWith l sub || listContainsSub rest sub

/-- JS `String.prototype.includes`. -/
def jsIncludes (s sub : String) : Bool :=
  listContainsSub s.toList sub.toList

/-- JS `String.prototype.startsWith`. -/
def jsStartsWith (s pre : String) : Bool :=
  listStartsWith s.toList pre.toList

/-- Whitespace as matched by the JS `\s` class (the inputs here only ever
contain ASCII whitespace). -/
def isWs (c : Char) : Bool := c = ' ' || c = '\t' || c = '\n' || c = '\r'

/-- Replace every run of whitespace by a single space:
`replace(/\s+/g, ' ')`.  `inRun` records whether the previous character
was part of a whitespace run already emitted as one space. -/
def collapseWsAux (inRun : Bool) : List Char → List Char
  | [] => []
  | c :: cs =>
    if isWs c then
      if inRun then collapseWsAux true cs
      else ' ' :: collapseWsAux true cs
    else c :: collapseWsAux false cs

/-- JS `replace(/\s+/g, ' ')`. -/
def collapseWs (cs : List Char) : List Char := collapseWsAux false cs

/-- JS `String.prototype.trim` (leading/trailing whitespace removed). -/
def trimWs (cs : List Char) : List Char :=
  ((cs.dropWhile isWs).reverse.dropWhile isWs).reverse

/-- Split on a single space, as JS `split(' ')` (and Lean `splitOn " "`)
does, keeping empty segments. -/
def splitOnSpaceAux : List Char → List Char → List (List Char)
  | [], acc => [acc.reverse]
  | c :: cs, acc =>
    if c = ' ' then acc.reverse :: splitOnSpaceAux cs []
    else splitOnSpaceAux cs (c :: acc)

/-- JS `s.split(' ')`. -/
def splitWords (s : String) : List String :=
  (splitOnSpaceAux s.toList []).map (fun l => (⟨l⟩ : String))

/-- JS `String.prototype.toLowerCase` (ASCII-relevant inputs only). -/
def jsToLower (s : String) : String := ⟨s.toList.map Char.toLower⟩

/-- JS `String.prototype.toUpperCase` (ASCII-relevant inputs only). -/
def jsToUpper (s : String) : String := ⟨s.toList.map Char.toUpper⟩

/-- A word character in the sense of the JS regex `\w` / `\b` boundary. -/
def isWordChar (c : Char) : Bool := c.isAlphanum || c = '_'

/-- Is the position after a match a `\b` boundary (the patterns used all end
in a word character)? -/
def boundaryAfter : List Char → Bool
  | [] => true
  | c :: _ => !isWordChar c

/-- Generic left-to-right global regex deletion, as in
`s.replace(/\b(p1|p2|...)\b/g, '')`: `tryAt` reports the length of a match
starting at the current position (already including any look-ahead boundary
check); a match is only accepted when the previous character is a `\b`
boundary.  The scan resumes after the matched (deleted) text, exactly like
a JS global replace. -/
def scanRemoveAux (tryAt : List Char → Option Nat) :
    Nat → Option Char → List Char → List Char
  | 0, _, cs => cs
  | _ + 1, _, [] => []
  | fuel + 1, prev, c :: cs =>
    let boundaryBefore := match prev with
      | none => true
      | some p => !isWordChar p
    if boundaryBefore then
      match tryAt (c :: cs) with
      | some (n + 1) =>
        let matched := (c :: cs).take (n + 1)
        scanRemoveAux tryAt fuel (some (matched.getLastD c)) (cs.drop n)
      | _ => c :: scanRemoveAux tryAt fuel (some c) cs
    else c :: scanRemoveAux tryAt fuel (some c) cs

/-- See `scanRemoveAux`; each step consumes at least one character, so
the fuel `cs.length` is never exhausted. -/
def scanRemove (tryAt : List Char → Option Nat) (prev : Option Char)
    (cs : List Char) : List Char :=
  scanRemoveAux tryAt cs.length prev cs

/-- Matcher for a word-alternation pattern `\b(w1|w2|...)\b` at the current
position: alternatives are tried in order, as a JS regex engine does. -/
def wordAltAt (pats : List (List Char)) (cs : List Char) : Option Nat :=
  pats.findSome? (fun p =>
    if listStartsWith cs p && boundaryAfter (cs.drop p.length) then
      some p.length
    else none)

/-- Delete every `\b`-delimited occurrence of the given (lower-case) words:
`replace(/\b(w1|w2|...)\b/g, '')`. -/
def removeWordPats (pats : List String) (cs : List Char) : List Char :=
  scanRemove (wordAltAt (pats.map String.toList)) none cs

/-- Matcher for the year pattern `\b(19|20)\d{2}\b`. -/
def yearAt : List Char → Option Nat
  | a :: b :: c :: d :: rest =>
    if ((a = '1' && b = '9') || (a = '2' && b = '0')) && c.isDigit && d.isDigit
        && boundaryAfter rest then
      some 4
    else none
  | _ => none

/-- Delete every `\b(19|20)\d{2}\b` occurrence: `replace(/\b(19|20)\d{2}\b/g, '')`. -/
def removeYears (cs : List Char) : List Char :=
  scanRemove yearAt none cs

/-- Does the `\b`-delimited (lower-case) word pattern occur anywhere in the
string, matching a JS `/\b(w1|w2|...)\b/i.test(s)`?  The text is lowered
first, which does not move word boundaries. -/
def testWordPats (pats : List String) (s : String) : Bool :=
  let rec go (prev : Option Char) : List Char → Bool
    | [] => false
    | c :: cs =>
      let boundaryBefore := match prev with
        | none => true
        | some p => !isWordChar p
      (boundaryBefore && (wordAltAt (pats.map String.toList) (c :: cs)).isSome)
        || go (some c) cs
  go none (jsToLower s).toList

-- ── Shared name normalisation (background.js HELPERS section) ──────

/-- Punctuation class of `normSetName`:  `[:\-–—''",\.!?()]` (the class
lists the ASCII apostrophe twice). -/
def setNamePunct : List Char :=
  [':', '-', '–', '—', apoChar, quotChar, ',', '.', '!', '?', '(', ')']

/-- `normSetName`: lower-case, punctuation to spaces, collapse whitespace,
trim. -/
def normSetName (s : String) : String :=
  ⟨trimWs (collapseWs ((jsToLower s).toList.map
      (fun c => if c ∈ setNamePunct then ' ' else c)))⟩

/-- Punctuation class of `normCardName`: `[,.'":!?\-]`, removed entirely. -/
def cardNamePunct : List Char :=
  [',', '.', apoChar, quotChar, ':', '!', '?', '-']

/-- `normCardName`: lower-case, punctuation removed, collapse whitespace,
trim. -/
def normCardName (s : String) : String :=
  ⟨trimWs (collapseWs ((jsToLower s).toList.filter
      (fun c => !(c ∈ cardNamePunct))))⟩

/-- `SET_STOP_WORDS`. -/
def SET_STOP_WORDS : List String :=
  ["the", "of", "and", "a", "an", "in", "for", "to", "with"]

/-- `getSetWords`: significant words of a normalised set name. -/
def getSetWords (s : String) : List String :=
  (splitWords (normSetName s)).filter
    (fun w => 1 < w.length && !(SET_STOP_WORDS.contains w))

-- ── Price map (buildPriceMap) and price-source tagging ─────────────

/-- One TCGCSV price result row (the fields `buildPriceMap` reads).  A
`productId` of `some 0` is falsy in JS and skipped like a missing one. -/
structure PriceRow where
  productId : Option Nat
  subTypeName : Option String
  lowPrice : Option ℚ
  midPrice : Option ℚ
  highPrice : Option ℚ
  marketPrice : Option ℚ
deriving DecidableEq, Repr

/-- The per-product price record: low/mid/high/market for the normal and
foil printings.  Fields start `null` and are filled per sub-type row. -/
structure PriceQuad where
  low : Option ℚ
  mid : Option ℚ
  high : Option ℚ
  market : Option ℚ
  lowFoil : Option ℚ
  midFoil : Option ℚ
  highFoil : Option ℚ
  marketFoil : Option ℚ
deriving DecidableEq, Repr

/-- The all-null price record the code builds for a product that exists but
has no active listings. -/
def emptyQuad : PriceQuad :=
  ⟨none, none, none, none, none, none, none, none⟩

/-- `buildPriceMap`: fold the TCGCSV price rows into a productId-keyed map
of `PriceQuad`s; a row whose `subTypeName` contains "foil" (lower-cased)
fills the foil fields, otherwise the normal fields (`?? null` on each). -/
def buildPriceMap (rows : List PriceRow) : List (Nat × PriceQuad) :=
  rows.foldl
    (fun m p =>
      match p.productId with
      | none => m
      | some pid =>
        if pid = 0 then m
        else
          let isFoil := jsIncludes (jsToLower ((p.subTypeName).getD "")) "foil"
          let entry := (jsMapGet m pid).getD emptyQuad
          let entry :=
            if isFoil then
              { entry with lowFoil := p.lowPrice, midFoil := p.midPrice,
                           highFoil := p.highPrice, marketFoil := p.marketPrice }
            else
              { entry with low := p.lowPrice, mid := p.midPrice,
                           high := p.highPrice, market := p.marketPrice }
          jsMapSet m pid entry)
    []

/-- The `hasAnyPrice` test of `handleLookup`: note that `high` and
`highFoil` are not consulted. -/
def hasAnyPrice (q : PriceQuad) : Bool :=
  q.low.isSome || q.mid.isSome || q.market.isSome ||
  q.lowFoil.isSome || q.midFoil.isSome || q.marketFoil.isSome

/-- The `source` tag `handleLookup` writes after merging secondary prices. -/
def priceSource (q : PriceQuad) : String :=
  if hasAnyPrice q then "tcgcsv" else "tcgcsv-no-listings"

-- ── Set/group matcher (matchGroup, matchAllGroups) ─────────────────

/-- A TCGCSV group (set/product release) as listed by the groups endpoint. -/
structure Group where
  groupId : Nat
  name : String
deriving DecidableEq, Repr

/-- The `ALIASES` table of `matchGroup` (Scryfall to TCGPlayer name
mappings), keyed by the normalised Scryfall set name. -/
def ALIASES : List (String × List String) :=
  [("bloomburrow commander",
    ["commander bloomburrow", "commander: bloomburrow"]),
   ("duskmourn commander",
    ["commander duskmourn", "commander: duskmourn",
     "commander duskmourn house of horror",
     "commander: duskmourn house of horror"]),
   ("modern horizons 3 commander",
    ["commander modern horizons 3", "commander: modern horizons 3"]),
   ("outlaws of thunder junction commander",
    ["commander outlaws of thunder junction",
     "commander: outlaws of thunder junction"]),
   ("murders at karlov manor commander",
    ["commander murders at karlov manor",
     "commander: murders at karlov manor"]),
   ("tales of middle-earth commander",
    ["commander tales of middle-earth", "commander: tales of middle-earth",
     "commander the lord of the rings tales of middle-earth"]),
   ("dominaria united commander",
    ["commander dominaria united", "commander: dominaria united"]),
   ("streets of new capenna commander",
    ["commander streets of new capenna",
     "commander: streets of new capenna"]),
   ("kamigawa neon dynasty commander",
    ["commander kamigawa neon dynasty", "commander: kamigawa neon dynasty"]),
   ("innistrad crimson vow commander",
    ["commander innistrad crimson vow", "commander: innistrad crimson vow"]),
   ("innistrad midnight hunt commander",
    ["commander innistrad midnight hunt",
     "commander: innistrad midnight hunt"]),
   ("foundations jumpstart",
    ["magic the gathering foundations jumpstart"]),
   ("core set 2021", ["core set 2021", "core 2021", "m21"]),
   ("core set 2020", ["core set 2020", "core 2020", "m20"]),
   ("core set 2019", ["core set 2019", "core 2019", "m19"])]

/-- Tier-1 alias lookup of `matchGroup`: the first group whose normalised
name equals a normalised alias of the target, aliases tried in order. -/
def tier1Alias (groups : List Group) (target : String) : Option Nat :=
  match ALIASES.find? (fun a => decide (a.1 = target)) with
  | none => none
  | some a =>
    a.2.findSome? (fun al =>
      let alNorm := normSetName al
      (groups.find? (fun g => decide (normSetName g.name = alNorm))).map
        Group.groupId)

/-- One direction of the bidirectional word-overlap count: how many words of
`ws` have a counterpart in `vs` (equal, or containing, or contained). -/
def wordOverlapCount (ws vs : List String) : Nat :=
  (ws.filter (fun w =>
    vs.any (fun v => decide (v = w) || jsIncludes v w || jsIncludes w v))).length

/-- Tier-3 score of one candidate group against the target set name
(average of the two coverage fractions plus the substring bonus). -/
def groupScore (target : String) (targetWords : List String) (g : Group) : ℚ :=
  let gn := normSetName g.name
  let groupWords := getSetWords g.name
  let tig : ℚ := wordOverlapCount targetWords groupWords
  let git : ℚ := wordOverlapCount groupWords targetWords
  let score := (tig / targetWords.length + git / groupWords.length) / 2
  let bonus : ℚ := if jsIncludes gn target || jsIncludes target gn then 1/10 else 0
  score + bonus

/-- `matchGroup`: map a Scryfall set name to a TCGCSV groupId via
alias table, then exact normalised match, then best word-overlap score at
least 0.5.  When the target has no significant words every tier-3 score is
`NaN` in JS and no comparison fires, so tier 3 yields nothing; the guard
models that. -/
def matchGroup (groups : List Group) (scryfallSetName : String) : Option Nat :=
  if scryfallSetName = "" then none
  else
    let target := normSetName scryfallSetName
    let targetWords := getSetWords scryfallSetName
    match tier1Alias groups target with
    | some gid => some gid
    | none =>
      match groups.find? (fun g => decide (normSetName g.name = target)) with
      | some g => some g.groupId
      | none =>
        if targetWords.length = 0 then none
        else
          let best := groups.foldl
            (fun (acc : ℚ × Option Nat) g =>
              if (getSetWords g.name).length = 0 then acc
              else
                let s := groupScore target targetWords g
                if acc.1 < s then (s, some g.groupId) else acc)
            (0, none)
          if 1/2 ≤ best.1 then best.2 else none

/-- An entry of the ranked list returned by `matchAllGroups`. -/
structure GroupMatch where
  groupId : Nat
  score : ℚ
  name : String
deriving DecidableEq, Repr

/-- `matchAllGroups`: every group scoring at least 0.5 against the set
name, sorted by descending score (stably, as a JS comparator sort). -/
def matchAllGroups (groups : List Group) (setName : String) : List GroupMatch :=
  if setName = "" then []
  else
    let target := normSetName setName
    let targetWords := getSetWords setName
    if targetWords.length = 0 then []
    else
      let results := groups.filterMap (fun g =>
        if (getSetWords g.name).length = 0 then none
        else
          let s := groupScore target targetWords g
          if 1/2 ≤ s then some (⟨g.groupId, s, g.name⟩ : GroupMatch) else none)
      stableSortBy (fun a b => decide (b.score ≤ a.score)) results

-- ── Product lookup by name (findProductByName, …AndVariant) ────────

/-- A TCGCSV product record (the fields the code reads). -/
structure Product where
  productId : Nat
  name : String
  cleanName : Option String
  imageUrl : Option String
deriving DecidableEq, Repr

/-- Everything before the first opening parenthesis: `s.split('(')[0]`. -/
def takeBeforeParen (s : String) : String :=
  ⟨s.toList.takeWhile (fun c => !decide (c = '('))⟩

/-- JS `String.prototype.trim`. -/
def strTrim (s : String) : String := ⟨trimWs s.toList⟩

/-- `findProductByName`: fuzzy product match in four passes — exact
normalised name, starts-with, reverse starts-with, containment. -/
def findProductByName (products : List Product) (cardName : String) :
    Option Product :=
  if cardName = "" then none
  else
    let targetName := normCardName cardName
    match products.find? (fun p => decide (normCardName p.name = targetName)) with
    | some p => some p
    | none =>
      match products.find? (fun p => jsStartsWith (normCardName p.name) targetName) with
      | some p => some p
      | none =>
        match products.find? (fun p => jsStartsWith targetName (normCardName p.name)) with
        | some p => some p
        | none =>
          products.find? (fun p =>
            let pn := normCardName p.name
            jsIncludes pn targetName || jsIncludes targetName pn)

/-- `findProductByNameAndVariant`: product match that also requires one of
the variant keywords derived from frame effects / finishes / border. -/
def findProductByNameAndVariant (products : List Product) (cardName : String)
    (frameEffects : List String) (finishes : List String)
    (borderColor : String) : Option Product :=
  if cardName = "" then none
  else
    let baseName := normCardName cardName
    let variantKeywords : List String :=
      (if frameEffects.contains "etched" then ["foil etched", "etched"] else []) ++
      (if frameEffects.contains "showcase" then ["showcase"] else []) ++
      (if frameEffects.contains "extendedart" then ["extended art"] else []) ++
      (if borderColor = "borderless" then ["borderless"] else []) ++
      (if finishes.contains "etched" then ["foil etched", "etched"] else [])
    if variantKeywords.isEmpty then none
    else
      products.find? (fun p =>
        let pn := normCardName p.name
        (jsIncludes pn baseName ||
          jsIncludes baseName (strTrim (takeBeforeParen pn))) &&
        variantKeywords.any (fun kw => jsIncludes pn kw))

-- ── Scryfall card objects and formatCard ───────────────────────────

/-- The image-URL record of a Scryfall card or face. -/
structure ImageUris where
  small : Option String
  normal : Option String
deriving DecidableEq, Repr

/-- One face of a double-faced Scryfall card (the fields the code reads). -/
structure Face where
  oracle_text : Option String
  image_uris : Option ImageUris
  colors : Option (List String)
deriving DecidableEq, Repr

/-- The purchase links of a Scryfall card. -/
structure PurchaseUris where
  tcgplayer : Option String
  cardmarket : Option String
deriving DecidableEq, Repr

/-- Scryfall price strings; `p.usd ? parseFloat(p.usd) : null` is modelled
as the parsed value directly (`none` for a missing or empty field). -/
structure RawPrices where
  usd : Option ℚ
  usd_foil : Option ℚ
  usd_etched : Option ℚ
  eur : Option ℚ
  eur_foil : Option ℚ
deriving DecidableEq, Repr

/-- A raw Scryfall card response — exactly the fields `background.js`
reads.  Fields the Scryfall API guarantees on every card object
(`name`, `set_name`, `collector_number`) are plain; genuinely optional
ones are `Option`.  A JS boolean tested with `=== true` or plain
truthiness (`promo`, `digital`) is a `Bool`. -/
structure RawCard where
  name : String
  set_name : String
  set : Option String
  collector_number : String
  rarity : Option String
  type_line : Option String
  oracle_text : Option String
  colors : Option (List String)
  image_uris : Option ImageUris
  card_faces : List Face
  prices : Option RawPrices
  finishes : Option (List String)
  frame_effects : Option (List String)
  border_color : Option String
  promo : Bool
  digital : Bool
  tcgplayer_id : Option Nat
  tcgplayer_etched_id : Option Nat
  purchase_uris : Option PurchaseUris
  scryfall_uri : Option String
deriving DecidableEq, Repr

/-- JS `a || b` where `a` is a possibly-missing string (both `undefined`
and `""` are falsy). -/
def jsOrStr (o : Option String) (d : String) : String :=
  match o with
  | some s => if s = "" then d else s
  | none => d

/-- `safeUrl`: only http(s) URLs pass through, anything else becomes "". -/
def safeUrl (url : Option String) : String :=
  match url with
  | none => ""
  | some u =>
    if u = "" then ""
    else if jsStartsWith u "https://" || jsStartsWith u "http://" then u
    else ""

/-- Numeric value of a digit run. -/
def digitsVal (ds : List Char) : Nat :=
  ds.foldl (fun n c => n * 10 + (c.toNat - 48)) 0

/-- JS `parseInt` on the strings this code feeds it (no sign, no leading
whitespace): the value of the leading digit run, `none` for `NaN`. -/
def jsParseIntPre (s : String) : Option Nat :=
  let ds := s.toList.takeWhile Char.isDigit
  if ds.isEmpty then none else some (digitsVal ds)

/-- `safeParseCollectorNum`: numeric prefix of a collector number, with
`NaN` mapped to `Infinity` (modelled as the top element) so non-numeric
entries sort last. -/
def safeParseCollectorNum (cn : String) : WithTop ℚ :=
  match jsParseIntPre cn with
  | some n => ((n : ℚ) : WithTop ℚ)
  | none => ⊤

/-- First match of the regex `\/product\/(\d+)` in a URL (used to recover
a TCGPlayer product id from a purchase link). -/
def extractIdAfterProduct : List Char → Option Nat
  | [] => none
  | c :: cs =>
    let here :=
      if listStartsWith (c :: cs) ("/product/".toList) then
        let ds := ((c :: cs).drop 9).takeWhile Char.isDigit
        if ds.isEmpty then none else some (digitsVal ds)
      else none
    match here with
    | some n => some n
    | none => extractIdAfterProduct cs

/-- The formatted card record (`formatCard` output plus the fields
`handleLookup` adds during enrichment: `variantName` is `none` until the
override path sets it, `links.ebay` is filled by `handleLookup`). -/
structure Links where
  scryfall : String
  cardmarket : String
  tcgplayer : String
  ebay : String
deriving DecidableEq, Repr

/-- The price block of a formatted card. -/
structure CardPrices where
  low : Option ℚ
  mid : Option ℚ
  high : Option ℚ
  market : Option ℚ
  lowFoil : Option ℚ
  midFoil : Option ℚ
  highFoil : Option ℚ
  marketFoil : Option ℚ
  usd : Option ℚ
  usdFoil : Option ℚ
  usdEtched : Option ℚ
  eur : Option ℚ
  eurFoil : Option ℚ
  source : String
deriving DecidableEq, Repr

/-- The card record returned to callers. -/
structure Card where
  name : String
  set : String
  setCode : String
  collectorNumber : String
  rarity : String
  typeLine : String
  oracleText : String
  colors : List String
  imageSmall : String
  tcgplayerId : Option Nat
  finishes : List String
  frameEffects : List String
  borderColor : String
  isEtched : Bool
  variantName : Option String
  prices : CardPrices
  links : Links
deriving DecidableEq, Repr

/-- `formatCard`: format a raw Scryfall card into the record returned to
callers. -/
def formatCard (card : RawCard) : Card :=
  let p := card.prices.getD ⟨none, none, none, none, none⟩
  let faces := card.card_faces
  let imgs :=
    match card.image_uris with
    | some i => i
    | none => (faces.head?.bind Face.image_uris).getD ⟨none, none⟩
  let oracle0 := card.oracle_text.getD ""
  let oracleText :=
    if oracle0 = "" && !faces.isEmpty then
      String.intercalate "\n// \n"
        ((faces.map (fun f => f.oracle_text.getD "")).filter
          (fun s => !decide (s = "")))
    else oracle0
  let finishes := card.finishes.getD []
  let isEtched := finishes.contains "etched" && !(finishes.contains "nonfoil")
  let tcgplayerId0 : Option Nat :=
    match card.tcgplayer_id with
    | some i => if i = 0 then none else some i
    | none => none
  let tcgplayerId1 :=
    if isEtched then
      match card.tcgplayer_etched_id with
      | some e => if e = 0 then tcgplayerId0 else some e
      | none => tcgplayerId0
    else tcgplayerId0
  let tcgplayerId2 :=
    if tcgplayerId1.isNone then
      match card.purchase_uris.bind PurchaseUris.tcgplayer with
      | some u =>
        if u = "" then tcgplayerId1
        else
          match extractIdAfterProduct u.toList with
          | some n => some n
          | none => tcgplayerId1
      | none => tcgplayerId1
    else tcgplayerId1
  let frameEffects := card.frame_effects.getD []
  let borderColor := jsOrStr card.border_color "black"
  let colors0 := card.colors.getD []
  let colors :=
    if colors0.isEmpty && !faces.isEmpty then
      match faces.head?.bind Face.colors with
      | some cl => cl
      | none => colors0
    else colors0
  { name := card.name
    set := card.set_name
    setCode := jsToUpper (jsOrStr card.set "")
    collectorNumber := card.collector_number
    rarity := card.rarity.getD ""
    typeLine := card.type_line.getD ""
    oracleText := oracleText
    colors := colors
    imageSmall := jsOrStr imgs.small (jsOrStr imgs.normal "")
    tcgplayerId := tcgplayerId2
    finishes := finishes
    frameEffects := frameEffects
    borderColor := borderColor
    isEtched := isEtched
    variantName := none
    prices :=
      { low := none, mid := none, high := none, market := none,
        lowFoil := none, midFoil := none, highFoil := none, marketFoil := none,
        usd := p.usd, usdFoil := p.usd_foil, usdEtched := p.usd_etched,
        eur := p.eur, eurFoil := p.eur_foil,
        source := "scryfall" }
    links :=
      { scryfall := safeUrl card.scryfall_uri
        cardmarket := safeUrl (card.purchase_uris.bind PurchaseUris.cardmarket)
        tcgplayer := safeUrl (card.purchase_uris.bind PurchaseUris.tcgplayer)
        ebay := "" } }

-- ── eBay link construction ─────────────────────────────────────────

/-- Characters `encodeURIComponent` leaves unescaped. -/
def uriUnreserved (c : Char) : Bool :=
  c.isAlphanum || c ∈ ['-', '_', '.', '!', '~', '*', apoChar, '(', ')']

/-- Upper-case hexadecimal digit. -/
def hexDigit (n : Nat) : Char :=
  if n < 10 then Char.ofNat (48 + n) else Char.ofNat (55 + n)

/-- UTF-8 bytes of a character. -/
def utf8Bytes (c : Char) : List Nat :=
  let n := c.toNat
  if n < 128 then [n]
  else if n < 2048 then [192 + n / 64, 128 + n % 64]
  else if n < 65536 then [224 + n / 4096, 128 + (n / 64) % 64, 128 + n % 64]
  else [240 + n / 262144, 128 + (n / 4096) % 64, 128 + (n / 64) % 64,
        128 + n % 64]

/-- JS `encodeURIComponent`. -/
def encodeURIComponent (s : String) : String :=
  ⟨s.toList.foldr
    (fun c acc =>
      if uriUnreserved c then c :: acc
      else (utf8Bytes c).foldr
        (fun b acc2 => '%' :: hexDigit (b / 16) :: hexDigit (b % 16) :: acc2)
        acc)
    []⟩

/-- A double quote as a one-character string. -/
def dq : String := ⟨[quotChar]⟩

/-- `buildEbayLink`. -/
def buildEbayLink (name set : String) : String :=
  "https://www.ebay.com/sch/i.html?_nkw=" ++
    encodeURIComponent ("mtg " ++ dq ++ name ++ dq ++ " " ++ dq ++ set ++ dq) ++
    "&_sacat=38292&LH_Auction=1"

-- ── findPrinting: hint normalisation and candidate scoring ─────────

/-- Punctuation removed by findPrinting's local `norm`:
`[:\-–—''",\.!?()®™]` (ASCII apostrophe listed twice in the class). -/
def printingPunct : List Char :=
  [':', '-', '–', '—', apoChar, quotChar, ',', '.', '!', '?', '(', ')',
   '®', '™']

/-- findPrinting's `norm`: strip punctuation, collapse whitespace,
lower-case, trim (in the source order). -/
def printingNorm (s : String) : String :=
  ⟨trimWs ((collapseWs (s.toList.filter
      (fun c => !(c ∈ printingPunct)))).map Char.toLower)⟩

/-- findPrinting's `normDeep`: `norm`, then delete the marketing noise
words, then 19xx/20xx years, then a leading "magic the gathering" prefix
with its following whitespace, then collapse and trim. -/
def printingNormDeep (s : String) : String :=
  let r := (printingNorm s).toList
  let r := removeWordPats
    ["drop series", "superdrop", "winter", "summer", "fall", "spring"] r
  let r := removeYears r
  let r :=
    if listStartsWith r ("magic the gathering".toList) then
      (r.drop 19).dropWhile isWs
    else r
  ⟨trimWs (collapseWs r)⟩

/-- `NOISE_WORDS` of findPrinting. -/
def NOISE_WORDS : List String :=
  ["the", "of", "and", "for", "a", "an", "in", "on", "at", "to",
   "series", "drop", "superdrop", "edition", "set"]

/-- `extractKeyWords`: split on spaces, keep words longer than 2 that are
not noise words. -/
def extractKeyWords (s : String) : List String :=
  (splitWords s).filter (fun w => 2 < w.length && !(NOISE_WORDS.contains w))

/-- The bucket-qualifier words of the hint URL. -/
def QUAL_WORDS : List String := ["extras", "promos", "special", "tokens"]

/-- Strip `\b(extras|special|tokens|promos)\b` and re-collapse (the
core-match tier of the scorer). -/
def stripQualWords (s : String) : String :=
  ⟨trimWs (collapseWs (removeWordPats QUAL_WORDS s.toList))⟩

/-- Split an optional single trailing `\s+(Extras|Promos|Special|Tokens)`
qualifier off a hint remainder, as the lazy group of the regex
`^Commander\s+(.+?)(\s+(?:Extras|Promos|Special|Tokens))?$` does. -/
def splitTrailingQual (rest : List Char) : List Char × List Char :=
  let rev := rest.reverse
  let wordRev := rev.takeWhile (fun c => !isWs c)
  let afterWordRev := rev.drop wordRev.length
  let wsRev := afterWordRev.takeWhile isWs
  let preRev := afterWordRev.drop wsRev.length
  let word := wordRev.reverse
  if QUAL_WORDS.contains (jsToLower ⟨word⟩) && !wsRev.isEmpty
      && !preRev.isEmpty then
    (preRev.reverse, wsRev.reverse ++ word)
  else (rest, [])

/-- The Cardmarket-hint rewrite: `"Commander X [Q]" → "X Commander [Q]"`
unless `X` contains a deck/legends/masters word. -/
def normalizeCommanderHint (setHint : String) : String :=
  let cs := setHint.toList
  let lower := (jsToLower setHint).toList
  if listStartsWith lower ("commander".toList) then
    let afterCmd := cs.drop 9
    let wsRun := afterCmd.takeWhile isWs
    let rest := afterCmd.drop wsRun.length
    if wsRun.isEmpty || rest.isEmpty then setHint
    else
      let pq := splitTrailingQual rest
      if testWordPats ["deck", "decks", "legend", "legends", "master",
          "masters"] ⟨pq.1⟩ then
        setHint
      else (⟨pq.1⟩ : String) ++ " Commander" ++ ⟨pq.2⟩
  else setHint

/-- The keyword-overlap tier of findPrinting's scoring step (the block
guarded by `score < 500`).  `overlapRatio >= 0.5` is computed exactly:
`overlap / max(|target|,|cand|) ≥ 1/2  ↔  max ≤ 2·overlap`, and
`Math.round(overlapRatio * 300)` is `(600·overlap + m) / (2m)` rounded
down (round-half-up on the rational value). -/
def applyKeywordTier (score : Nat) (targetKW nKW : List String) : Nat :=
  if score < 500 && 0 < targetKW.length && 0 < nKW.length then
    let overlap := (targetKW.filter (fun w => nKW.contains w)).length
    let m := max targetKW.length nKW.length
    if m ≤ 2 * overlap && 2 ≤ overlap then
      max score (100 + (600 * overlap + m) / (2 * m))
    else if nKW.length ≤ 3 && nKW.all (fun w => targetKW.contains w) then
      max score 200
    else score
  else score

/-- The keyword overlap of the scorer: how many of the hint's keywords
appear in the candidate's keyword list. -/
def overlapKW (targetKW nKW : List String) : Nat :=
  (targetKW.filter (fun w => nKW.contains w)).length

/-- A candidate with its match score (the `matchType` the code also
records is only used for console logging and is omitted). -/
structure Scored where
  card : RawCard
  score : Nat
deriving DecidableEq

/-- The exact/core/substring tiers of findPrinting's scorer (the value of
`score` before the keyword tier runs). -/
def baseTierScore (target targetDeep : String) (c : RawCard) : Nat :=
  let n := printingNorm c.set_name
  let nDeep := printingNormDeep c.set_name
  if n = target || nDeep = targetDeep then 1000
  else
    let targetCore := stripQualWords target
    let nCore := stripQualWords n
    if nCore = targetCore then 900
    else if 4 ≤ nDeep.length && 4 ≤ targetDeep.length then
      if nDeep = targetDeep then 850
      else if jsIncludes nDeep targetDeep || jsIncludes targetDeep nDeep then
        500
      else 0
    else 0

/-- findPrinting's score for one candidate printing: exact 1000, core 900,
deep-exact 850, substring 500 (both deep forms at least 4 chars long),
then the additive keyword tier. -/
def scoreCandidate (target targetDeep : String) (targetKW : List String)
    (c : RawCard) : Nat :=
  applyKeywordTier (baseTierScore target targetDeep c) targetKW
    (extractKeyWords (printingNormDeep c.set_name))

-- ── findPrinting: variant classification and selection ─────────────

/-- `SPECIAL_FRAMES`. -/
def SPECIAL_FRAMES : List String :=
  ["extendedart", "showcase", "borderless", "inverted", "etched", "textured"]

/-- Does the collector number end in a letter (`/[a-z]$/i`)? -/
def lastCharIsLetter (s : String) : Bool :=
  match s.toList.getLast? with
  | some c => c.isAlpha
  | none => false

/-- A tied candidate annotated with its sort key and promo/special
classification.  `num` is `safeParseCollectorNum` (`Infinity` is the top
element); etched expansion adds one half. -/
structure Annotated where
  card : RawCard
  num : WithTop ℚ
  isPromo : Bool
  isSpecial : Bool
deriving DecidableEq

/-- The annotation step of findPrinting's tied-set handling. -/
def annotateOne (c : RawCard) : Annotated :=
  { card := c
    num := safeParseCollectorNum c.collector_number
    isPromo := c.promo || lastCharIsLetter c.collector_number
    isSpecial :=
      ((c.frame_effects.getD []).any (fun f => SPECIAL_FRAMES.contains f)) ||
        decide (c.border_color = some "borderless") }

/-- The etched expansion: a card whose finishes mix `etched` with a
non-etched finish becomes a regular entry (etched removed) plus an etched
entry at `num + 0.5` marked special. -/
def expandEtched (e : Annotated) : List Annotated :=
  let finishes := e.card.finishes.getD []
  let hasEtched := finishes.contains "etched"
  let hasOther := finishes.contains "nonfoil" || finishes.contains "foil"
  if hasEtched && hasOther then
    let regularCard :=
      { e.card with
        finishes := some (finishes.filter (fun f => !decide (f = "etched"))) }
    let etchedCard := { e.card with finishes := some ["etched"] }
    let etchedEntry : Annotated :=
      { e with
        card := etchedCard
        num := e.num + ((1 / 2 : ℚ) : WithTop ℚ)
        isSpecial := true }
    [{ e with card := regularCard }, etchedEntry]
  else [e]

/-- Stable ascending sort by `num`, as the JS comparator `a.num - b.num`
(`Infinity - Infinity` is `NaN`, treated as equal, so order is kept). -/
def sortByNum (l : List (Nat × Annotated)) : List (Nat × Annotated) :=
  stableSortBy (fun a b => decide (a.2.num ≤ b.2.num)) l

/-- Stable ascending sort of raw cards by parsed collector number
(`sortByNum` on plain tied candidates). -/
def sortCardsByNum (l : List RawCard) : List RawCard :=
  stableSortBy (fun a b =>
    decide (safeParseCollectorNum a.collector_number ≤
      safeParseCollectorNum b.collector_number)) l

/-- The annotated, etched-expanded, position-indexed entries of a tied
set (indices model JS object identity for the `c !== base` test). -/
def annotatedOf (setMatches : List RawCard) : List (Nat × Annotated) :=
  (((setMatches.map annotateOne).map expandEtched).flatten).enum

/-- Is an annotated entry eligible to be the base printing? -/
def isBaseEntry (ie : Nat × Annotated) : Bool :=
  !ie.2.isPromo && !ie.2.isSpecial

/-- The base/extras/promos selection over a tied set of printings.
Entries are indexed so that the JS identity test `c !== base` is exact. -/
def selectFromTied (setMatches : List RawCard) (setHint : String)
    (variant : Option Nat) : Option RawCard :=
  let isExtrasUrl := testWordPats QUAL_WORDS setHint
  let isPromosUrl := testWordPats ["promos"] setHint
  let variantGiven := match variant with
    | some v => 1 ≤ v
    | none => false
  if 1 < setMatches.length then
    let annotated := annotatedOf setMatches
    let baseCandidates := sortByNum (annotated.filter isBaseEntry)
    let base := baseCandidates.head?
    let extras :=
      sortByNum (annotated.filter (fun ie =>
        (match base with
         | some b => decide (ie.1 ≠ b.1)
         | none => true) && !ie.2.isPromo))
    let promos := sortByNum (annotated.filter (fun ie => ie.2.isPromo))
    if isPromosUrl then
      if !promos.isEmpty then
        let idx := match variant with
          | some v => if 1 ≤ v then min (v - 1) (promos.length - 1) else 0
          | none => 0
        (promos.get? idx).map (fun ie => ie.2.card)
      else setMatches.head?
    else if isExtrasUrl && variantGiven then
      if !extras.isEmpty then
        let v := variant.getD 1
        let idx := min (v - 1) (extras.length - 1)
        (extras.get? idx).map (fun ie => ie.2.card)
      else setMatches.head?
    else if isExtrasUrl then
      if !extras.isEmpty then (extras.head?).map (fun ie => ie.2.card)
      else setMatches.head?
    else if variantGiven then
      let sorted := sortCardsByNum setMatches
      let v := variant.getD 1
      let idx := min (v - 1) (sorted.length - 1)
      sorted.get? idx
    else
      match base with
      | some b => some b.2.card
      | none => setMatches.head?
  else setMatches.head?

/-- The last-resort set-code match of findPrinting. -/
def lastResortSetCode (printings : List RawCard) (setHint : String) :
    Option RawCard :=
  let shortHint := jsToLower ⟨setHint.toList.filter Char.isAlphanum⟩
  if shortHint.length ≤ 6 then
    printings.find? (fun c => decide (c.set = some shortHint))
  else none

/-- The pure selection pipeline of `findPrinting` applied to the fetched
printings: scoring, top-score tie set, Cardmarket-URL tie-break, and the
variant selection; network fetching and pagination live in the stateful
wrapper below. -/
def findPrintingSelect (printings : List RawCard) (setHint : String)
    (variant : Option Nat) : Option RawCard :=
  let normalizedHint := normalizeCommanderHint setHint
  let target := printingNorm normalizedHint
  let targetDeep := printingNormDeep normalizedHint
  let targetKW := extractKeyWords targetDeep
  let scored := printings.map
    (fun c => (⟨c, scoreCandidate target targetDeep targetKW c⟩ : Scored))
  let scoredMatches := stableSortBy (fun a b => decide (b.score ≤ a.score))
    (scored.filter (fun s => 0 < s.score))
  let topScore := ((scoredMatches.head?).map Scored.score).getD 0
  let setMatches0 := (scoredMatches.filter (fun m => decide (m.score = topScore))).map
    Scored.card
  let setMatches :=
    if 1 < setMatches0.length then
      match setMatches0.head? with
      | none => setMatches0
      | some first =>
        let matchedKW := extractKeyWords (printingNormDeep first.set_name)
        let extraKW := targetKW.filter (fun w => !(matchedKW.contains w))
        if extraKW.isEmpty then setMatches0
        else
          let cmMatches := setMatches0.filter (fun c =>
            let cmUrl := jsToLower
              ((c.purchase_uris.bind PurchaseUris.cardmarket).getD "")
            extraKW.all (fun kw => jsIncludes cmUrl kw))
          if 0 < cmMatches.length && cmMatches.length < setMatches0.length then
            cmMatches
          else setMatches0
    else setMatches0
  if setMatches.isEmpty then lastResortSetCode printings setHint
  else selectFromTied setMatches setHint variant

-- ── Rate-limited request queue timing model (processQueue) ─────────

/-- The configured minimum inter-request interval `RATE_MS`. -/
def RATE_MS : Nat := 100

/-- One fetch attempt's observable behaviour: how long the round trip
takes and the HTTP status it produces. -/
structure Attempt where
  duration : Nat
  status : Nat
deriving DecidableEq, Repr

/-- `r.ok`: status in the 2xx range. -/
def httpOk (s : Nat) : Bool := 200 ≤ s && s < 300

/-- The retry condition of `processQueue`: HTTP 429 or a 5xx status. -/
def retryable (s : Nat) : Bool := s == 429 || 500 ≤ s

/-- The retry loop of `processQueue` for one dequeued request, started at
attempt index `k` and time `t`: the start instant of every fetch actually
performed, and the instant the loop finishes.  `env` gives each attempt's
duration and status; a failed retryable attempt backs off
`200 * (attempt + 1)` ms before the next fetch (idealised exact timers). -/
def attemptTimesAux (env : Nat → Attempt) :
    Nat → Nat → Nat → List Nat × Nat
  | 0, _, t => ([], t)
  | fuel + 1, k, t =>
    let a := env k
    let e := t + a.duration
    if httpOk a.status then ([t], e)
    else if retryable a.status && decide (k < 2) then
      let rest := attemptTimesAux env fuel (k + 1) (e + 200 * (k + 1))
      (t :: rest.1, rest.2)
    else ([t], e)

/-- See `attemptTimesAux`; the loop performs at most three attempts, so
fuel 3 is never exhausted. -/
def attemptTimes (env : Nat → Attempt) (k t : Nat) : List Nat × Nat :=
  attemptTimesAux env 3 k t

/-- One queued request: when it is available to the loop, and how its
fetch attempts behave. -/
structure QEntry where
  readyAt : Nat
  attempts : Nat → Attempt

/-- The rate gate of `processQueue`:
`wait = RATE_MS - (now - lastRequest); if (wait > 0) sleep(wait)`, after
which `lastRequest = Date.now()`.  Returns that dispatch instant. -/
def dispatchAt (lastReq now : Nat) : Nat :=
  let wait : Int := (RATE_MS : Int) - ((now : Int) - (lastReq : Int))
  if 0 < wait then now + wait.toNat else now

/-- Run the queue loop over the pending entries in FIFO order, threading
`lastRequest` and the clock: for each entry, the instant `lastRequest` is
set (its dispatch) paired with all its fetch start times.  An entry is
examined at the later of the previous entry's completion and its own
`readyAt` (the loop can drain, stop, and be restarted by a later
enqueue). -/
def runQueue (lastReq now : Nat) : List QEntry → List (Nat × List Nat)
  | [] => []
  | e :: rest =>
    let now1 := max now e.readyAt
    let t0 := dispatchAt lastReq now1
    let att := attemptTimes e.attempts 0 t0
    (t0, att.1) :: runQueue t0 att.2 rest

/-- The entry-level dispatch instants (where the rate gate applies). -/
def entryDispatches (lastReq now : Nat) (es : List QEntry) : List Nat :=
  (runQueue lastReq now es).map Prod.fst

/-- Every fetch start instant, retries included, in time order. -/
def allFetchStarts (lastReq now : Nat) (es : List QEntry) : List Nat :=
  ((runQueue lastReq now es).map Prod.snd).flatten

/-- Are all adjacent instants at least `gap` apart? -/
def gapsAtLeast (gap : Nat) : List Nat → Bool
  | [] => true
  | [_] => true
  | a :: b :: rest => decide (a + gap ≤ b) && gapsAtLeast gap (b :: rest)

/-- A queue entry whose first attempt hits a 429 instantly and whose retry
succeeds instantly. -/
def retryEntry : QEntry :=
  { readyAt := 1000
    attempts := fun k => if k = 0 then ⟨0, 429⟩ else ⟨0, 200⟩ }

/-- A queue entry that succeeds instantly. -/
def plainEntry : QEntry :=
  { readyAt := 0
    attempts := fun _ => ⟨0, 200⟩ }

-- ── Generation controller model (stale-lookup suppression) ─────────

/-- Where a logically concurrent lookup stands.  `enriching` and
`doneCard` record the value of the generation counter observed at the
generation check and at the moment the merged card is returned. -/
inductive LookupPhase where
  | resolving
  | enriching (genAtCheck : Nat)
  | doneStale
  | doneCard (genAtCheck genAtReturn : Nat)
deriving DecidableEq, Repr

/-- One in-flight lookup with its captured generation. -/
structure LTask where
  gen : Nat
  phase : LookupPhase
deriving DecidableEq, Repr

/-- The generation controller state: `activeLookupGen` plus the tasks. -/
structure GenState where
  activeGen : Nat
  tasks : List LTask
deriving DecidableEq, Repr

/-- Scheduler events at the suspension points of `handleLookup`:
a non-refinement lookup start (`++activeLookupGen` and `flushPendingQueue`),
a refinement start (no increment), the completion of task `i`'s strategy
resolution (running the `gen < activeLookupGen` check), and the completion
of task `i`'s enrichment (returning the merged card). -/
inductive GenEv where
  | start
  | startRefinement
  | resolveDone (i : Nat)
  | enrichDone (i : Nat)
deriving DecidableEq, Repr

/-- One scheduler step. -/
def stepGen (s : GenState) : GenEv → GenState
  | .start =>
    { activeGen := s.activeGen + 1
      tasks := s.tasks ++ [⟨s.activeGen + 1, .resolving⟩] }
  | .startRefinement =>
    { s with tasks := s.tasks ++ [⟨s.activeGen, .resolving⟩] }
  | .resolveDone i =>
    { s with
      tasks := (s.tasks.enum).map (fun p =>
        match p.2.phase with
        | .resolving =>
          if p.1 = i then
            if p.2.gen < s.activeGen then { p.2 with phase := .doneStale }
            else { p.2 with phase := .enriching s.activeGen }
          else p.2
        | _ => p.2) }
  | .enrichDone i =>
    { s with
      tasks := (s.tasks.enum).map (fun p =>
        match p.2.phase with
        | .enriching gc =>
          if p.1 = i then { p.2 with phase := .doneCard gc s.activeGen }
          else p.2
        | _ => p.2) }

/-- The initial controller state. -/
def genInit : GenState := ⟨0, []⟩

/-- Run a schedule. -/
def runGen (evs : List GenEv) : GenState := evs.foldl stepGen genInit

/-- A task that completed with a merged card only did so after passing the
generation check while still current. -/
def taskCheckedCurrent (t : LTask) : Prop :=
  match t.phase with
  | .enriching gc => gc = t.gen
  | .doneCard gc _ => gc = t.gen
  | _ => True

instance (t : LTask) : Decidable (taskCheckedCurrent t) := by
  unfold taskCheckedCurrent
  cases t.phase <;> infer_instance

/-- The claim's reading: a merged card is never returned once a newer
lookup has started (the generation at return equals the task's own). -/
def taskReturnCurrent (t : LTask) : Prop :=
  match t.phase with
  | .doneCard _ gr => gr = t.gen
  | _ => True

instance (t : LTask) : Decidable (taskReturnCurrent t) := by
  unfold taskReturnCurrent
  cases t.phase <;> infer_instance

-- ── Lookup dispatcher skeleton (strategy precedence) ───────────────

/-- An inbound FETCH_CARD_PRICE message.  `none` models a falsy field
(absent, empty string, or zero id). -/
structure Msg where
  cardName : Option String
  tcgplayerId : Option Nat
  setHint : Option String
  setCode : Option String
  collectorNumber : Option String
  scryfallId : Option String
  variant : Option Nat
  cardmarketProductId : Option Nat
deriving DecidableEq, Repr

/-- The strategy the if/else chain of `handleLookup` selects. -/
inductive Strategy where
  | byScryfallId (id : String)
  | byTcgId (id : Nat)
  | byCollector (setCode num : String)
  | byNameAndSet (name setCode : String)
  | byName (name : Option String) (hint : Option String)
      (variant : Option Nat) (cmId : Option Nat)
deriving DecidableEq, Repr

/-- The dispatcher's strategy choice. -/
def selectStrategy (m : Msg) : Strategy :=
  match m.scryfallId, m.tcgplayerId with
  | some sid, _ => .byScryfallId sid
  | none, some tid => .byTcgId tid
  | none, none =>
    match m.setCode, m.collectorNumber, m.cardName with
    | some sc, some cn, _ => .byCollector sc cn
    | some sc, none, some nm => .byNameAndSet nm sc
    | _, _, _ => .byName m.cardName m.setHint m.variant m.cardmarketProductId

/-- The resolution phase of `handleLookup` with the five lookup functions
as oracles (failure objects collapse to `none` here; the stateful model
below keeps them).  Returns the resolved card and the remembered
`overrideTcgPlayerId`, which `handleLookup` hands to the price-enrichment
phase and to nothing else. -/
def resolvePhase (m : Msg)
    (byScry : String → Option Card)
    (byTcg : Nat → Option Card)
    (byCol : String → String → Option Card)
    (byNameSet : String → String → Option Card)
    (byName : Option String → Option String → Option Nat → Option Nat →
      Option Card) :
    Option Card × Option Nat :=
  match selectStrategy m with
  | .byScryfallId sid => (byScry sid, none)
  | .byTcgId tid =>
    match byTcg tid with
    | some c => (some c, none)
    | none =>
      match m.cardName with
      | some nm =>
        if nm = "Unknown" then (none, none)
        else
          match byName (some nm) m.setHint m.variant none with
          | some c => (some c, some tid)
          | none => (none, none)
      | none => (none, none)
  | .byCollector sc cn => (byCol sc cn, none)
  | .byNameAndSet nm sc => (byNameSet nm sc, none)
  | .byName nm hint v cm => (byName nm hint v cm, none)

-- ── Cache write with oldest-first eviction ─────────────────────────

/-- `CACHE_MAX` of the Scryfall result cache. -/
def CACHE_MAX : Nat := 500

/-- `TCGCSV_CACHE_MAX` of the price-group cache. -/
def TCGCSV_CACHE_MAX : Nat := 30

/-- The write path shared by `setCache` and the TCGCSV group cache:
JS-Map insert, then, if the size exceeds the maximum, delete the key
yielded first by `keys()` — the oldest-inserted key. -/
def cachePutEvict {α β : Type} [DecidableEq α] (maxSize : Nat)
    (m : List (α × β)) (k : α) (v : β) : List (α × β) :=
  let m1 := jsMapSet m k v
  if maxSize < m1.length then
    match m1.head? with
    | some p => jsMapDelete m1 p.1
    | none => m1
  else m1

-- ── Card search handler (handleSearch) ─────────────────────────────

/-- Scryfall autocomplete response body. -/
structure AutoResp where
  data : Option (List String)
deriving DecidableEq, Repr

/-- Response object of the SEARCH_CARDS handler. -/
structure SearchOut where
  success : Bool
  data : List String
deriving DecidableEq, Repr

/-- `handleSearch`: `fetched` is what the queued autocomplete request
resolved to (`none` when flushed, not found, or failed); the function
falls off its body — returning JS `undefined`, modelled `none` — when the
fetch resolves null. -/
def handleSearch (query : Option String) (fetched : Option AutoResp) :
    Option SearchOut :=
  match query with
  | none => some ⟨false, []⟩
  | some q =>
    if q.length < 2 then some ⟨false, []⟩
    else
      match fetched with
      | some d => some ⟨true, d.data.getD []⟩
      | none => none

-- ── Stateful lookup pipeline: state, oracle, caches ────────────────

/-- `CACHE_TTL` of the Scryfall result cache (30 minutes, in ms). -/
def CACHE_TTL : Nat := 30 * 60 * 1000

/-- `TCGCSV_CACHE_TTL` of the price-group cache (4 hours, in ms). -/
def TCGCSV_CACHE_TTL : Nat := 4 * 60 * 60 * 1000

/-- A result object cached in `SCRYFALL_CACHE`: success with a formatted
card (and the `printingMatched` flag when the strategy sets one), or a
failure with its error string. -/
inductive LookupResult where
  | ok (data : Card) (printingMatched : Option Bool)
  | err (msg : String)
deriving DecidableEq, Repr

/-- A `SCRYFALL_CACHE` entry (`{ val, ts }`). -/
structure CacheEntry where
  val : LookupResult
  ts : Nat
deriving DecidableEq, Repr

/-- A `TCGCSV_CACHE` entry (`{ ts, prices, products }`). -/
structure GroupEntry where
  ts : Nat
  prices : List (Nat × PriceQuad)
  products : List Product
deriving DecidableEq, Repr

/-- One page of a Scryfall list response. -/
structure SearchPage where
  data : List RawCard
  has_more : Bool
  next_page : Option String
deriving DecidableEq, Repr

/-- The network oracle: a deterministic response per endpoint and
argument.  `none` is a fetch whose result the code discards (HTTP failure
after retries, 404, or an unusable body) — `queuedFetch` resolves those to
`null`.  For the TCGCSV endpoints `none` covers `!res.ok` and
`!data.success`. -/
structure NetEnv where
  scryfallById : String → Option RawCard
  scryfallByTcgId : Nat → Option RawCard
  scryfallByCollector : String → String → Option RawCard
  namedFuzzy : String → Option RawCard
  namedFuzzySet : String → String → Option RawCard
  searchExactSet : String → String → Option SearchPage
  searchFuzzySet : String → String → Option SearchPage
  searchPrints : String → Option SearchPage
  nextPage : String → Option SearchPage
  cardmarketById : Nat → Option RawCard
  tcgGroups : Option (List Group)
  groupPrices : Nat → Option (List PriceRow)
  groupProducts : Nat → Option (List Product)

/-- The mutable module state of the strategy layer: the Scryfall result
cache, the generation counter, and a counter of the network requests this
layer issues.  (The dirty flags and the persistence timer only drive
storage writes and are not modelled.)  The state is split in two records
— this one and `TWorld` — because the lookup-strategy functions and the
TCGCSV price functions touch disjoint module variables. -/
structure SWorld where
  scryfallCache : List (String × CacheEntry)
  activeLookupGen : Nat
  fetchCount : Nat
deriving Repr

/-- The mutable module state of the TCGCSV layer: the price-group cache,
the memoised groups list, and a counter of the network requests this
layer issues. -/
structure TWorld where
  tcgcsvCache : List (Nat × GroupEntry)
  tcgcsvGroups : Option (List Group)
  fetchCount : Nat
deriving Repr

/-- The strategy-layer state at service-worker start. -/
def SWorld.init : SWorld := ⟨[], 0, 0⟩

/-- The TCGCSV-layer state at service-worker start. -/
def TWorld.init : TWorld := ⟨[], none, 0⟩

/-- Count one network request. -/
def SWorld.fetch1 (w : SWorld) : SWorld :=
  { w with fetchCount := w.fetchCount + 1 }

/-- Count one network request. -/
def TWorld.fetch1 (w : TWorld) : TWorld :=
  { w with fetchCount := w.fetchCount + 1 }

/-- `getCache`: fresh hit, else lazy deletion of an expired entry. -/
def getCache (w : SWorld) (now : Nat) (key : String) :
    Option LookupResult × SWorld :=
  match jsMapGet w.scryfallCache key with
  | some c =>
    if now - c.ts < CACHE_TTL then (some c.val, w)
    else (none, { w with scryfallCache := jsMapDelete w.scryfallCache key })
  | none => (none, w)

/-- `setCache`: write plus oldest-first eviction past `CACHE_MAX`. -/
def setCache (w : SWorld) (now : Nat) (key : String) (val : LookupResult) :
    SWorld :=
  { w with
    scryfallCache := cachePutEvict CACHE_MAX w.scryfallCache key ⟨val, now⟩ }

/-- `getTcgcsvGroups`: memoised groups list; a failed fetch resets the
memo promise so a later call retries. -/
def getTcgcsvGroups (env : NetEnv) (w : TWorld) :
    Option (List Group) × TWorld :=
  match w.tcgcsvGroups with
  | some gs => (some gs, w)
  | none =>
    let w := w.fetch1
    match env.tcgGroups with
    | some gs => (some gs, { w with tcgcsvGroups := some gs })
    | none => (none, w)

/-- The TCGCSV group-cache write (set + eviction past
`TCGCSV_CACHE_MAX`). -/
def tcgcsvCacheSet (w : TWorld) (gid : Nat) (e : GroupEntry) : TWorld :=
  { w with tcgcsvCache := cachePutEvict TCGCSV_CACHE_MAX w.tcgcsvCache gid e }

-- ── fetchTcgcsvPrices ──────────────────────────────────────────────

/-- The scan over every cached group that opens `fetchTcgcsvPrices`:
first fresh entry whose price map holds the product. -/
def cacheScanForProduct (w : TWorld) (now pid : Nat) : Option PriceQuad :=
  w.tcgcsvCache.findSome? (fun p =>
    if now - p.2.ts < TCGCSV_CACHE_TTL then jsMapGet p.2.prices pid
    else none)

/-- The product-matching logic shared verbatim by the fresh-cache branch
and the just-fetched branch of `fetchTcgcsvPrices`: direct id match, then
"product exists but unpriced" (the all-null quad), then the name
fallback.  (The fetched branch additionally guards the name fallback with
`products.length > 0`, which changes nothing: the fallback finds no
product in an empty list.) -/
def pricesFromGroupData (prices : List (Nat × PriceQuad))
    (products : List Product) (pid : Nat) (cardName : Option String) :
    Option PriceQuad :=
  match jsMapGet prices pid with
  | some q => some q
  | none =>
    if products.any (fun p => decide (p.productId = pid)) then some emptyQuad
    else
      match cardName with
      | none => none
      | some nm =>
        match findProductByName products nm with
        | some alt =>
          match jsMapGet prices alt.productId with
          | some q => some q
          | none => some emptyQuad
        | none => none

/-- The fetch-and-cache section of `fetchTcgcsvPrices`: `Promise.all` of
the prices and products endpoints (two requests), price-map build, cache
write with eviction, then the shared match logic.  A failed prices fetch
caches nothing. -/
def fetchGroupAndPrice (env : NetEnv) (now : Nat) (w : TWorld)
    (gid pid : Nat) (cardName : Option String) : Option PriceQuad × TWorld :=
  let w := w.fetch1.fetch1
  match env.groupPrices gid with
  | none => (none, w)
  | some rows =>
    let products := (env.groupProducts gid).getD []
    let priceMap := buildPriceMap rows
    let w := tcgcsvCacheSet w gid ⟨now, priceMap, products⟩
    (pricesFromGroupData priceMap products pid cardName, w)

/-- `fetchTcgcsvPrices`: prices for a product id within the single group
matched from the set name (with an optional card-name fallback). -/
def fetchTcgcsvPrices (env : NetEnv) (now : Nat) (w : TWorld)
    (pid? : Option Nat) (setName : String) (cardName : Option String) :
    Option PriceQuad × TWorld :=
  match pid? with
  | none => (none, w)
  | some pid =>
    if pid = 0 || setName = "" then (none, w)
    else
      match cacheScanForProduct w now pid with
      | some q => (some q, w)
      | none =>
        match getTcgcsvGroups env w with
        | (none, w1) => (none, w1)
        | (some groups, w1) =>
          match matchGroup groups setName with
          | none => (none, w1)
          | some gid =>
            match jsMapGet w1.tcgcsvCache gid with
            | some cached =>
              if now - cached.ts < TCGCSV_CACHE_TTL then
                (pricesFromGroupData cached.prices cached.products pid cardName,
                 w1)
              else fetchGroupAndPrice env now w1 gid pid cardName
            | none => fetchGroupAndPrice env now w1 gid pid cardName

-- ── fetchTcgcsvPricesDirectByProductId ─────────────────────────────

/-- The `{ prices, product, groupName }` record returned by
`fetchTcgcsvPricesDirectByProductId`. -/
structure DirectResult where
  prices : PriceQuad
  product : Option Product
  groupName : Option String
deriving DecidableEq, Repr

/-- The scan over every cached group that opens
`fetchTcgcsvPricesDirectByProductId`; note the `groupName: null` on this
path. -/
def cacheScanDirect (w : TWorld) (now pid : Nat) : Option DirectResult :=
  w.tcgcsvCache.findSome? (fun p =>
    if now - p.2.ts < TCGCSV_CACHE_TTL then
      match jsMapGet p.2.prices pid with
      | some q =>
        some ⟨q, p.2.products.find? (fun pr => decide (pr.productId = pid)),
          none⟩
      | none => none
    else none)

/-- The candidate loop of `fetchTcgcsvPricesDirectByProductId` for one
hint's ranked group candidates, threading the `triedGroups` set: cached
fresh groups are consulted in place, others are fetched (two requests)
and cached; a fetch failure just moves on. -/
def directCandLoop (env : NetEnv) (now pid : Nat) :
    List GroupMatch → List Nat → TWorld →
    Option DirectResult × List Nat × TWorld
  | [], tried, w => (none, tried, w)
  | c :: cs, tried, w =>
    if tried.contains c.groupId then directCandLoop env now pid cs tried w
    else
      let tried1 := c.groupId :: tried
      match jsMapGet w.tcgcsvCache c.groupId with
      | some cached =>
        if now - cached.ts < TCGCSV_CACHE_TTL then
          match jsMapGet cached.prices pid with
          | some q =>
            (some ⟨q,
              cached.products.find? (fun pr => decide (pr.productId = pid)),
              some c.name⟩, tried1, w)
          | none => directCandLoop env now pid cs tried1 w
        else
          let w := w.fetch1.fetch1
          match env.groupPrices c.groupId with
          | none => directCandLoop env now pid cs tried1 w
          | some rows =>
            let products := (env.groupProducts c.groupId).getD []
            let priceMap := buildPriceMap rows
            let w := tcgcsvCacheSet w c.groupId ⟨now, priceMap, products⟩
            match jsMapGet priceMap pid with
            | some q =>
              (some ⟨q,
                products.find? (fun pr => decide (pr.productId = pid)),
                some c.name⟩, tried1, w)
            | none => directCandLoop env now pid cs tried1 w
      | none =>
        let w := w.fetch1.fetch1
        match env.groupPrices c.groupId with
        | none => directCandLoop env now pid cs tried1 w
        | some rows =>
          let products := (env.groupProducts c.groupId).getD []
          let priceMap := buildPriceMap rows
          let w := tcgcsvCacheSet w c.groupId ⟨now, priceMap, products⟩
          match jsMapGet priceMap pid with
          | some q =>
            (some ⟨q,
              products.find? (fun pr => decide (pr.productId = pid)),
              some c.name⟩, tried1, w)
          | none => directCandLoop env now pid cs tried1 w

/-- The hint loop of `fetchTcgcsvPricesDirectByProductId` (falsy hints are
skipped; `triedGroups` is shared across hints). -/
def directHintLoop (env : NetEnv) (now pid : Nat) (groups : List Group) :
    List String → List Nat → TWorld → Option DirectResult × TWorld
  | [], _, w => (none, w)
  | h :: hs, tried, w =>
    if h = "" then directHintLoop env now pid groups hs tried w
    else
      match directCandLoop env now pid (matchAllGroups groups h) tried w with
      | (some r, _, w1) => (some r, w1)
      | (none, tried1, w1) => directHintLoop env now pid groups hs tried1 w1

/-- `fetchTcgcsvPricesDirectByProductId`: search a product id across every
group matched from the hints, with no name fallback. -/
def fetchTcgcsvPricesDirectByProductId (env : NetEnv) (now : Nat)
    (w : TWorld) (pid? : Option Nat) (setHints : List String) :
    Option DirectResult × TWorld :=
  match pid? with
  | none => (none, w)
  | some pid =>
    if pid = 0 then (none, w)
    else
      match cacheScanDirect w now pid with
      | some r => (some r, w)
      | none =>
        match getTcgcsvGroups env w with
        | (none, w1) => (none, w1)
        | (some groups, w1) => directHintLoop env now pid groups setHints [] w1

-- ── fetchTcgcsvPricesByName ────────────────────────────────────────

/-- The fetch step of `fetchTcgcsvPricesByName`: unlike
`fetchTcgcsvPrices`, both endpoints must succeed or nothing is cached. -/
def byNameFetchStep (env : NetEnv) (now : Nat) (w : TWorld) (gid : Nat) :
    Option GroupEntry × TWorld :=
  let w := w.fetch1.fetch1
  match env.groupPrices gid, env.groupProducts gid with
  | some rows, some prods =>
    let e : GroupEntry := ⟨now, buildPriceMap rows, prods⟩
    (some e, tcgcsvCacheSet w gid e)
  | _, _ => (none, w)

/-- `fetchTcgcsvPricesByName`: name+variant product search in the single
best-matched group.  (The `_productId`/`_productName` decorations the
code spreads into its result are read by no caller and are omitted.) -/
def fetchTcgcsvPricesByName (env : NetEnv) (now : Nat) (w : TWorld)
    (cardName setName : String) (frameEffects finishes : List String)
    (borderColor : String) : Option PriceQuad × TWorld :=
  if cardName = "" || setName = "" then (none, w)
  else
    match getTcgcsvGroups env w with
    | (none, w1) => (none, w1)
    | (some groups, w1) =>
      match matchGroup groups setName with
      | none => (none, w1)
      | some gid =>
        let step :=
          match jsMapGet w1.tcgcsvCache gid with
          | some cached =>
            if now - cached.ts < TCGCSV_CACHE_TTL then (some cached, w1)
            else byNameFetchStep env now w1 gid
          | none => byNameFetchStep env now w1 gid
        match step with
        | (none, w2) => (none, w2)
        | (some cached, w2) =>
          if cached.products.isEmpty then (none, w2)
          else
            let product :=
              match findProductByNameAndVariant cached.products cardName
                  frameEffects finishes borderColor with
              | some p => some p
              | none => findProductByName cached.products cardName
            match product with
            | none => (none, w2)
            | some p =>
              match jsMapGet cached.prices p.productId with
              | some q => (some q, w2)
              | none => (some emptyQuad, w2)

-- ── simplify (card-name cleanup for the fuzzy search) ──────────────

/-- Length of a match of `\s*OPEN[^]*?CLOSE` at the current position
(optional whitespace, an opening bracket, lazily up to the first closing
bracket); `none` when the bracket never closes. -/
def parenMatchLen (openC closeC : Char) (cs : List Char) : Option Nat :=
  let wsLen := (cs.takeWhile isWs).length
  match cs.drop wsLen with
  | c :: rest =>
    if c = openC then
      let inner := rest.takeWhile (fun x => !decide (x = closeC))
      if inner.length < rest.length then some (wsLen + 1 + inner.length + 1)
      else none
    else none
  | [] => none

/-- Left-to-right global deletion without boundary conditions (for the
bracket-group removals of `simplify`). -/
def scanRemovePlainAux (tryAt : List Char → Option Nat) :
    Nat → List Char → List Char
  | 0, cs => cs
  | _ + 1, [] => []
  | fuel + 1, c :: cs =>
    match tryAt (c :: cs) with
    | some (n + 1) => scanRemovePlainAux tryAt fuel (cs.drop n)
    | _ => c :: scanRemovePlainAux tryAt fuel cs

/-- See `scanRemovePlainAux`; each step consumes at least one character,
so the fuel `cs.length` is never exhausted. -/
def scanRemovePlain (tryAt : List Char → Option Nat) (cs : List Char) :
    List Char :=
  scanRemovePlainAux tryAt cs.length cs

/-- The variant keywords of `simplify`'s dash-suffix regex. -/
def DASH_KEYWORDS : List String :=
  ["foil", "etched", "extended", "borderless", "showcase", "full art",
   "retro", "surge", "promo"]

/-- Does `\s*[-–]\s*(Foil|…|V\.\d+)` match at this position (the trailing
`.*$` then swallows the rest of the string)? -/
def dashVariantAt (cs : List Char) : Bool :=
  let wsLen := (cs.takeWhile isWs).length
  match cs.drop wsLen with
  | d :: rest =>
    if d = '-' || d = '–' then
      let ws2 := (rest.takeWhile isWs).length
      let lowerAfter := (rest.drop ws2).map Char.toLower
      DASH_KEYWORDS.any (fun kw => listStartsWith lowerAfter kw.toList) ||
        (match lowerAfter with
         | 'v' :: '.' :: c :: _ => c.isDigit
         | _ => false)
    else false
  | [] => false

/-- Truncate at the first dash-variant suffix. -/
def cutDashVariant : List Char → List Char
  | [] => []
  | c :: cs => if dashVariantAt (c :: cs) then [] else c :: cutDashVariant cs

/-- `simplify`: strip `(...)` groups, `[...]` groups, a trailing
`- Foil|Etched|…` qualifier, and re-collapse whitespace. -/
def simplify (name : String) : String :=
  let r := scanRemovePlain (parenMatchLen '(' ')') name.toList
  let r := scanRemovePlain (parenMatchLen '[' ']') r
  let r := cutDashVariant r
  ⟨trimWs (collapseWs r)⟩

-- ── Lookup strategies (stateful) ───────────────────────────────────

/-- `lookupByTcgId`. -/
def lookupByTcgId (env : NetEnv) (now : Nat) (w : SWorld) (id : Nat) :
    LookupResult × SWorld :=
  let key := "tcg:" ++ toString id
  match getCache w now key with
  | (some r, w1) => (r, w1)
  | (none, w1) =>
    let w2 := w1.fetch1
    let r := match env.scryfallByTcgId id with
      | some card => LookupResult.ok (formatCard card) none
      | none => LookupResult.err ("TCG ID " ++ toString id ++ " not found")
    (r, setCache w2 now key r)

/-- `lookupByScryfallId`. -/
def lookupByScryfallId (env : NetEnv) (now : Nat) (w : SWorld) (id : String) :
    LookupResult × SWorld :=
  let key := "sf:" ++ id
  match getCache w now key with
  | (some r, w1) => (r, w1)
  | (none, w1) =>
    let w2 := w1.fetch1
    let r := match env.scryfallById id with
      | some card => LookupResult.ok (formatCard card) none
      | none => LookupResult.err ("Scryfall ID " ++ id ++ " not found")
    (r, setCache w2 now key r)

/-- `lookupByCollector`. -/
def lookupByCollector (env : NetEnv) (now : Nat) (w : SWorld)
    (setCode number : String) : LookupResult × SWorld :=
  let key := "col:" ++ setCode ++ ":" ++ number
  match getCache w now key with
  | (some r, w1) => (r, w1)
  | (none, w1) =>
    let w2 := w1.fetch1
    let r := match env.scryfallByCollector setCode number with
      | some card => LookupResult.ok (formatCard card) none
      | none => LookupResult.err (setCode ++ "/" ++ number ++ " not found")
    (r, setCache w2 now key r)

/-- `lookupByNameAndSet`: fuzzy-in-set, exact search, fuzzy search, then
an unconstrained fuzzy lookup, each step only on failure of the former. -/
def lookupByNameAndSet (env : NetEnv) (now : Nat) (w : SWorld)
    (name setCode : String) : LookupResult × SWorld :=
  let key := "set:" ++ setCode ++ ":" ++ name
  match getCache w now key with
  | (some r, w1) => (r, w1)
  | (none, w1) =>
    let w2 := w1.fetch1
    let step :=
      match env.namedFuzzySet name setCode with
      | some c => (some c, w2)
      | none =>
        let w3 := w2.fetch1
        match (env.searchExactSet name setCode).bind
            (fun pg => pg.data.head?) with
        | some c => (some c, w3)
        | none =>
          let w4 := w3.fetch1
          match (env.searchFuzzySet name setCode).bind
              (fun pg => pg.data.head?) with
          | some c => (some c, w4)
          | none =>
            let w5 := w4.fetch1
            (env.namedFuzzy name, w5)
    let r := match step.1 with
      | some c => LookupResult.ok (formatCard c) none
      | none =>
        LookupResult.err
          (dq ++ name ++ dq ++ " not found in " ++ setCode)
    (r, setCache step.2 now key r)

-- ── findPrinting (stateful wrapper) ────────────────────────────────

/-- The pagination loop of `findPrinting` (`page < MAX_PAGES` allows four
follow-up pages). -/
def fetchPages (env : NetEnv) :
    Nat → Option String → List RawCard → SWorld → List RawCard × SWorld
  | 0, _, acc, w => (acc, w)
  | _ + 1, none, acc, w => (acc, w)
  | fuel + 1, some url, acc, w =>
    let w1 := w.fetch1
    match env.nextPage url with
    | none => (acc, w1)
    | some pg =>
      if pg.data.isEmpty then (acc, w1)
      else
        fetchPages env fuel (if pg.has_more then pg.next_page else none)
          (acc ++ pg.data) w1

/-- `findPrinting`: fetch all printings (paginated), then the pure
selection pipeline. -/
def findPrinting (env : NetEnv) (w : SWorld) (cardName setHint : String)
    (variant : Option Nat) : Option RawCard × SWorld :=
  let w1 := w.fetch1
  match env.searchPrints cardName with
  | none => (none, w1)
  | some pg =>
    if pg.data.isEmpty then (none, w1)
    else
      let step :=
        if pg.has_more && pg.next_page.isSome then
          fetchPages env 4 pg.next_page pg.data w1
        else (pg.data, w1)
      (findPrintingSelect step.1 setHint variant, step.2)

-- ── lookupByName ───────────────────────────────────────────────────

/-- The `${variant || ''}` fragment of the name cache key. -/
def variantKeyStr (v : Option Nat) : String :=
  match v with
  | some n => if n = 0 then "" else toString n
  | none => ""

/-- The name-keyed main path of `lookupByName` (cache check, fuzzy
lookup, optional printing resolution, cache write). -/
def lookupByNameMain (env : NetEnv) (now : Nat) (w : SWorld)
    (cleaned : String) (setHint : Option String) (variant : Option Nat) :
    LookupResult × SWorld :=
  let key := "name:" ++ cleaned ++ ":" ++ setHint.getD "" ++ ":" ++
    variantKeyStr variant
  match getCache w now key with
  | (some r, w1) => (r, w1)
  | (none, w1) =>
    let w2 := w1.fetch1
    match env.namedFuzzy cleaned with
    | none =>
      let r := LookupResult.err (dq ++ cleaned ++ dq ++ " not found")
      (r, setCache w2 now key r)
    | some card =>
      let step :=
        match setHint with
        | some h =>
          if h = "" then ((card, false), w2)
          else
            match findPrinting env w2 card.name h variant with
            | (some printing, w3) => ((printing, true), w3)
            | (none, w3) => ((card, false), w3)
        | none => ((card, false), w2)
      let r := LookupResult.ok (formatCard step.1.1) (some step.1.2)
      (r, setCache step.2 now key r)

/-- `lookupByName`: optional exact Cardmarket-id shortcut (a plain fetch;
a miss falls through to the name path), then the name-keyed path. -/
def lookupByName (env : NetEnv) (now : Nat) (w : SWorld) (name : String)
    (setHint : Option String) (variant : Option Nat) (cmId : Option Nat) :
    LookupResult × SWorld :=
  let cleaned := simplify name
  match cmId with
  | some cm =>
    if cm = 0 then lookupByNameMain env now w cleaned setHint variant
    else
      let key := "cm:" ++ toString cm
      match getCache w now key with
      | (some r, w1) => (r, w1)
      | (none, w1) =>
        let w2 := w1.fetch1
        match env.cardmarketById cm with
        | some raw =>
          let r := LookupResult.ok (formatCard raw) none
          (r, setCache w2 now key r)
        | none => lookupByNameMain env now w2 cleaned setHint variant
  | none => lookupByNameMain env now w cleaned setHint variant

-- ── handleLookup ───────────────────────────────────────────────────

/-- The final response of `handleLookup`. -/
inductive LookupResponse where
  | ok (card : Card) (printingMatched : Bool)
  | err (msg : String)
deriving DecidableEq, Repr

/-- JS truthiness of an optional numeric id. -/
def jsTruthyNat (o : Option Nat) : Bool :=
  match o with
  | some n => !decide (n = 0)
  | none => false

/-- The strategy dispatch of `handleLookup` over the stateful lookups,
returning the result, the remembered `overrideTcgPlayerId`, and the
state.  (A message whose else-branch lands in `lookupByName` without a
card name would throw in JS; real messages always carry one — modelled
with the empty string.) -/
def resolveStage (env : NetEnv) (now : Nat) (w : SWorld) (m : Msg) :
    LookupResult × Option Nat × SWorld :=
  match m.scryfallId with
  | some sid =>
    let s := lookupByScryfallId env now w sid
    (s.1, none, s.2)
  | none =>
    match m.tcgplayerId with
    | some tid =>
      let s := lookupByTcgId env now w tid
      (match s.1 with
       | .ok _ _ => (s.1, none, s.2)
       | .err _ =>
         match m.cardName with
         | some nm =>
           if nm = "Unknown" then (s.1, none, s.2)
           else
             let s2 := lookupByName env now s.2 nm m.setHint m.variant none
             match s2.1 with
             | .ok _ _ => (s2.1, some tid, s2.2)
             | .err _ => (s2.1, none, s2.2)
         | none => (s.1, none, s.2))
    | none =>
      match m.setCode, m.collectorNumber with
      | some sc, some cn =>
        let s := lookupByCollector env now w sc cn
        (s.1, none, s.2)
      | _, _ =>
        match m.setCode, m.cardName with
        | some sc, some nm =>
          let s := lookupByNameAndSet env now w nm sc
          (s.1, none, s.2)
        | _, _ =>
          let s := lookupByName env now w (m.cardName.getD "") m.setHint
            m.variant m.cardmarketProductId
          (s.1, none, s.2)

/-- Set the eBay link on a card (done before and re-done after
enrichment). -/
def setEbay (card : Card) : Card :=
  { card with
    links := { card.links with ebay := buildEbayLink card.name card.set } }

/-- Remove the first occurrence of a pattern (JS `replace(pat, '')` with a
string pattern; an empty pattern changes nothing). -/
def removeFirstSub : List Char → List Char → List Char
  | [], _ => []
  | c :: cs, pat =>
    if listStartsWith (c :: cs) pat then (c :: cs).drop pat.length
    else c :: removeFirstSub cs pat

/-- JS `s.replace(pat, '')` for string patterns. -/
def replaceFirstStr (s pat : String) : String :=
  if pat = "" then s else ⟨removeFirstSub s.toList pat.toList⟩

/-- First match of `/\((\d+)\)/`: the digits of the first parenthesised
number. -/
def firstParenNum : List Char → Option String
  | [] => none
  | c :: cs =>
    let here :=
      if c = '(' then
        let ds := cs.takeWhile Char.isDigit
        if !ds.isEmpty &&
            (match cs.drop ds.length with
             | x :: _ => decide (x = ')')
             | [] => false) then
          some (⟨ds⟩ : String)
        else none
      else none
    match here with
    | some s => some s
    | none => firstParenNum cs

/-- The override-path enhancement of the card from TCGCSV product data
(name, set from the group name, variant suffix, image, parenthesised
collector number, finish detection, product-page link). -/
def applyOverrideProduct (card : Card) (dres : DirectResult) (oid : Nat) :
    Card :=
  match dres.product with
  | none => card
  | some product =>
    let card := { card with
      name := jsOrStr product.cleanName card.name
      set := jsOrStr dres.groupName card.set }
    let variantSuffix :=
      strTrim (replaceFirstStr product.name (product.cleanName.getD ""))
    let card :=
      if variantSuffix = "" then card
      else { card with variantName := some variantSuffix }
    let card :=
      match product.imageUrl with
      | some img => if img = "" then card else { card with imageSmall := img }
      | none => card
    let card :=
      match firstParenNum product.name.toList with
      | some ds => { card with collectorNumber := ds }
      | none => card
    let nameLower := jsToLower product.name
    let card :=
      if jsIncludes nameLower "rainbow foil" then
        { card with finishes := ["foil"] }
      else if jsIncludes nameLower "foil etched" ||
          jsIncludes nameLower "etched foil" then
        { card with finishes := ["etched"] }
      else if jsIncludes nameLower "foil" &&
          !jsIncludes nameLower "nonfoil" then
        { card with finishes := ["foil"] }
      else card
    { card with
      links := { card.links with
        tcgplayer := "https://www.tcgplayer.com/product/" ++ toString oid } }

/-- The non-override enrichment chain of `handleLookup`: primary group by
id only, then the multi-group id search, then the name fallback; without
a product id, the name+variant search. -/
def enrichNormal (env : NetEnv) (now : Nat) (w : TWorld) (card : Card) :
    Option PriceQuad × TWorld :=
  if jsTruthyNat card.tcgplayerId && !decide (card.set = "") then
    match fetchTcgcsvPrices env now w card.tcgplayerId card.set none with
    | (some q, w1) => (some q, w1)
    | (none, w1) =>
      match fetchTcgcsvPricesDirectByProductId env now w1 card.tcgplayerId
          [card.set] with
      | (some dres, w2) => (some dres.prices, w2)
      | (none, w2) =>
        fetchTcgcsvPrices env now w2 card.tcgplayerId card.set
          (some card.name)
  else if !decide (card.set = "") then
    fetchTcgcsvPricesByName env now w card.name card.set card.frameEffects
      card.finishes card.borderColor
  else (none, w)

/-- The price-merge block of `handleLookup`: copy the eight price fields
and tag the source (`tcgcsv` vs `tcgcsv-no-listings`). -/
def mergePrices (card : Card) (q : PriceQuad) : Card :=
  { card with
    prices := { card.prices with
      low := q.low
      mid := q.mid
      high := q.high
      market := q.market
      lowFoil := q.lowFoil
      midFoil := q.midFoil
      highFoil := q.highFoil
      marketFoil := q.marketFoil
      source := priceSource q } }

/-- `handleLookup`, executed sequentially at instant `now` (all
`Date.now()` reads within one run see the same idealised clock; with no
concurrent lookups the pending queue is empty, so `flushPendingQueue` is
a no-op and the generation check compares equal generations). -/
def handleLookup (env : NetEnv) (now : Nat) (ws : SWorld) (wt : TWorld)
    (m : Msg) : LookupResponse × SWorld × TWorld :=
  let isRefinement := m.cardmarketProductId.isSome && m.setHint.isNone &&
    m.setCode.isNone && m.scryfallId.isNone && m.tcgplayerId.isNone
  let ws := if isRefinement then ws
    else { ws with activeLookupGen := ws.activeLookupGen + 1 }
  let gen := ws.activeLookupGen
  match resolveStage env now ws m with
  | (.err e, _, ws1) => (.err e, ws1, wt)
  | (.ok data printingMatched, overrideTcgPlayerId, ws1) =>
    if gen < ws1.activeLookupGen then (.err "stale", ws1, wt)
    else
      let card0 := setEbay data
      let card0 :=
        match overrideTcgPlayerId with
        | some oid => { card0 with tcgplayerId := some oid }
        | none => card0
      let step :=
        match overrideTcgPlayerId with
        | some oid =>
          let hints :=
            (match m.setHint with
             | some h => if h = "" then [] else [h]
             | none => []) ++
            (if card0.set = "" then [] else [card0.set])
          match fetchTcgcsvPricesDirectByProductId env now wt (some oid)
              hints with
          | (some dres, wt2) =>
            ((some dres.prices, applyOverrideProduct card0 dres oid), wt2)
          | (none, wt2) => ((none, card0), wt2)
        | none =>
          match enrichNormal env now wt card0 with
          | (q, wt2) => ((q, card0), wt2)
      let card1 :=
        match step.1.1 with
        | some q => mergePrices step.1.2 q
        | none => step.1.2
      let card1 := setEbay card1
      (.ok card1 (printingMatched.getD true), ws1, step.2)

-- ── Concrete fixtures for scenarios and counterexamples ────────────

/-- A raw printing with the fields that matter for printing selection. -/
def mkPrinting (nm snm : String) (sc : Option String) (cn : String)
    (promo : Bool) (frames : List String) (border : String)
    (fins : List String) : RawCard :=
  { name := nm
    set_name := snm
    set := sc
    collector_number := cn
    rarity := some "rare"
    type_line := none
    oracle_text := none
    colors := none
    image_uris := none
    card_faces := []
    prices := none
    finishes := some fins
    frame_effects := some frames
    border_color := some border
    promo := promo
    digital := false
    tcgplayer_id := none
    tcgplayer_etched_id := none
    purchase_uris := none
    scryfall_uri := none }

/-- Base-preference scenario: the regular printing, number 10. -/
def p10c : RawCard :=
  mkPrinting "Test Card" "Shadows Beyond" (some "shb") "10" false [] "black"
    ["nonfoil", "foil"]

/-- Base-preference scenario: the borderless printing, number 11. -/
def p11c : RawCard :=
  mkPrinting "Test Card" "Shadows Beyond" (some "shb") "11" false []
    "borderless" ["nonfoil", "foil"]

/-- Base-preference scenario: the promo printing, number 12a. -/
def p12c : RawCard :=
  mkPrinting "Test Card" "Shadows Beyond" (some "shb") "12a" true [] "black"
    ["nonfoil", "foil"]

/-- Idempotence counterexample: the Scryfall card found by the name
fallback. -/
def rawOrb : RawCard :=
  mkPrinting "Static Orb" "Secret Lair" (some "sld") "1" false [] "black"
    ["nonfoil"]

/-- Idempotence counterexample: the TCGCSV product for the unknown
TCGPlayer id. -/
def orbProduct : Product :=
  ⟨99, "Static Orb (Galaxy Foil)", some "Static Orb",
    some "https://img.example/orb.jpg"⟩

/-- Idempotence counterexample: one priced row for that product. -/
def orbRow : PriceRow := ⟨some 99, some "Normal", some 1, some 2, some 3, some 4⟩

/-- Idempotence counterexample: the network oracle. -/
def ceEnv : NetEnv :=
  { scryfallById := fun _ => none
    scryfallByTcgId := fun _ => none
    scryfallByCollector := fun _ _ => none
    namedFuzzy := fun nm => if nm = "Static Orb" then some rawOrb else none
    namedFuzzySet := fun _ _ => none
    searchExactSet := fun _ _ => none
    searchFuzzySet := fun _ _ => none
    searchPrints := fun nm =>
      if nm = "Static Orb" then some ⟨[rawOrb], false, none⟩ else none
    nextPage := fun _ => none
    cardmarketById := fun _ => none
    tcgGroups := some [⟨77, "Secret Lair Drop"⟩]
    groupPrices := fun g => if g = 77 then some [orbRow] else none
    groupProducts := fun g => if g = 77 then some [orbProduct] else none }

/-- Idempotence counterexample: a lookup by a TCGPlayer id the primary
provider does not know, with the card name and set hint alongside. -/
def ceMsg : Msg :=
  ⟨some "Static Orb", some 99, some "Secret Lair", none, none, none, none,
    none⟩

/-- Blank the fields the id-override cache path is allowed to change (the
displayed set name and the eBay link derived from it). -/
def stripCard (c : Card) : Card :=
  { c with set := "", links := { c.links with ebay := "" } }

/-- Strip the fields the id-override cache path is allowed to change (the
displayed set name and the eBay link derived from it). -/
def stripVolatile : LookupResponse → LookupResponse
  | .ok c pm => .ok (stripCard c) pm
  | .err e => .err e

/-- Run 1 of the idempotence counterexample, from worker start. -/
def ceRun1 := handleLookup ceEnv 0 SWorld.init TWorld.init ceMsg

/-- Run 2 of the idempotence counterexample, one second later (well
within both cache TTLs). -/
def ceRun2 := handleLookup ceEnv 1000 ceRun1.2.1 ceRun1.2.2 ceMsg

/-- The displayed set name of a response. -/
def respSet : LookupResponse → String
  | .ok c _ => c.set
  | .err e => e

-- ── Canonical TCGCSV cache contents (idempotence analysis) ─────────

/-- The price map the TCGCSV layer builds for group `g` under `env`. -/
def pricesOf (env : NetEnv) (g : Nat) : List (Nat × PriceQuad) :=
  buildPriceMap ((env.groupPrices g).getD [])

/-- The product list the TCGCSV layer caches for group `g` under `env`. -/
def prodsOf (env : NetEnv) (g : Nat) : List Product :=
  (env.groupProducts g).getD []

/-- The entry every cache write for group `g` at instant `t0` produces. -/
def canonEntry (env : NetEnv) (t0 g : Nat) : GroupEntry :=
  ⟨t0, pricesOf env g, prodsOf env g⟩

/-- The quad group `g` holds for product `pid`. -/
def pidQuad (env : NetEnv) (pid g : Nat) : Option PriceQuad :=
  jsMapGet (pricesOf env g) pid

/-- The product record group `g` holds for product id `pid`. -/
def pidProd (env : NetEnv) (pid g : Nat) : Option Product :=
  (prodsOf env g).find? (fun pr => decide (pr.productId = pid))

/-- The key list of the TCGCSV group cache. -/
def tKeys (w : TWorld) : List Nat := w.tcgcsvCache.map Prod.fst

/-- Every cached group entry is the canonical entry written at `t0`. -/
def canonCache (env : NetEnv) (t0 : Nat) (w : TWorld) : Prop :=
  ∀ p ∈ w.tcgcsvCache, p.2 = canonEntry env t0 p.1

/-- No cached group prices the product. -/
def noPid (env : NetEnv) (pid : Nat) (w : TWorld) : Prop :=
  ∀ g ∈ tKeys w, pidQuad env pid g = none

/-- At most the single group `G` among the cached ones prices the
product. -/
def onlyPid (env : NetEnv) (pid G : Nat) (w : TWorld) : Prop :=
  ∀ g ∈ tKeys w, g ≠ G → pidQuad env pid g = none

/-- The environment hypotheses of the idempotence analysis: the groups
index and every consulted endpoint answer, and the groups fit the group
cache without eviction. -/
def envOk (env : NetEnv) (gs : List Group) : Prop :=
  env.tcgGroups = some gs ∧
  (∀ g, (env.groupPrices g).isSome = true) ∧
  (∀ g, (env.groupProducts g).isSome = true) ∧
  (∀ c, (env.cardmarketById c).isSome = true) ∧
  (gs.map (fun g => g.groupId)).Nodup ∧
  gs.length ≤ TCGCSV_CACHE_MAX

/-- The run-1 invariant of the TCGCSV cache: canonical entries, keys
drawn from the groups index, and no duplicate keys. -/
def tcgInv (env : NetEnv) (gs : List Group) (t0 : Nat) (w : TWorld) :
    Prop :=
  canonCache env t0 w ∧
  (∀ k ∈ tKeys w, k ∈ gs.map (fun g => g.groupId)) ∧
  (tKeys w).Nodup

/-- The pure product-and-price computation of `fetchTcgcsvPricesByName`
on the canonical data of the matched group. -/
def byNameResult (env : NetEnv) (gid : Nat) (cardName : String)
    (frameEffects finishes : List String) (borderColor : String) :
    Option PriceQuad :=
  if (prodsOf env gid).isEmpty then none
  else
    let product :=
      match findProductByNameAndVariant (prodsOf env gid) cardName
          frameEffects finishes borderColor with
      | some p => some p
      | none => findProductByName (prodsOf env gid) cardName
    match product with
    | none => none
    | some p =>
      match jsMapGet (pricesOf env gid) p.productId with
      | some q => some q
      | none => some emptyQuad

/-- A total network oracle for the idempotence replay scenario. -/
def wEnv : NetEnv :=
  { ceEnv with
    groupPrices := fun g => some (if g = 77 then [orbRow] else [])
    groupProducts := fun g => some (if g = 77 then [orbProduct] else [])
    cardmarketById := fun _ => some rawOrb }

-- ═══════════════════════════════════════════════════════════════════
-- Theorems
-- ═══════════════════════════════════════════════════════════════════

-- ── Helper lemmas ──────────────────────────────────────────────────

theorem safeUrl_http (u : Option String) :
    safeUrl u = "" ∨ jsStartsWith (safeUrl u) "https://" = true ∨
      jsStartsWith (safeUrl u) "http://" = true := by
  unfold safeUrl
  cases u with
  | none => exact Or.inl rfl
  | some s =>
    by_cases h1 : s = ""
    · simp [h1]
    · simp only [h1, if_false]
      by_cases h2 : (jsStartsWith s "https://" || jsStartsWith s "http://") = true
      · rw [if_pos h2]
        rcases Bool.or_eq_true_iff.mp h2 with h3 | h3
        · exact Or.inr (Or.inl h3)
        · exact Or.inr (Or.inr h3)
      · rw [if_neg h2]
        exact Or.inl rfl

theorem formatCard_links (raw : RawCard) :
    (formatCard raw).links =
      ⟨safeUrl raw.scryfall_uri,
       safeUrl (raw.purchase_uris.bind PurchaseUris.cardmarket),
       safeUrl (raw.purchase_uris.bind PurchaseUris.tcgplayer), ""⟩ := rfl

-- ── C9 ─────────────────────────────────────────────────────────────

/-- C9: for every provider response, each of the three provider links
(scryfall, cardmarket, tcgplayer) in the formatted card record is either
the empty string or a string beginning with `https://` or `http://`; a
link with any other scheme is never produced. -/
theorem C9_links_safe (raw : RawCard) :
    ((formatCard raw).links.scryfall = "" ∨
      jsStartsWith (formatCard raw).links.scryfall "https://" = true ∨
      jsStartsWith (formatCard raw).links.scryfall "http://" = true) ∧
    ((formatCard raw).links.cardmarket = "" ∨
      jsStartsWith (formatCard raw).links.cardmarket "https://" = true ∨
      jsStartsWith (formatCard raw).links.cardmarket "http://" = true) ∧
    ((formatCard raw).links.tcgplayer = "" ∨
      jsStartsWith (formatCard raw).links.tcgplayer "https://" = true ∨
      jsStartsWith (formatCard raw).links.tcgplayer "http://" = true) := by
  rw [formatCard_links raw]
  exact ⟨safeUrl_http _, safeUrl_http _, safeUrl_http _⟩

-- ── C10 ────────────────────────────────────────────────────────────

/-- C10: for a query of length at least 2 whose queued autocomplete
request resolves to null, `handleSearch` returns `undefined` (modelled
`none`) rather than a success/data object; the `{success: false, data: []}`
object arises only for a missing query or one shorter than 2 characters. -/
theorem C10_search_undefined :
    (∀ (q : String) (fetched : Option AutoResp), 2 ≤ q.length →
      fetched = none → handleSearch (some q) fetched = none) ∧
    (∀ (query : Option String) (fetched : Option AutoResp),
      handleSearch query fetched = some ⟨false, []⟩ →
      query = none ∨ ∃ q, query = some q ∧ q.length < 2) := by
  constructor
  · intro q f hq hf
    subst hf
    simp [handleSearch, Nat.not_lt.mpr hq]
  · intro query f h
    match query with
    | none => exact Or.inl rfl
    | some q =>
      refine Or.inr ⟨q, rfl, ?_⟩
      by_contra hlen
      rw [Nat.not_lt] at hlen
      simp only [handleSearch, Nat.not_lt.mpr hlen, if_false] at h
      match f with
      | some d => simp at h
      | none => simp at h

/-- Witness for C10 at concrete inputs. -/
theorem C10_search_undefined_witness :
    handleSearch (some "ab") none = none :=
  C10_search_undefined.1 "ab" none (by decide) rfl

-- ── C4 ─────────────────────────────────────────────────────────────

/-- C4 (counterexample): a successful price fetch can produce a quad whose
only non-null field is `high` (one TCGCSV row carrying only `highPrice`);
the merge tags it `tcgcsv-no-listings` even though not every price field
in the quad is null, refuting the "iff every field is null" claim. -/
theorem C4_counterexample :
    buildPriceMap [⟨some 1, some "Normal", none, none, some 5, none⟩] =
      [(1, { emptyQuad with high := some 5 })] ∧
    priceSource { emptyQuad with high := some 5 } = "tcgcsv-no-listings" ∧
    ({ emptyQuad with high := some 5 } : PriceQuad).high ≠ none := by decide

/-- C4 (amended): the `tcgcsv-no-listings` tag appears exactly when the
six consulted fields — low, mid, market and their foil counterparts — are
all null (`high` and `highFoil` are not consulted), and the plain
`tcgcsv` tag exactly otherwise. -/
theorem C4_amended (q : PriceQuad) :
    (priceSource q = "tcgcsv-no-listings" ↔
      q.low = none ∧ q.mid = none ∧ q.market = none ∧
      q.lowFoil = none ∧ q.midFoil = none ∧ q.marketFoil = none) ∧
    (priceSource q = "tcgcsv" ↔
      ¬(q.low = none ∧ q.mid = none ∧ q.market = none ∧
        q.lowFoil = none ∧ q.midFoil = none ∧ q.marketFoil = none)) := by
  obtain ⟨l, m, h, mk, lf, mf, hf, mkf⟩ := q
  simp only [priceSource, hasAnyPrice]
  cases l <;> cases m <;> cases mk <;> cases lf <;> cases mf <;> cases mkf <;>
    simp_all

-- ── JS-map lemmas (for the cache-eviction claim) ───────────────────

theorem fst_setEntry {α β : Type} [DecidableEq α] (k : α) (v : β)
    (p : α × β) : (if p.1 = k then (k, v) else p).1 = p.1 := by
  split <;> simp_all

theorem jsMapSet_keys_has {α β : Type} [DecidableEq α]
    (m : List (α × β)) (k : α) (v : β)
    (h : m.any (fun p => decide (p.1 = k)) = true) :
    (jsMapSet m k v).map Prod.fst = m.map Prod.fst := by
  simp only [jsMapSet, h, if_true, List.map_map]
  exact List.map_congr_left (fun p _ => fst_setEntry k v p)

theorem jsMapSet_fresh {α β : Type} [DecidableEq α]
    (m : List (α × β)) (k : α) (v : β)
    (h : m.any (fun p => decide (p.1 = k)) = false) :
    jsMapSet m k v = m ++ [(k, v)] := by
  simp [jsMapSet, h]

theorem jsMapSet_length_le {α β : Type} [DecidableEq α]
    (m : List (α × β)) (k : α) (v : β) :
    (jsMapSet m k v).length ≤ m.length + 1 := by
  by_cases h : m.any (fun p => decide (p.1 = k)) = true
  · simp [jsMapSet, h]
  · rw [jsMapSet_fresh m k v (Bool.eq_false_iff.mpr h)]
    simp

theorem jsMapSet_nodup {α β : Type} [DecidableEq α]
    (m : List (α × β)) (k : α) (v : β)
    (h : (m.map Prod.fst).Nodup) :
    ((jsMapSet m k v).map Prod.fst).Nodup := by
  by_cases hc : m.any (fun p => decide (p.1 = k)) = true
  · rw [jsMapSet_keys_has m k v hc]; exact h
  · rw [jsMapSet_fresh m k v (Bool.eq_false_iff.mpr hc)]
    rw [List.map_append, List.nodup_append]
    refine ⟨h, List.nodup_singleton _, ?_⟩
    intro a ha hb
    simp only [List.map_cons, List.map_nil, List.mem_singleton] at hb
    subst hb
    apply hc
    rw [List.any_eq_true]
    rcases List.mem_map.mp ha with ⟨p, hp, hpk⟩
    exact ⟨p, hp, by simp [hpk]⟩

theorem jsMapDelete_cons_self {α β : Type} [DecidableEq α]
    (h : α × β) (t : List (α × β))
    (hn : (((h :: t)).map Prod.fst).Nodup) :
    jsMapDelete (h :: t) h.1 = t := by
  simp only [List.map_cons, List.nodup_cons] at hn
  simp only [jsMapDelete, List.filter_cons]
  rw [if_neg (by simp)]
  apply List.filter_eq_self.mpr
  intro p hp
  have : p.1 ≠ h.1 := by
    intro he
    exact hn.1 (he ▸ List.mem_map_of_mem Prod.fst hp)
  simp [this]

/-- One `cachePutEvict` step: the size bound, key nodup preservation, and
the eviction characterisation (when the insert grew past the maximum, the
entry dropped is exactly the oldest-inserted one — the head). -/
theorem cachePutEvict_step {α β : Type} [DecidableEq α] (maxSize : Nat)
    (hmax : 1 ≤ maxSize) (m : List (α × β)) (k : α) (v : β)
    (hlen : m.length ≤ maxSize) (hnd : (m.map Prod.fst).Nodup) :
    (cachePutEvict maxSize m k v).length ≤ maxSize ∧
    ((cachePutEvict maxSize m k v).map Prod.fst).Nodup ∧
    (maxSize < (jsMapSet m k v).length →
      cachePutEvict maxSize m k v = (jsMapSet m k v).tail ∧
      (jsMapSet m k v).head? = m.head?) := by
  have hnd1 := jsMapSet_nodup m k v hnd
  by_cases hc : m.any (fun p => decide (p.1 = k)) = true
  · have hkeys := jsMapSet_keys_has m k v hc
    have hlen1 : (jsMapSet m k v).length = m.length := by
      have := congrArg List.length hkeys
      simpa using this
    have hno : ¬ maxSize < (jsMapSet m k v).length := by omega
    refine ⟨?_, ?_, fun hcon => absurd hcon hno⟩
    · simp only [cachePutEvict, if_neg hno]; omega
    · simp only [cachePutEvict, if_neg hno]; exact hnd1
  · have hfresh := jsMapSet_fresh m k v (Bool.eq_false_iff.mpr hc)
    have hlen1 : (jsMapSet m k v).length = m.length + 1 := by
      rw [hfresh]; simp
    by_cases hgrow : maxSize < (jsMapSet m k v).length
    · -- eviction: m has exactly maxSize entries and is nonempty
      have hm : m.length = maxSize := by omega
      have hne : m ≠ [] := by
        intro he; rw [he] at hm; simp at hm; omega
      obtain ⟨h0, t, rfl⟩ := List.exists_cons_of_ne_nil hne
      have hm1 : jsMapSet (h0 :: t) k v = h0 :: (t ++ [(k, v)]) := by
        rw [hfresh]; simp
      have hgrow2 : maxSize < (h0 :: (t ++ [(k, v)])).length := by
        rw [← hm1]; exact hgrow
      have hdel :
          cachePutEvict maxSize (h0 :: t) k v = t ++ [(k, v)] := by
        unfold cachePutEvict
        rw [hm1, if_pos hgrow2]
        simp only [List.head?_cons]
        exact jsMapDelete_cons_self h0 (t ++ [(k, v)]) (hm1 ▸ hnd1)
      refine ⟨?_, ?_, fun _ => ⟨?_, ?_⟩⟩
      · rw [hdel]
        simp only [List.length_cons] at hm
        simp only [List.length_append, List.length_cons, List.length_nil]
        omega
      · rw [hdel]
        have := hm1 ▸ hnd1
        simp only [List.map_cons, List.nodup_cons] at this
        exact this.2
      · rw [hdel, hm1]
        rfl
      · rw [hm1]; simp
    · refine ⟨?_, ?_, fun hcon => absurd hcon hgrow⟩
      · simp only [cachePutEvict, if_neg hgrow]; omega
      · simp only [cachePutEvict, if_neg hgrow]; exact hnd1

theorem cachePut_fold_inv {α β : Type} [DecidableEq α] (maxSize : Nat)
    (hmax : 1 ≤ maxSize) (ops : List (α × β)) :
    ∀ m : List (α × β), m.length ≤ maxSize → (m.map Prod.fst).Nodup →
      ((ops.foldl (fun acc p => cachePutEvict maxSize acc p.1 p.2)
          m).length ≤ maxSize ∧
       (((ops.foldl (fun acc p => cachePutEvict maxSize acc p.1 p.2)
          m)).map Prod.fst).Nodup) := by
  induction ops with
  | nil => intro m h1 h2; exact ⟨h1, h2⟩
  | cons op rest ih =>
    intro m h1 h2
    have step := cachePutEvict_step maxSize hmax m op.1 op.2 h1 h2
    exact ih (cachePutEvict maxSize m op.1 op.2) step.1 step.2.1

-- ── C7 ─────────────────────────────────────────────────────────────

/-- C7: for both caches (the result cache with `CACHE_MAX = 500` and the
price-group cache with `TCGCSV_CACHE_MAX = 30`) and every sequence of put
operations from the empty table, the table never exceeds its maximum
after a put returns; and whenever an insert pushes the table past the
maximum, the single entry evicted is the oldest-inserted one (the head of
the insertion-ordered table). -/
theorem C7_cache_eviction :
    (∀ ops : List (String × CacheEntry),
      (ops.foldl (fun m p => cachePutEvict CACHE_MAX m p.1 p.2)
        []).length ≤ CACHE_MAX) ∧
    (∀ ops : List (Nat × GroupEntry),
      (ops.foldl (fun m p => cachePutEvict TCGCSV_CACHE_MAX m p.1 p.2)
        []).length ≤ TCGCSV_CACHE_MAX) ∧
    (∀ (m : List (String × CacheEntry)) (k : String) (v : CacheEntry),
      m.length ≤ CACHE_MAX → (m.map Prod.fst).Nodup →
      CACHE_MAX < (jsMapSet m k v).length →
      cachePutEvict CACHE_MAX m k v = (jsMapSet m k v).tail ∧
      (jsMapSet m k v).head? = m.head?) ∧
    (∀ (m : List (Nat × GroupEntry)) (k : Nat) (v : GroupEntry),
      m.length ≤ TCGCSV_CACHE_MAX → (m.map Prod.fst).Nodup →
      TCGCSV_CACHE_MAX < (jsMapSet m k v).length →
      cachePutEvict TCGCSV_CACHE_MAX m k v = (jsMapSet m k v).tail ∧
      (jsMapSet m k v).head? = m.head?) := by
  refine ⟨?_, ?_, ?_, ?_⟩
  · intro ops
    exact (cachePut_fold_inv CACHE_MAX (by decide) ops [] (by simp)
      (by simp)).1
  · intro ops
    exact (cachePut_fold_inv TCGCSV_CACHE_MAX (by decide) ops [] (by simp)
      (by simp)).1
  · intro m k v h1 h2 h3
    exact (cachePutEvict_step CACHE_MAX (by decide) m k v h1 h2).2.2 h3
  · intro m k v h1 h2 h3
    exact (cachePutEvict_step TCGCSV_CACHE_MAX (by decide) m k v h1 h2).2.2 h3

/-- Witness for C7: a full 30-entry group cache evicts exactly its oldest
entry on inserting a fresh key. -/
theorem C7_cache_eviction_witness :
    cachePutEvict TCGCSV_CACHE_MAX
        ((List.range TCGCSV_CACHE_MAX).map
          (fun i => (i, (⟨0, [], []⟩ : GroupEntry)))) 30 ⟨0, [], []⟩ =
      (jsMapSet ((List.range TCGCSV_CACHE_MAX).map
          (fun i => (i, (⟨0, [], []⟩ : GroupEntry)))) 30 ⟨0, [], []⟩).tail ∧
    (jsMapSet ((List.range TCGCSV_CACHE_MAX).map
        (fun i => (i, (⟨0, [], []⟩ : GroupEntry)))) 30 ⟨0, [], []⟩).head? =
      ((List.range TCGCSV_CACHE_MAX).map
        (fun i => (i, (⟨0, [], []⟩ : GroupEntry)))).head? :=
  C7_cache_eviction.2.2.2
    ((List.range TCGCSV_CACHE_MAX).map
      (fun i => (i, (⟨0, [], []⟩ : GroupEntry)))) 30 ⟨0, [], []⟩
    (by decide) (by decide) (by decide)

-- ── C3 ─────────────────────────────────────────────────────────────

/-- C3: the dispatcher evaluates the five strategies in the fixed
precedence order of the if/else chain of `handleLookup` — (1) the id the
spec calls the secondary-provider product id (`scryfallId`, looked up in
the Scryfall catalog), (2) the product id looked up via the primary
catalog (`tcgplayerId`), (3) set code + collector number, (4) set code +
name, (5) free-text name — each strategy firing exactly when the earlier
identifiers are absent; and under strategy (2), when the primary catalog
does not recognise the id, the dispatcher falls back to the name-based
lookup (with the Cardmarket id forced null) and remembers the original id
as `overrideTcgPlayerId` exactly when that fallback succeeds — an
override that the resolution result itself never incorporates, being
handed only to the price-enrichment phase. -/
theorem C3_strategy_precedence (m : Msg)
    (byScry : String → Option Card) (byTcg : Nat → Option Card)
    (byCol : String → String → Option Card)
    (byNameSet : String → String → Option Card)
    (byName : Option String → Option String → Option Nat → Option Nat →
      Option Card) :
    (∀ sid, m.scryfallId = some sid →
      resolvePhase m byScry byTcg byCol byNameSet byName =
        (byScry sid, none)) ∧
    (∀ tid, m.scryfallId = none → m.tcgplayerId = some tid →
      ((∀ c, byTcg tid = some c →
        resolvePhase m byScry byTcg byCol byNameSet byName =
          (some c, none)) ∧
       (byTcg tid = none →
        ((∀ nm, m.cardName = some nm → nm ≠ "Unknown" →
          resolvePhase m byScry byTcg byCol byNameSet byName =
            (byName (some nm) m.setHint m.variant none,
             if (byName (some nm) m.setHint m.variant none).isSome then
               some tid
             else none)) ∧
         (m.cardName = none ∨ m.cardName = some "Unknown" →
          resolvePhase m byScry byTcg byCol byNameSet byName =
            (none, none)))))) ∧
    (∀ sc cn, m.scryfallId = none → m.tcgplayerId = none →
      m.setCode = some sc → m.collectorNumber = some cn →
      resolvePhase m byScry byTcg byCol byNameSet byName =
        (byCol sc cn, none)) ∧
    (∀ sc nm, m.scryfallId = none → m.tcgplayerId = none →
      m.collectorNumber = none → m.setCode = some sc → m.cardName = some nm →
      resolvePhase m byScry byTcg byCol byNameSet byName =
        (byNameSet nm sc, none)) ∧
    (m.scryfallId = none → m.tcgplayerId = none →
      (m.setCode = none ∨ (m.collectorNumber = none ∧ m.cardName = none)) →
      resolvePhase m byScry byTcg byCol byNameSet byName =
        (byName m.cardName m.setHint m.variant m.cardmarketProductId,
         none)) := by
  refine ⟨?_, ?_, ?_, ?_, ?_⟩
  · intro sid hsid
    simp [resolvePhase, selectStrategy, hsid]
  · intro tid hs ht
    constructor
    · intro c hc
      simp [resolvePhase, selectStrategy, hs, ht, hc]
    · intro hmiss
      constructor
      · intro nm hnm hunk
        cases hbn : byName (some nm) m.setHint m.variant none with
        | some c =>
          simp [resolvePhase, selectStrategy, hs, ht, hmiss, hnm, hunk, hbn]
        | none =>
          simp [resolvePhase, selectStrategy, hs, ht, hmiss, hnm, hunk, hbn]
      · intro hu
        cases hu with
        | inl h =>
          simp [resolvePhase, selectStrategy, hs, ht, hmiss, h]
        | inr h =>
          simp [resolvePhase, selectStrategy, hs, ht, hmiss, h]
  · intro sc cn hs ht hsc hcn
    simp [resolvePhase, selectStrategy, hs, ht, hsc, hcn]
  · intro sc nm hs ht hcn hsc hnm
    simp [resolvePhase, selectStrategy, hs, ht, hsc, hcn, hnm]
  · intro hs ht hrest
    cases hrest with
    | inl h => simp [resolvePhase, selectStrategy, hs, ht, h]
    | inr h =>
      cases hsc : m.setCode with
      | none => simp [resolvePhase, selectStrategy, hs, ht, hsc]
      | some sc =>
        simp [resolvePhase, selectStrategy, hs, ht, hsc, h.1, h.2]

/-- Witness for C3 at a concrete message: a TCGPlayer id unknown to the
primary catalog, with a usable card name, resolves through the name
fallback and remembers the id as the override. -/
theorem C3_strategy_precedence_witness :
    resolvePhase
      ⟨some "Static Orb", some 5, none, none, none, none, none, none⟩
      (fun _ => none) (fun _ => none) (fun _ _ => none) (fun _ _ => none)
      (fun _ _ _ _ => some (formatCard rawOrb)) =
      (some (formatCard rawOrb), some 5) := by
  have h :=
    (((C3_strategy_precedence
        ⟨some "Static Orb", some 5, none, none, none, none, none, none⟩
        (fun _ => none) (fun _ => none) (fun _ _ => none) (fun _ _ => none)
        (fun _ _ _ _ => some (formatCard rawOrb))).2.1 5 rfl rfl).2
      rfl).1 "Static Orb" rfl (by decide)
  simpa using h

-- ── C1 ─────────────────────────────────────────────────────────────

theorem dispatchAt_ge (lastReq now : Nat) :
    lastReq + RATE_MS ≤ dispatchAt lastReq now := by
  simp only [dispatchAt, RATE_MS]
  split <;> omega

theorem entryDispatches_gaps (es : List QEntry) : ∀ lastReq now,
    gapsAtLeast RATE_MS (entryDispatches lastReq now es) = true ∧
    (∀ t, (entryDispatches lastReq now es).head? = some t →
      lastReq + RATE_MS ≤ t) := by
  induction es with
  | nil =>
    intro l n
    exact ⟨rfl, by intro t h; simp [entryDispatches, runQueue] at h⟩
  | cons e rest ih =>
    intro l n
    have hunf : entryDispatches l n (e :: rest) =
        dispatchAt l (max n e.readyAt) ::
          entryDispatches (dispatchAt l (max n e.readyAt))
            (attemptTimes e.attempts 0 (dispatchAt l (max n e.readyAt))).2
            rest := by
      simp [entryDispatches, runQueue]
    constructor
    · rw [hunf]
      have hrest := ih (dispatchAt l (max n e.readyAt))
        (attemptTimes e.attempts 0 (dispatchAt l (max n e.readyAt))).2
      cases hds : entryDispatches (dispatchAt l (max n e.readyAt))
          (attemptTimes e.attempts 0 (dispatchAt l (max n e.readyAt))).2
          rest with
      | nil => rfl
      | cons d dt =>
        show (decide (_ + RATE_MS ≤ d) && gapsAtLeast RATE_MS (d :: dt)) = true
        rw [Bool.and_eq_true]
        constructor
        · exact decide_eq_true
            (hrest.2 d (by rw [hds]; rfl))
        · rw [← hds]; exact hrest.1
    · intro t ht
      rw [hunf] at ht
      simp only [List.head?_cons, Option.some.injEq] at ht
      rw [← ht]
      exact dispatchAt_ge l (max n e.readyAt)

/-- C1 (amended): in the rate-limited request queue, the time between the
starts of consecutive queue-entry dispatches — the instants at which
`lastRequest` is set and the entry's first fetch begins — is never less
than the configured 100 ms interval, for every queue and every attempt
behaviour (retries included). -/
theorem C1_rate_limit_amended (lastReq now : Nat) (es : List QEntry) :
    gapsAtLeast RATE_MS (entryDispatches lastReq now es) = true :=
  (entryDispatches_gaps es lastReq now).1

/-- C1 (counterexample): counting every network fetch (retries included),
the gap invariant fails: a request 429s at t=1000, its retry fires at
t=1200 after the 200 ms backoff, and the next queued request dispatches
at t=1200 as well — 0 ms after the retry fetch started, because
`lastRequest` was set at the first attempt. -/
theorem C1_rate_limit_counterexample :
    allFetchStarts 0 1000 [retryEntry, plainEntry] = [1000, 1200, 1200] ∧
    gapsAtLeast RATE_MS (allFetchStarts 0 1000 [retryEntry, plainEntry]) =
      false := by decide

-- ── C2 ─────────────────────────────────────────────────────────────

/-- The controller invariant: captured generations never exceed the
active one, and any task past its generation check passed it while
current. -/
def genInv (s : GenState) : Prop :=
  ∀ t ∈ s.tasks, t.gen ≤ s.activeGen ∧ taskCheckedCurrent t

theorem genInv_step (s : GenState) (ev : GenEv) (h : genInv s) :
    genInv (stepGen s ev) := by
  cases ev with
  | start =>
    intro t ht
    simp only [stepGen, List.mem_append, List.mem_singleton] at ht ⊢
    cases ht with
    | inl hm =>
      have := h t hm
      exact ⟨by omega, this.2⟩
    | inr he => subst he; exact ⟨le_refl _, trivial⟩
  | startRefinement =>
    intro t ht
    simp only [stepGen, List.mem_append, List.mem_singleton] at ht ⊢
    cases ht with
    | inl hm => exact h t hm
    | inr he => subst he; exact ⟨le_refl _, trivial⟩
  | resolveDone i =>
    intro t ht
    simp only [stepGen] at ht
    rcases List.mem_map.mp ht with ⟨⟨j, u⟩, hju, hfu⟩
    have hu : u ∈ s.tasks := by
      have := List.mem_enum hju
      rw [this.2]
      exact List.getElem_mem _
    have hinv := h u hu
    cases hph : u.phase with
    | resolving =>
      simp only [hph] at hfu
      by_cases hj : j = i
      · simp only [hj, if_true] at hfu
        by_cases hg : u.gen < s.activeGen
        · rw [if_pos hg] at hfu
          subst hfu
          exact ⟨hinv.1, trivial⟩
        · rw [if_neg hg] at hfu
          subst hfu
          refine ⟨hinv.1, ?_⟩
          show s.activeGen = u.gen
          omega
      · rw [if_neg hj] at hfu
        subst hfu
        exact hinv
    | enriching gc => simp only [hph] at hfu; subst hfu; exact hinv
    | doneStale => simp only [hph] at hfu; subst hfu; exact hinv
    | doneCard gc gr => simp only [hph] at hfu; subst hfu; exact hinv
  | enrichDone i =>
    intro t ht
    simp only [stepGen] at ht
    rcases List.mem_map.mp ht with ⟨⟨j, u⟩, hju, hfu⟩
    have hu : u ∈ s.tasks := by
      have := List.mem_enum hju
      rw [this.2]
      exact List.getElem_mem _
    have hinv := h u hu
    cases hph : u.phase with
    | enriching gc =>
      simp only [hph] at hfu
      by_cases hj : j = i
      · simp only [hj, if_true] at hfu
        subst hfu
        refine ⟨hinv.1, ?_⟩
        show gc = u.gen
        have := hinv.2
        rw [taskCheckedCurrent, hph] at this
        exact this
      · rw [if_neg hj] at hfu
        subst hfu
        exact hinv
    | resolving => simp only [hph] at hfu; subst hfu; exact hinv
    | doneStale => simp only [hph] at hfu; subst hfu; exact hinv
    | doneCard gc gr => simp only [hph] at hfu; subst hfu; exact hinv

theorem genInv_run (evs : List GenEv) : genInv (runGen evs) := by
  have : ∀ s, genInv s → genInv (evs.foldl stepGen s) := by
    induction evs with
    | nil => intro s h; exact h
    | cons e rest ih => intro s h; exact ih _ (genInv_step s e h)
  apply this
  intro t ht
  simp [genInit] at ht

/-- C2 (amended): the resolution path runs its generation check after the
strategy-resolution phase and before enrichment; a lookup superseded at
that check returns the distinguished stale outcome, and consequently a
merged card is only ever returned by a task whose generation was still
current at its generation check.  (Supersession during the enrichment
phase itself does not prevent the merged card from being returned — see
the counterexample.) -/
theorem C2_stale_amended :
    (∀ evs : List GenEv, ∀ t ∈ (runGen evs).tasks, taskCheckedCurrent t) ∧
    (∀ (s : GenState) (i : Nat) (t : LTask), s.tasks[i]? = some t →
      t.phase = .resolving → t.gen < s.activeGen →
      (stepGen s (.resolveDone i)).tasks[i]? =
        some { t with phase := .doneStale }) := by
  constructor
  · intro evs t ht
    exact (genInv_run evs t ht).2
  · intro s i t hget hph hlt
    have henum : s.tasks.enum[i]? = some (i, t) := by
      rw [List.getElem?_enum, hget]; rfl
    simp only [stepGen, List.getElem?_map, henum]
    simp [hph, hlt]

/-- Witness for C2 at a concrete schedule: an unsuperseded lookup passes
its check and returns a card checked-current, and a superseded resolving
task is marked stale by its check. -/
theorem C2_stale_amended_witness :
    taskCheckedCurrent (⟨1, .doneCard 1 1⟩ : LTask) ∧
    (stepGen ⟨2, [⟨1, .resolving⟩]⟩ (.resolveDone 0)).tasks[0]? =
      some ⟨1, .doneStale⟩ :=
  ⟨C2_stale_amended.1 [.start, .resolveDone 0, .enrichDone 0]
      ⟨1, .doneCard 1 1⟩ (by decide),
   C2_stale_amended.2 ⟨2, [⟨1, .resolving⟩]⟩ 0 ⟨1, .resolving⟩ rfl rfl
      (by decide)⟩

/-- C2 (counterexample): lookup A (generation 1) passes its check, then
lookup B (generation 2) starts while A is enriching; A still returns its
merged card even though a lookup of a newer generation had already
started, refuting "a card record enriched under generation g is never
returned when a lookup of generation > g has already started". -/
theorem C2_stale_counterexample :
    runGen [.start, .resolveDone 0, .start, .enrichDone 0] =
      ⟨2, [⟨1, .doneCard 1 2⟩, ⟨2, .resolving⟩]⟩ ∧
    ¬ taskReturnCurrent (⟨1, .doneCard 1 2⟩ : LTask) := by decide

-- ── C5 ─────────────────────────────────────────────────────────────

theorem baseTierScore_lt500 (target targetDeep : String) (c : RawCard)
    (h : baseTierScore target targetDeep c < 500) :
    baseTierScore target targetDeep c = 0 := by
  revert h
  unfold baseTierScore
  dsimp only
  split_ifs <;> omega

/-- Evaluation of the keyword tier at the incoming score 0 as a Prop-level
case distinction. -/
theorem applyKeywordTier_eval (tKW nKW : List String)
    (hlt : 0 < tKW.length) (hln : 0 < nKW.length) :
    applyKeywordTier 0 tKW nKW =
      if max tKW.length nKW.length ≤ 2 * overlapKW tKW nKW ∧
          2 ≤ overlapKW tKW nKW then
        100 + (600 * overlapKW tKW nKW + max tKW.length nKW.length) /
          (2 * max tKW.length nKW.length)
      else if nKW.length ≤ 3 ∧ ∀ w ∈ nKW, w ∈ tKW then 200
      else 0 := by
  simp only [applyKeywordTier, overlapKW, List.elem_eq_mem, List.all_eq_true,
    Bool.and_eq_true, decide_eq_true_eq]
  split_ifs <;> simp_all

/-- C5 (counterexample): both of the hint "Ixalan Caverns"'s significant
keywords appear in the candidate set "Caverns Greatness of Ixalan Omens
Wilds" (100 percent of the hint's keywords, 2 ≥ 2 overlapping), the
candidate reaches no higher tier, yet the scorer assigns no keyword-tier
score at all: the code divides the overlap by the size of the larger of
the two keyword sets (5), getting 0.4 < 0.5. -/
theorem C5_keyword_tier_counterexample :
    (let target := printingNorm (normalizeCommanderHint "Ixalan Caverns")
     let targetDeep :=
       printingNormDeep (normalizeCommanderHint "Ixalan Caverns")
     let tKW := extractKeyWords targetDeep
     let cand := mkPrinting "X" "Caverns Greatness of Ixalan Omens Wilds"
       (some "abc") "1" false [] "black" ["nonfoil"]
     let nKW := extractKeyWords (printingNormDeep cand.set_name)
     tKW.length = 2 ∧
     tKW.length ≤ 2 * overlapKW tKW nKW ∧
     2 ≤ overlapKW tKW nKW ∧
     baseTierScore target targetDeep cand < 500 ∧
     scoreCandidate target targetDeep tKW cand = 0) := by decide

/-- C5 (amended): for a candidate that does not reach a higher tier
(base score below 500, hence 0), the keyword tier assigns
`100 + round(300·overlap/m)` — with `m` the size of the LARGER of the
hint's and the candidate's keyword sets, not the hint's alone — exactly
when `overlap/m ≥ 1/2` and at least 2 keywords overlap; when that
condition fails the 200 floor applies exactly when the candidate's own
keyword set has at most 3 words all contained in the hint's, and
otherwise the candidate keeps score 0. -/
theorem C5_keyword_tier_amended (tKW nKW : List String)
    (h1 : tKW ≠ []) (h2 : nKW ≠ []) :
    (∀ target targetDeep c,
      extractKeyWords (printingNormDeep c.set_name) = nKW →
      baseTierScore target targetDeep c < 500 →
      scoreCandidate target targetDeep tKW c = applyKeywordTier 0 tKW nKW) ∧
    (max tKW.length nKW.length ≤ 2 * overlapKW tKW nKW ∧
        2 ≤ overlapKW tKW nKW →
      applyKeywordTier 0 tKW nKW =
        100 + (600 * overlapKW tKW nKW + max tKW.length nKW.length) /
          (2 * max tKW.length nKW.length)) ∧
    (¬(max tKW.length nKW.length ≤ 2 * overlapKW tKW nKW ∧
        2 ≤ overlapKW tKW nKW) →
      ((nKW.length ≤ 3 ∧ ∀ w ∈ nKW, w ∈ tKW) →
        applyKeywordTier 0 tKW nKW = 200) ∧
      (¬(nKW.length ≤ 3 ∧ ∀ w ∈ nKW, w ∈ tKW) →
        applyKeywordTier 0 tKW nKW = 0)) := by
  have hlt : 0 < tKW.length := List.length_pos.mpr h1
  have hln : 0 < nKW.length := List.length_pos.mpr h2
  have heval := applyKeywordTier_eval tKW nKW hlt hln
  refine ⟨?_, ?_, ?_⟩
  · intro target targetDeep c hn hb
    rw [scoreCandidate, hn, baseTierScore_lt500 target targetDeep c hb]
  · intro hc
    rw [heval, if_pos hc]
  · intro hnc
    constructor
    · intro hs
      rw [heval, if_neg hnc, if_pos hs]
    · intro hns
      rw [heval, if_neg hnc, if_neg hns]

/-- Witness for C5 at the counterexample's keyword sets. -/
theorem C5_keyword_tier_amended_witness :
    applyKeywordTier 0 ["ixalan", "caverns"]
      ["caverns", "greatness", "ixalan", "omens", "wilds"] = 0 :=
  ((C5_keyword_tier_amended ["ixalan", "caverns"]
      ["caverns", "greatness", "ixalan", "omens", "wilds"]
      (by decide) (by decide)).2.2 (by decide)).2 (by decide)

-- ── Stable-sort lemmas (for the base-preference claim) ─────────────

theorem mem_insertLe {α : Type} (le : α → α → Bool) (a x : α) :
    ∀ l : List α, x ∈ insertLe le a l ↔ x = a ∨ x ∈ l := by
  intro l
  induction l with
  | nil => simp [insertLe]
  | cons b bs ih =>
    simp only [insertLe]
    split
    · simp [or_comm, or_assoc, or_left_comm]
    · simp only [List.mem_cons, ih]
      tauto

theorem mem_stableSortBy {α : Type} (le : α → α → Bool) (x : α) :
    ∀ l : List α, x ∈ stableSortBy le l ↔ x ∈ l := by
  intro l
  induction l with
  | nil => simp [stableSortBy]
  | cons a as ih =>
    show x ∈ insertLe le a (stableSortBy le as) ↔ _
    rw [mem_insertLe, ih]
    simp

theorem sortByNum_cons (a : Nat × Annotated) (l : List (Nat × Annotated)) :
    sortByNum (a :: l) =
      insertLe (fun a b => decide (a.2.num ≤ b.2.num)) a (sortByNum l) :=
  rfl

theorem sortByNum_nil_iff (l : List (Nat × Annotated)) :
    sortByNum l = [] ↔ l = [] := by
  induction l with
  | nil => simp [sortByNum, stableSortBy]
  | cons a as ih =>
    rw [sortByNum_cons]
    constructor
    · intro h
      exfalso
      have : a ∈ ([] : List (Nat × Annotated)) := by
        rw [← h, mem_insertLe]
        exact Or.inl rfl
      simp at this
    · intro h; simp at h

theorem sortByNum_head_min (l : List (Nat × Annotated)) :
    ∀ b, (sortByNum l).head? = some b → ∀ x ∈ l, b.2.num ≤ x.2.num := by
  induction l with
  | nil => intro b hb; simp [sortByNum, stableSortBy] at hb
  | cons a as ih =>
    intro b hb x hx
    rw [sortByNum_cons] at hb
    cases hs : sortByNum as with
    | nil =>
      have has : as = [] := (sortByNum_nil_iff as).mp hs
      rw [hs] at hb
      simp only [insertLe, List.head?_cons, Option.some.injEq] at hb
      subst hb
      subst has
      simp only [List.mem_cons, List.not_mem_nil, or_false] at hx
      subst hx
      exact le_refl _
    | cons c rest =>
      rw [hs] at hb
      simp only [insertLe] at hb
      by_cases hca : (decide (a.2.num ≤ c.2.num)) = true
      · rw [if_pos hca] at hb
        simp only [List.head?_cons, Option.some.injEq] at hb
        rw [← hb]
        have hac : a.2.num ≤ c.2.num := of_decide_eq_true hca
        rcases List.mem_cons.mp hx with h | h
        · rw [h]
        · have hcm : ∀ y ∈ as, c.2.num ≤ y.2.num := by
            intro y hy
            exact ih c (by rw [hs]; rfl) y hy
          exact le_trans hac (hcm x h)
      · rw [if_neg hca] at hb
        simp only [List.head?_cons, Option.some.injEq] at hb
        rw [← hb]
        have hctop : ∀ y ∈ as, c.2.num ≤ y.2.num := by
          intro y hy
          exact ih c (by rw [hs]; rfl) y hy
        rcases List.mem_cons.mp hx with h | h
        · rw [h]
          have : ¬ (a.2.num ≤ c.2.num) := by
            intro hcon
            exact hca (decide_eq_true hcon)
          exact le_of_not_le this
        · exact hctop x h

-- ── C6 ─────────────────────────────────────────────────────────────

/-- C6: over a tied set of top-scoring printings with no extras/promos
qualifier in the hint and no variant index, the resolver returns an
annotated tied entry that is neither promo (flag or trailing-letter
collector number) nor special (special frame effect or borderless) with
the least parsed collector number among such entries, falling back to the
first tied candidate when no such base entry exists; and concretely, for
three printings numbered 10 (regular), 11 (borderless), 12a (promo) with
the hint equal to the set name, the resolver returns number 10. -/
theorem C6_base_preference :
    (∀ (sm : List RawCard) (hint : String) (variant : Option Nat),
      1 < sm.length →
      testWordPats QUAL_WORDS hint = false →
      testWordPats ["promos"] hint = false →
      variant = none →
      ((∀ ie ∈ annotatedOf sm, isBaseEntry ie = false) →
        selectFromTied sm hint variant = sm.head?) ∧
      ((∃ ie ∈ annotatedOf sm, isBaseEntry ie = true) →
        ∃ be ∈ annotatedOf sm, isBaseEntry be = true ∧
          selectFromTied sm hint variant = some be.2.card ∧
          ∀ je ∈ annotatedOf sm, isBaseEntry je = true →
            be.2.num ≤ je.2.num)) ∧
    findPrintingSelect [p10c, p11c, p12c] "Shadows Beyond" none =
      some p10c := by
  constructor
  · intro sm hint variant hlen hq hp hv
    subst hv
    have hsel : selectFromTied sm hint none =
        match (sortByNum ((annotatedOf sm).filter isBaseEntry)).head? with
        | some b => some b.2.card
        | none => sm.head? := by
      simp only [selectFromTied, hq, hp, if_pos hlen]
      rfl
    constructor
    · intro hall
      have hfilter : (annotatedOf sm).filter isBaseEntry = [] := by
        rw [List.filter_eq_nil_iff]
        intro ie hie
        rw [hall ie hie]
        simp
      rw [hsel, hfilter]
      rfl
    · intro ⟨ie, hie, hbase⟩
      have hne : (annotatedOf sm).filter isBaseEntry ≠ [] := by
        intro hnil
        have : ie ∈ (annotatedOf sm).filter isBaseEntry :=
          List.mem_filter.mpr ⟨hie, hbase⟩
        rw [hnil] at this
        simp at this
      have hsne : sortByNum ((annotatedOf sm).filter isBaseEntry) ≠ [] := by
        intro hnil
        exact hne ((sortByNum_nil_iff _).mp hnil)
      obtain ⟨b, rest, hb⟩ :=
        List.exists_cons_of_ne_nil hsne
      have hhead : (sortByNum ((annotatedOf sm).filter isBaseEntry)).head? =
          some b := by rw [hb]; rfl
      have hbmem : b ∈ (annotatedOf sm).filter isBaseEntry := by
        have : b ∈ sortByNum ((annotatedOf sm).filter isBaseEntry) := by
          rw [hb]; exact List.mem_cons_self _ _
        exact (mem_stableSortBy _ b _).mp this
      have hbf := List.mem_filter.mp hbmem
      refine ⟨b, hbf.1, hbf.2, ?_, ?_⟩
      · rw [hsel, hhead]
      · intro je hje hjb
        exact sortByNum_head_min _ b hhead je
          (List.mem_filter.mpr ⟨hje, hjb⟩)
  · decide

/-- Witness for C6 at the three-printing scenario. -/
theorem C6_base_preference_witness :
    ∃ be ∈ annotatedOf [p10c, p11c, p12c], isBaseEntry be = true ∧
      selectFromTied [p10c, p11c, p12c] "Shadows Beyond" none =
        some be.2.card ∧
      ∀ je ∈ annotatedOf [p10c, p11c, p12c], isBaseEntry je = true →
        be.2.num ≤ je.2.num :=
  (C6_base_preference.1 [p10c, p11c, p12c] "Shadows Beyond" none
      (by decide) (by decide) (by decide) rfl).2 (by decide)

-- ── C8: idempotence of a repeated lookup ───────────────────────────

-- Mathlib seals the core rational arithmetic against unfolding; the
-- group-score computations below are evaluated by `decide`, so restore
-- the default reducibility of the four sealed operations.
attribute [local semireducible] Rat.inv Rat.add Rat.mul Rat.sub

/-- C8: counterexample.  Re-resolving the same lookup message one second
after the first resolution (well within the 30-minute cache TTL) issues
zero additional network requests on either layer, but the response is
not byte-identical: the displayed set name reverts from the TCGCSV group
name ("Secret Lair Drop") to the Scryfall set name ("Secret Lair"),
because the cached-scan path of `fetchTcgcsvPricesDirectByProductId`
returns a null `groupName`. -/
theorem C8_idem_counterexample :
    ceRun2.2.1.fetchCount = ceRun1.2.1.fetchCount ∧
    ceRun2.2.2.fetchCount = ceRun1.2.2.fetchCount ∧
    1000 < CACHE_TTL ∧
    ceRun1.1 ≠ ceRun2.1 ∧
    respSet ceRun1.1 = "Secret Lair Drop" ∧
    respSet ceRun2.1 = "Secret Lair" := by
  decide

-- Map-lookup lemmas for the replay argument.

theorem jsMapGet_append_some {α β : Type} [DecidableEq α]
    (l l2 : List (α × β)) (k : α) (v : β) (h : jsMapGet l k = some v) :
    jsMapGet (l ++ l2) k = some v := by
  unfold jsMapGet at h ⊢
  rw [List.find?_append]
  rcases hf : l.find? (fun p => decide (p.1 = k)) with _ | p
  · rw [hf] at h; simp at h
  · rw [hf] at h ⊢
    simpa [Option.or] using h

theorem jsMapGet_append_none {α β : Type} [DecidableEq α]
    (l l2 : List (α × β)) (k : α) (h : jsMapGet l k = none) :
    jsMapGet (l ++ l2) k = jsMapGet l2 k := by
  unfold jsMapGet at h ⊢
  rw [List.find?_append]
  rcases hf : l.find? (fun p => decide (p.1 = k)) with _ | p
  · rw [hf]; rfl
  · rw [hf] at h; simp at h

theorem jsMapGet_none_iff {α β : Type} [DecidableEq α]
    (l : List (α × β)) (k : α) :
    jsMapGet l k = none ↔ k ∉ l.map Prod.fst := by
  unfold jsMapGet
  rw [Option.map_eq_none', List.find?_eq_none]
  constructor
  · intro h hk
    rcases List.mem_map.mp hk with ⟨p, hp, hpk⟩
    exact h p hp (by simp [hpk])
  · intro h p hp hpk
    exact h (List.mem_map.mpr ⟨p, hp, by simpa using hpk⟩)

theorem jsMapGet_mem {α β : Type} [DecidableEq α]
    (l : List (α × β)) (k : α) (v : β) (h : jsMapGet l k = some v) :
    (k, v) ∈ l := by
  unfold jsMapGet at h
  rcases hf : l.find? (fun p => decide (p.1 = k)) with _ | p
  · rw [hf] at h; simp at h
  · rw [hf] at h
    have hm := List.mem_of_find?_eq_some hf
    have hk := List.find?_some hf
    simp only [decide_eq_true_eq] at hk
    simp only [Option.map_some', Option.some.injEq] at h
    obtain ⟨p1, p2⟩ := p
    dsimp only at hk h
    rw [← hk, ← h]
    exact hm

theorem mem_keys_jsMapGet {α β : Type} [DecidableEq α]
    (l : List (α × β)) (k : α) (h : k ∈ l.map Prod.fst) :
    ∃ v, jsMapGet l k = some v ∧ (k, v) ∈ l := by
  rcases hf : jsMapGet l k with _ | v
  · exact absurd h ((jsMapGet_none_iff l k).mp hf)
  · exact ⟨v, rfl, jsMapGet_mem l k v hf⟩

theorem jsMapGet_singleton {α β : Type} [DecidableEq α] (k : α) (v : β) :
    jsMapGet [(k, v)] k = some v := by
  simp [jsMapGet]

/-- A put below capacity on a fresh key is a plain append. -/
theorem cachePutEvict_small {α β : Type} [DecidableEq α] (maxSize : Nat)
    (l : List (α × β)) (k : α) (v : β)
    (hfresh : jsMapGet l k = none) (hlen : l.length < maxSize) :
    cachePutEvict maxSize l k v = l ++ [(k, v)] := by
  have hany : l.any (fun p => decide (p.1 = k)) = false := by
    rw [List.any_eq_false]
    intro p hp hpk
    simp only [decide_eq_true_eq] at hpk
    exact (jsMapGet_none_iff l k).mp hfresh
      (List.mem_map.mpr ⟨p, hp, hpk⟩)
  have hset := jsMapSet_fresh l k v hany
  unfold cachePutEvict
  rw [hset, if_neg (by simp; omega)]

/-- The two cache-key families the composite tcgplayer-id strategy
writes never collide. -/
theorem tcgKey_ne_nameKey (a b : String) :
    ("tcg:" ++ a) ≠ ("name:" ++ b) := by
  intro h
  have hd := congrArg String.data h
  rw [String.data_append, String.data_append] at hd
  simp at hd

theorem jsMapGet_snoc_self {α β : Type} [DecidableEq α]
    (l : List (α × β)) (k : α) (v : β) (h : jsMapGet l k = none) :
    jsMapGet (l ++ [(k, v)]) k = some v := by
  rw [jsMapGet_append_none _ _ _ h, jsMapGet_singleton]

-- getCache / setCache behaviour on misses, hits and small caches.

theorem getCache_miss (w : SWorld) (now : Nat) (key : String)
    (h : jsMapGet w.scryfallCache key = none) :
    getCache w now key = (none, w) := by
  unfold getCache
  rw [h]

theorem getCache_hit (w : SWorld) (now ts : Nat) (key : String)
    (r : LookupResult)
    (h : jsMapGet w.scryfallCache key = some ⟨r, ts⟩)
    (hf : now - ts < CACHE_TTL) :
    getCache w now key = (some r, w) := by
  unfold getCache
  rw [h]
  simp [hf]

theorem setCache_small (w : SWorld) (now : Nat) (key : String)
    (r : LookupResult)
    (hmiss : jsMapGet w.scryfallCache key = none)
    (hlen : w.scryfallCache.length < CACHE_MAX) :
    setCache w now key r =
      { w with scryfallCache := w.scryfallCache ++ [(key, ⟨r, now⟩)] } := by
  unfold setCache
  rw [cachePutEvict_small _ _ _ _ hmiss hlen]

-- Paired first-run / replay lemmas for the lookup strategies: from a
-- cache that misses the strategy key, the first run computes a result,
-- appends it under the key, and a later run within the TTL on any cache
-- holding that entry returns the same result without touching the
-- state.

theorem lookupByTcgId_pair (env : NetEnv) (t0 t1 : Nat)
    (c : List (String × CacheEntry)) (g f id : Nat)
    (hmiss : jsMapGet c ("tcg:" ++ toString id) = none)
    (hlen : c.length < CACHE_MAX) (httl : t1 - t0 < CACHE_TTL) :
    ∃ r fc,
      lookupByTcgId env t0 ⟨c, g, f⟩ id =
        (r, ⟨c ++ [("tcg:" ++ toString id, ⟨r, t0⟩)], g, fc⟩) ∧
      ∀ c2 g2 f2, jsMapGet c2 ("tcg:" ++ toString id) = some ⟨r, t0⟩ →
        lookupByTcgId env t1 ⟨c2, g2, f2⟩ id = (r, ⟨c2, g2, f2⟩) := by
  have hrep : ∀ r c2 g2 f2,
      jsMapGet c2 ("tcg:" ++ toString id) = some ⟨r, t0⟩ →
      lookupByTcgId env t1 ⟨c2, g2, f2⟩ id = (r, ⟨c2, g2, f2⟩) := by
    intro r c2 g2 f2 hc2
    unfold lookupByTcgId
    dsimp only
    rw [getCache_hit _ t1 t0 _ _ hc2 httl]
  rcases henv : env.scryfallByTcgId id with _ | card
  · refine ⟨LookupResult.err ("TCG ID " ++ toString id ++ " not found"),
      f + 1, ?_, hrep _⟩
    unfold lookupByTcgId
    dsimp only
    rw [getCache_miss ⟨c, g, f⟩ t0 _ hmiss]
    simp only [henv, SWorld.fetch1]
    rw [setCache_small _ t0 _ _ hmiss hlen]
  · refine ⟨LookupResult.ok (formatCard card) none,
      f + 1, ?_, hrep _⟩
    unfold lookupByTcgId
    dsimp only
    rw [getCache_miss ⟨c, g, f⟩ t0 _ hmiss]
    simp only [henv, SWorld.fetch1]
    rw [setCache_small _ t0 _ _ hmiss hlen]

theorem lookupByScryfallId_pair (env : NetEnv) (t0 t1 : Nat)
    (c : List (String × CacheEntry)) (g f : Nat) (id : String)
    (hmiss : jsMapGet c ("sf:" ++ id) = none)
    (hlen : c.length < CACHE_MAX) (httl : t1 - t0 < CACHE_TTL) :
    ∃ r fc,
      lookupByScryfallId env t0 ⟨c, g, f⟩ id =
        (r, ⟨c ++ [("sf:" ++ id, ⟨r, t0⟩)], g, fc⟩) ∧
      ∀ c2 g2 f2, jsMapGet c2 ("sf:" ++ id) = some ⟨r, t0⟩ →
        lookupByScryfallId env t1 ⟨c2, g2, f2⟩ id = (r, ⟨c2, g2, f2⟩) := by
  have hrep : ∀ r c2 g2 f2,
      jsMapGet c2 ("sf:" ++ id) = some ⟨r, t0⟩ →
      lookupByScryfallId env t1 ⟨c2, g2, f2⟩ id = (r, ⟨c2, g2, f2⟩) := by
    intro r c2 g2 f2 hc2
    unfold lookupByScryfallId
    dsimp only
    rw [getCache_hit _ t1 t0 _ _ hc2 httl]
  rcases henv : env.scryfallById id with _ | card
  · refine ⟨LookupResult.err ("Scryfall ID " ++ id ++ " not found"),
      f + 1, ?_, hrep _⟩
    unfold lookupByScryfallId
    dsimp only
    rw [getCache_miss ⟨c, g, f⟩ t0 _ hmiss]
    simp only [henv, SWorld.fetch1]
    rw [setCache_small _ t0 _ _ hmiss hlen]
  · refine ⟨LookupResult.ok (formatCard card) none,
      f + 1, ?_, hrep _⟩
    unfold lookupByScryfallId
    dsimp only
    rw [getCache_miss ⟨c, g, f⟩ t0 _ hmiss]
    simp only [henv, SWorld.fetch1]
    rw [setCache_small _ t0 _ _ hmiss hlen]

theorem lookupByCollector_pair (env : NetEnv) (t0 t1 : Nat)
    (c : List (String × CacheEntry)) (g f : Nat) (setCode number : String)
    (hmiss : jsMapGet c ("col:" ++ setCode ++ ":" ++ number) = none)
    (hlen : c.length < CACHE_MAX) (httl : t1 - t0 < CACHE_TTL) :
    ∃ r fc,
      lookupByCollector env t0 ⟨c, g, f⟩ setCode number =
        (r, ⟨c ++ [("col:" ++ setCode ++ ":" ++ number, ⟨r, t0⟩)], g, fc⟩) ∧
      ∀ c2 g2 f2,
        jsMapGet c2 ("col:" ++ setCode ++ ":" ++ number) = some ⟨r, t0⟩ →
        lookupByCollector env t1 ⟨c2, g2, f2⟩ setCode number =
          (r, ⟨c2, g2, f2⟩) := by
  have hrep : ∀ r c2 g2 f2,
      jsMapGet c2 ("col:" ++ setCode ++ ":" ++ number) = some ⟨r, t0⟩ →
      lookupByCollector env t1 ⟨c2, g2, f2⟩ setCode number =
        (r, ⟨c2, g2, f2⟩) := by
    intro r c2 g2 f2 hc2
    unfold lookupByCollector
    dsimp only
    rw [getCache_hit _ t1 t0 _ _ hc2 httl]
  rcases henv : env.scryfallByCollector setCode number with _ | card
  · refine ⟨LookupResult.err (setCode ++ "/" ++ number ++ " not found"),
      f + 1, ?_, hrep _⟩
    unfold lookupByCollector
    dsimp only
    rw [getCache_miss ⟨c, g, f⟩ t0 _ hmiss]
    simp only [henv, SWorld.fetch1]
    rw [setCache_small _ t0 _ _ hmiss hlen]
  · refine ⟨LookupResult.ok (formatCard card) none,
      f + 1, ?_, hrep _⟩
    unfold lookupByCollector
    dsimp only
    rw [getCache_miss ⟨c, g, f⟩ t0 _ hmiss]
    simp only [henv, SWorld.fetch1]
    rw [setCache_small _ t0 _ _ hmiss hlen]

theorem lookupByNameAndSet_pair (env : NetEnv) (t0 t1 : Nat)
    (c : List (String × CacheEntry)) (g f : Nat) (name setCode : String)
    (hmiss : jsMapGet c ("set:" ++ setCode ++ ":" ++ name) = none)
    (hlen : c.length < CACHE_MAX) (httl : t1 - t0 < CACHE_TTL) :
    ∃ r fc,
      lookupByNameAndSet env t0 ⟨c, g, f⟩ name setCode =
        (r, ⟨c ++ [("set:" ++ setCode ++ ":" ++ name, ⟨r, t0⟩)], g, fc⟩) ∧
      ∀ c2 g2 f2,
        jsMapGet c2 ("set:" ++ setCode ++ ":" ++ name) = some ⟨r, t0⟩ →
        lookupByNameAndSet env t1 ⟨c2, g2, f2⟩ name setCode =
          (r, ⟨c2, g2, f2⟩) := by
  have hrep : ∀ r c2 g2 f2,
      jsMapGet c2 ("set:" ++ setCode ++ ":" ++ name) = some ⟨r, t0⟩ →
      lookupByNameAndSet env t1 ⟨c2, g2, f2⟩ name setCode =
        (r, ⟨c2, g2, f2⟩) := by
    intro r c2 g2 f2 hc2
    unfold lookupByNameAndSet
    dsimp only
    rw [getCache_hit _ t1 t0 _ _ hc2 httl]
  rcases h1 : env.namedFuzzySet name setCode with _ | c1
  · rcases h2 : (env.searchExactSet name setCode).bind
        (fun pg => pg.data.head?) with _ | c2
    · rcases h3 : (env.searchFuzzySet name setCode).bind
          (fun pg => pg.data.head?) with _ | c3
      · rcases h4 : env.namedFuzzy name with _ | c4
        · refine ⟨LookupResult.err
              (dq ++ name ++ dq ++ " not found in " ++ setCode),
            f + 4, ?_, hrep _⟩
          unfold lookupByNameAndSet
          dsimp only
          rw [getCache_miss ⟨c, g, f⟩ t0 _ hmiss]
          simp only [h1, h2, h3, h4, SWorld.fetch1]
          rw [setCache_small _ t0 _ _ hmiss hlen]
        · refine ⟨LookupResult.ok (formatCard c4) none,
            f + 4, ?_, hrep _⟩
          unfold lookupByNameAndSet
          dsimp only
          rw [getCache_miss ⟨c, g, f⟩ t0 _ hmiss]
          simp only [h1, h2, h3, h4, SWorld.fetch1]
          rw [setCache_small _ t0 _ _ hmiss hlen]
      · refine ⟨LookupResult.ok (formatCard c3) none,
          f + 3, ?_, hrep _⟩
        unfold lookupByNameAndSet
        dsimp only
        rw [getCache_miss ⟨c, g, f⟩ t0 _ hmiss]
        simp only [h1, h2, h3, SWorld.fetch1]
        rw [setCache_small _ t0 _ _ hmiss hlen]
    · refine ⟨LookupResult.ok (formatCard c2) none,
        f + 2, ?_, hrep _⟩
      unfold lookupByNameAndSet
      dsimp only
      rw [getCache_miss ⟨c, g, f⟩ t0 _ hmiss]
      simp only [h1, h2, SWorld.fetch1]
      rw [setCache_small _ t0 _ _ hmiss hlen]
  · refine ⟨LookupResult.ok (formatCard c1) none,
      f + 1, ?_, hrep _⟩
    unfold lookupByNameAndSet
    dsimp only
    rw [getCache_miss ⟨c, g, f⟩ t0 _ hmiss]
    simp only [h1, SWorld.fetch1]
    rw [setCache_small _ t0 _ _ hmiss hlen]

theorem jsMapGet_singleton_ne {α β : Type} [DecidableEq α]
    (k k2 : α) (v : β) (h : k2 ≠ k) : jsMapGet [(k, v)] k2 = none := by
  simp [jsMapGet, h.symm]

theorem dataHead_append (s t : String) (c : Char)
    (h : s.data.head? = some c) : (s ++ t).data.head? = some c := by
  rw [String.data_append, List.head?_append, h]
  rfl

-- The printing-search fetches do not touch the cache or the generation.

theorem fetchPages_frame (env : NetEnv) :
    ∀ (fuel : Nat) (url : Option String) (acc : List RawCard) (w : SWorld),
      (fetchPages env fuel url acc w).2.scryfallCache = w.scryfallCache ∧
      (fetchPages env fuel url acc w).2.activeLookupGen =
        w.activeLookupGen := by
  intro fuel
  induction fuel with
  | zero => intro url acc w; exact ⟨rfl, rfl⟩
  | succ n ih =>
    intro url acc w
    cases url with
    | none => exact ⟨rfl, rfl⟩
    | some u =>
      simp only [fetchPages]
      rcases hn : env.nextPage u with _ | pg
      · exact ⟨rfl, rfl⟩
      · cases hd : pg.data.isEmpty
        · simp only [hd, Bool.false_eq_true, if_false]
          exact ih _ _ _
        · simp only [hd, if_true]
          exact ⟨rfl, rfl⟩

theorem findPrinting_frame (env : NetEnv) (w : SWorld)
    (cardName setHint : String) (variant : Option Nat) :
    (findPrinting env w cardName setHint variant).2.scryfallCache =
      w.scryfallCache ∧
    (findPrinting env w cardName setHint variant).2.activeLookupGen =
      w.activeLookupGen := by
  unfold findPrinting
  rcases hs : env.searchPrints cardName with _ | pg
  · exact ⟨rfl, rfl⟩
  · dsimp only
    cases hd : pg.data.isEmpty
    · simp only [hd, Bool.false_eq_true, if_false]
      cases hm : pg.has_more && pg.next_page.isSome
      · simp only [hm, Bool.false_eq_true, if_false]
        exact ⟨rfl, rfl⟩
      · simp only [hm, if_true]
        exact fetchPages_frame env 4 pg.next_page pg.data w.fetch1
    · simp only [hd, if_true]
      exact ⟨rfl, rfl⟩

theorem lookupByNameMain_pair (env : NetEnv) (t0 t1 : Nat)
    (c : List (String × CacheEntry)) (g f : Nat) (cleaned : String)
    (setHint : Option String) (variant : Option Nat)
    (hmiss : jsMapGet c ("name:" ++ cleaned ++ ":" ++ setHint.getD "" ++
      ":" ++ variantKeyStr variant) = none)
    (hlen : c.length < CACHE_MAX) (httl : t1 - t0 < CACHE_TTL) :
    ∃ r fc,
      lookupByNameMain env t0 ⟨c, g, f⟩ cleaned setHint variant =
        (r, ⟨c ++ [("name:" ++ cleaned ++ ":" ++ setHint.getD "" ++ ":" ++
          variantKeyStr variant, ⟨r, t0⟩)], g, fc⟩) ∧
      ∀ c2 g2 f2,
        jsMapGet c2 ("name:" ++ cleaned ++ ":" ++ setHint.getD "" ++ ":" ++
          variantKeyStr variant) = some ⟨r, t0⟩ →
        lookupByNameMain env t1 ⟨c2, g2, f2⟩ cleaned setHint variant =
          (r, ⟨c2, g2, f2⟩) := by
  have hrep : ∀ r c2 g2 f2,
      jsMapGet c2 ("name:" ++ cleaned ++ ":" ++ setHint.getD "" ++ ":" ++
        variantKeyStr variant) = some ⟨r, t0⟩ →
      lookupByNameMain env t1 ⟨c2, g2, f2⟩ cleaned setHint variant =
        (r, ⟨c2, g2, f2⟩) := by
    intro r c2 g2 f2 hc2
    unfold lookupByNameMain
    dsimp only
    rw [getCache_hit _ t1 t0 _ _ hc2 httl]
  rcases hnf : env.namedFuzzy cleaned with _ | card
  · refine ⟨LookupResult.err (dq ++ cleaned ++ dq ++ " not found"),
      f + 1, ?_, hrep _⟩
    unfold lookupByNameMain
    dsimp only
    rw [getCache_miss ⟨c, g, f⟩ t0 _ hmiss]
    simp only [hnf, SWorld.fetch1]
    rw [setCache_small _ t0 _ _ hmiss hlen]
  · cases setHint with
    | none =>
      refine ⟨LookupResult.ok (formatCard card) (some false),
        f + 1, ?_, hrep _⟩
      unfold lookupByNameMain
      dsimp only
      rw [getCache_miss ⟨c, g, f⟩ t0 _ hmiss]
      simp only [hnf, SWorld.fetch1]
      rw [setCache_small _ t0 _ _ hmiss hlen]
    | some hint =>
      by_cases hh : hint = ""
      · refine ⟨LookupResult.ok (formatCard card) (some false),
          f + 1, ?_, hrep _⟩
        unfold lookupByNameMain
        dsimp only
        rw [getCache_miss ⟨c, g, f⟩ t0 _ hmiss]
        simp only [hnf, SWorld.fetch1]
        rw [if_pos hh]
        rw [setCache_small _ t0 _ _ hmiss hlen]
      · rcases hfp : findPrinting env ⟨c, g, f + 1⟩ card.name hint variant
          with ⟨op, w3⟩
        have hfr := findPrinting_frame env ⟨c, g, f + 1⟩ card.name hint
          variant
        rw [hfp] at hfr
        obtain ⟨c3, g3, f3⟩ := w3
        obtain ⟨hc3, hg3⟩ := hfr
        dsimp only at hc3 hg3
        rw [hc3, hg3] at hfp
        rcases op with _ | printing
        · refine ⟨LookupResult.ok (formatCard card) (some false),
            f3, ?_, hrep _⟩
          unfold lookupByNameMain
          dsimp only
          rw [getCache_miss ⟨c, g, f⟩ t0 _ hmiss]
          simp only [hnf, SWorld.fetch1]
          rw [if_neg hh, hfp]
          dsimp only
          rw [setCache_small _ t0 _ _ hmiss hlen]
        · refine ⟨LookupResult.ok (formatCard printing) (some true),
            f3, ?_, hrep _⟩
          unfold lookupByNameMain
          dsimp only
          rw [getCache_miss ⟨c, g, f⟩ t0 _ hmiss]
          simp only [hnf, SWorld.fetch1]
          rw [if_neg hh, hfp]
          dsimp only
          rw [setCache_small _ t0 _ _ hmiss hlen]

theorem ne_of_dataHead (s t : String) (c1 c2 : Char)
    (h1 : s.data.head? = some c1) (h2 : t.data.head? = some c2)
    (hne : c1 ≠ c2) : s ≠ t := by
  intro he
  rw [he, h2] at h1
  exact hne (Option.some.inj h1).symm

theorem lookupByName_pair (env : NetEnv) (t0 t1 : Nat)
    (c : List (String × CacheEntry)) (g f : Nat) (name : String)
    (setHint : Option String) (variant : Option Nat) (cmId : Option Nat)
    (hcm : ∀ cm, (env.cardmarketById cm).isSome = true)
    (hnm : jsMapGet c ("name:" ++ simplify name ++ ":" ++ setHint.getD "" ++
      ":" ++ variantKeyStr variant) = none)
    (hck : ∀ cm, cmId = some cm → cm ≠ 0 →
      jsMapGet c ("cm:" ++ toString cm) = none)
    (hlen : c.length < CACHE_MAX) (httl : t1 - t0 < CACHE_TTL) :
    ∃ r key fc,
      jsMapGet c key = none ∧
      lookupByName env t0 ⟨c, g, f⟩ name setHint variant cmId =
        (r, ⟨c ++ [(key, ⟨r, t0⟩)], g, fc⟩) ∧
      ∀ c2 g2 f2, jsMapGet c2 key = some ⟨r, t0⟩ →
        lookupByName env t1 ⟨c2, g2, f2⟩ name setHint variant cmId =
          (r, ⟨c2, g2, f2⟩) := by
  cases cmId with
  | none =>
    obtain ⟨r, fc, h1, h2⟩ := lookupByNameMain_pair env t0 t1 c g f
      (simplify name) setHint variant hnm hlen httl
    refine ⟨r, "name:" ++ simplify name ++ ":" ++ setHint.getD "" ++ ":" ++
      variantKeyStr variant, fc, hnm, ?_, ?_⟩
    · unfold lookupByName
      dsimp only
      exact h1
    · intro c2 g2 f2 hc2
      unfold lookupByName
      dsimp only
      exact h2 c2 g2 f2 hc2
  | some cm =>
    by_cases hz : cm = 0
    · subst hz
      obtain ⟨r, fc, h1, h2⟩ := lookupByNameMain_pair env t0 t1 c g f
        (simplify name) setHint variant hnm hlen httl
      refine ⟨r, "name:" ++ simplify name ++ ":" ++ setHint.getD "" ++ ":" ++
        variantKeyStr variant, fc, hnm, ?_, ?_⟩
      · unfold lookupByName
        dsimp only
        rw [if_pos rfl]
        exact h1
      · intro c2 g2 f2 hc2
        unfold lookupByName
        dsimp only
        rw [if_pos rfl]
        exact h2 c2 g2 f2 hc2
    · have hsome := hcm cm
      rcases hraw : env.cardmarketById cm with _ | raw
      · rw [hraw] at hsome
        simp at hsome
      · refine ⟨LookupResult.ok (formatCard raw) none,
          "cm:" ++ toString cm, f + 1, hck cm rfl hz, ?_, ?_⟩
        · unfold lookupByName
          dsimp only
          rw [if_neg hz]
          rw [getCache_miss ⟨c, g, f⟩ t0 _ (hck cm rfl hz)]
          simp only [hraw, SWorld.fetch1]
          rw [setCache_small _ t0 _ _ (hck cm rfl hz) hlen]
        · intro c2 g2 f2 hc2
          unfold lookupByName
          dsimp only
          rw [if_neg hz]
          rw [getCache_hit _ t1 t0 _ _ hc2 httl]

theorem nameKey_head (a b c : String) :
    ("name:" ++ a ++ ":" ++ b ++ ":" ++ c).data.head? =
      some ('n' : Char) :=
  dataHead_append _ _ _ (dataHead_append _ _ _ (dataHead_append _ _ _
    (dataHead_append _ _ _ (dataHead_append _ _ _ rfl))))

theorem tcgKey_head (a : String) :
    ("tcg:" ++ a).data.head? = some ('t' : Char) :=
  dataHead_append _ _ _ rfl

/-- The strategy-dispatch stage paired lemma: from an empty result cache
the first run resolves the message, appends one or two cache entries
without touching the generation, and a second run within the TTL on the
resulting cache returns the same result and override id with the state
untouched. -/
theorem resolveStage_pair (env : NetEnv) (m : Msg) (t0 t1 g f : Nat)
    (hcm : ∀ cm, (env.cardmarketById cm).isSome = true)
    (httl : t1 - t0 < CACHE_TTL) :
    ∃ r ov c1 fc,
      resolveStage env t0 ⟨[], g, f⟩ m = (r, ov, ⟨c1, g, fc⟩) ∧
      ∀ g2 f2, resolveStage env t1 ⟨c1, g2, f2⟩ m =
        (r, ov, ⟨c1, g2, f2⟩) := by
  have hlen0 : ([] : List (String × CacheEntry)).length < CACHE_MAX := by
    decide
  rcases hsid : m.scryfallId with _ | sid
  · rcases htid : m.tcgplayerId with _ | tid
    · rcases hsc : m.setCode with _ | sc
      · -- no id, no set code: the name strategy
        obtain ⟨r, key, fc, hk0, h1, h2⟩ := lookupByName_pair env t0 t1 []
          g f (m.cardName.getD "") m.setHint m.variant
          m.cardmarketProductId hcm rfl (fun _ _ _ => rfl) hlen0 httl
        refine ⟨r, none, [] ++ [(key, ⟨r, t0⟩)], fc, ?_, ?_⟩
        · unfold resolveStage
          rw [hsid, htid, hsc]
          dsimp only
          rw [h1]
        · intro g2 f2
          unfold resolveStage
          rw [hsid, htid, hsc]
          dsimp only
          rw [h2 _ g2 f2 (jsMapGet_snoc_self [] _ _ rfl)]
      · rcases hcn : m.collectorNumber with _ | cn
        · rcases hcnm : m.cardName with _ | nm
          · -- set code without collector number or name: name strategy
            obtain ⟨r, key, fc, hk0, h1, h2⟩ := lookupByName_pair env t0
              t1 [] g f ((none : Option String).getD "") m.setHint m.variant
              m.cardmarketProductId hcm rfl (fun _ _ _ => rfl) hlen0 httl
            refine ⟨r, none, [] ++ [(key, ⟨r, t0⟩)], fc, ?_, ?_⟩
            · unfold resolveStage
              rw [hsid, htid, hsc, hcn, hcnm]
              dsimp only
              rw [h1]
            · intro g2 f2
              unfold resolveStage
              rw [hsid, htid, hsc, hcn, hcnm]
              dsimp only
              rw [h2 _ g2 f2 (jsMapGet_snoc_self [] _ _ rfl)]
          · -- set code and card name
            obtain ⟨r, fc, h1, h2⟩ := lookupByNameAndSet_pair env t0 t1 []
              g f nm sc rfl hlen0 httl
            refine ⟨r, none,
              [] ++ [("set:" ++ sc ++ ":" ++ nm, ⟨r, t0⟩)], fc, ?_, ?_⟩
            · unfold resolveStage
              rw [hsid, htid, hsc, hcn, hcnm]
              dsimp only
              rw [h1]
            · intro g2 f2
              unfold resolveStage
              rw [hsid, htid, hsc, hcn, hcnm]
              dsimp only
              rw [h2 _ g2 f2 (jsMapGet_snoc_self [] _ _ rfl)]
        · -- set code and collector number
          obtain ⟨r, fc, h1, h2⟩ := lookupByCollector_pair env t0 t1 []
            g f sc cn rfl hlen0 httl
          refine ⟨r, none,
            [] ++ [("col:" ++ sc ++ ":" ++ cn, ⟨r, t0⟩)], fc, ?_, ?_⟩
          · unfold resolveStage
            rw [hsid, htid, hsc, hcn]
            dsimp only
            rw [h1]
          · intro g2 f2
            unfold resolveStage
            rw [hsid, htid, hsc, hcn]
            dsimp only
            rw [h2 _ g2 f2 (jsMapGet_snoc_self [] _ _ rfl)]
    · -- tcgplayer id strategy, with the name fallback
      obtain ⟨r, fc, h1, h2⟩ := lookupByTcgId_pair env t0 t1 [] g f tid
        rfl hlen0 httl
      cases r with
      | ok card pm =>
        refine ⟨LookupResult.ok card pm, none, [] ++
          [("tcg:" ++ toString tid, ⟨LookupResult.ok card pm, t0⟩)],
          fc, ?_, ?_⟩
        · unfold resolveStage
          rw [hsid, htid]
          dsimp only
          rw [h1]
        · intro g2 f2
          unfold resolveStage
          rw [hsid, htid]
          dsimp only
          rw [h2 _ g2 f2 (jsMapGet_snoc_self [] _ _ rfl)]
      | err emsg =>
        rcases hcnm : m.cardName with _ | nm
        · refine ⟨LookupResult.err emsg, none, [] ++
            [("tcg:" ++ toString tid, ⟨LookupResult.err emsg, t0⟩)],
            fc, ?_, ?_⟩
          · unfold resolveStage
            rw [hsid, htid]
            dsimp only
            rw [h1]
            dsimp only
            rw [hcnm]
          · intro g2 f2
            unfold resolveStage
            rw [hsid, htid]
            dsimp only
            rw [h2 _ g2 f2 (jsMapGet_snoc_self [] _ _ rfl)]
            dsimp only
            rw [hcnm]
        · by_cases hu : nm = "Unknown"
          · refine ⟨LookupResult.err emsg, none, [] ++
              [("tcg:" ++ toString tid, ⟨LookupResult.err emsg, t0⟩)],
              fc, ?_, ?_⟩
            · unfold resolveStage
              rw [hsid, htid]
              dsimp only
              rw [h1]
              dsimp only
              rw [hcnm]
              dsimp only
              rw [if_pos hu]
            · intro g2 f2
              unfold resolveStage
              rw [hsid, htid]
              dsimp only
              rw [h2 _ g2 f2 (jsMapGet_snoc_self [] _ _ rfl)]
              dsimp only
              rw [hcnm]
              dsimp only
              rw [if_pos hu]
          · have hlen1 : ([] ++ [("tcg:" ++ toString tid,
                (⟨LookupResult.err emsg, t0⟩ : CacheEntry))]).length <
                CACHE_MAX := by
              simp only [List.nil_append, List.length_cons, List.length_nil]
              decide
            have hkn : jsMapGet ([] ++ [("tcg:" ++ toString tid,
                (⟨LookupResult.err emsg, t0⟩ : CacheEntry))])
                ("name:" ++ simplify nm ++ ":" ++ m.setHint.getD "" ++
                  ":" ++ variantKeyStr m.variant) = none := by
              rw [List.nil_append]
              exact jsMapGet_singleton_ne _ _ _
                (ne_of_dataHead _ _ ('n' : Char) ('t' : Char)
                  (nameKey_head _ _ _) (tcgKey_head _) (by decide))
            obtain ⟨r2, key2, fc2, hk20, hn1, hn2⟩ := lookupByName_pair
              env t0 t1 ([] ++ [("tcg:" ++ toString tid,
                (⟨LookupResult.err emsg, t0⟩ : CacheEntry))]) g fc nm
              m.setHint m.variant none hcm hkn (fun _ h _ => by cases h)
              hlen1 httl
            have htk2 : ∀ c2 : List (String × CacheEntry),
                jsMapGet (([] ++ [("tcg:" ++ toString tid,
                  (⟨LookupResult.err emsg, t0⟩ : CacheEntry))]) ++
                    [(key2, ⟨r2, t0⟩)]) ("tcg:" ++ toString tid) =
                  some ⟨LookupResult.err emsg, t0⟩ := by
              intro c2
              exact jsMapGet_append_some _ _ _ _
                (by rw [List.nil_append]; exact jsMapGet_singleton _ _)
            cases r2 with
            | ok card2 pm2 =>
              refine ⟨LookupResult.ok card2 pm2, some tid,
                ([] ++ [("tcg:" ++ toString tid,
                  (⟨LookupResult.err emsg, t0⟩ : CacheEntry))]) ++
                  [(key2, ⟨LookupResult.ok card2 pm2, t0⟩)], fc2, ?_, ?_⟩
              · unfold resolveStage
                rw [hsid, htid]
                dsimp only
                rw [h1]
                dsimp only
                rw [hcnm]
                dsimp only
                rw [if_neg hu]
                rw [hn1]
              · intro g2 f2
                unfold resolveStage
                rw [hsid, htid]
                dsimp only
                rw [h2 _ g2 f2 (htk2 [])]
                dsimp only
                rw [hcnm]
                dsimp only
                rw [if_neg hu]
                rw [hn2 _ g2 f2 (jsMapGet_snoc_self _ _ _ hk20)]
            | err emsg2 =>
              refine ⟨LookupResult.err emsg2, none,
                ([] ++ [("tcg:" ++ toString tid,
                  (⟨LookupResult.err emsg, t0⟩ : CacheEntry))]) ++
                  [(key2, ⟨LookupResult.err emsg2, t0⟩)], fc2, ?_, ?_⟩
              · unfold resolveStage
                rw [hsid, htid]
                dsimp only
                rw [h1]
                dsimp only
                rw [hcnm]
                dsimp only
                rw [if_neg hu]
                rw [hn1]
              · intro g2 f2
                unfold resolveStage
                rw [hsid, htid]
                dsimp only
                rw [h2 _ g2 f2 (htk2 [])]
                dsimp only
                rw [hcnm]
                dsimp only
                rw [if_neg hu]
                rw [hn2 _ g2 f2 (jsMapGet_snoc_self _ _ _ hk20)]
  · -- scryfall id strategy
    obtain ⟨r, fc, h1, h2⟩ := lookupByScryfallId_pair env t0 t1 [] g f sid
      rfl hlen0 httl
    refine ⟨r, none, [] ++ [("sf:" ++ sid, ⟨r, t0⟩)], fc, ?_, ?_⟩
    · unfold resolveStage
      rw [hsid]
      dsimp only
      rw [h1]
    · intro g2 f2
      unfold resolveStage
      rw [hsid]
      dsimp only
      rw [h2 _ g2 f2 (jsMapGet_snoc_self [] _ _ rfl)]

-- ── TCGCSV-layer lemmas for the replay argument ────────────────────

theorem scanProduct_none (env : NetEnv) (t0 t1 pid : Nat) (w : TWorld)
    (hcanon : canonCache env t0 w) (hno : noPid env pid w) :
    cacheScanForProduct w t1 pid = none := by
  unfold cacheScanForProduct
  rw [List.findSome?_eq_none_iff]
  intro p hp
  have hc := hcanon p hp
  have hn := hno p.1 (List.mem_map_of_mem Prod.fst hp)
  rw [hc]
  dsimp only [canonEntry]
  split
  · exact hn
  · rfl

theorem scanDirect_none (env : NetEnv) (t0 t1 pid : Nat) (w : TWorld)
    (hcanon : canonCache env t0 w) (hno : noPid env pid w) :
    cacheScanDirect w t1 pid = none := by
  unfold cacheScanDirect
  rw [List.findSome?_eq_none_iff]
  intro p hp
  have hc := hcanon p hp
  have hn := hno p.1 (List.mem_map_of_mem Prod.fst hp)
  rw [hc]
  dsimp only [canonEntry]
  split
  · rw [show jsMapGet (pricesOf env p.1) pid = none from hn]
  · rfl

theorem scanProduct_hit (env : NetEnv) (t0 t1 pid G : Nat) (q : PriceQuad)
    (httl : t1 - t0 < TCGCSV_CACHE_TTL) :
    ∀ l : List (Nat × GroupEntry),
      (∀ p ∈ l, p.2 = canonEntry env t0 p.1) →
      (∀ k ∈ l.map Prod.fst, k ≠ G → pidQuad env pid k = none) →
      G ∈ l.map Prod.fst → pidQuad env pid G = some q →
      l.findSome? (fun p =>
        if t1 - p.2.ts < TCGCSV_CACHE_TTL then jsMapGet p.2.prices pid
        else none) = some q := by
  intro l
  induction l with
  | nil =>
    intro _ _ hm _
    simp at hm
  | cons p t ih =>
    intro hcanon honly hmem hq
    rw [List.findSome?_cons]
    have hc := hcanon p (List.mem_cons_self p t)
    by_cases hpg : p.1 = G
    · rw [hc]
      dsimp only [canonEntry]
      rw [if_pos httl, hpg,
        show jsMapGet (pricesOf env G) pid = some q from hq]
    · have hn := honly p.1 (by simp) hpg
      rw [hc]
      dsimp only [canonEntry]
      rw [if_pos httl, show jsMapGet (pricesOf env p.1) pid = none from hn]
      refine ih (fun x hx => hcanon x (List.mem_cons_of_mem p hx))
        (fun k hk => honly k
          (by rw [List.map_cons]; exact List.mem_cons_of_mem _ hk)) ?_ hq
      rw [List.map_cons] at hmem
      rcases List.mem_cons.mp hmem with he | hmem2
      · exact absurd he.symm hpg
      · exact hmem2

theorem scanDirect_hit (env : NetEnv) (t0 t1 pid G : Nat) (q : PriceQuad)
    (httl : t1 - t0 < TCGCSV_CACHE_TTL) :
    ∀ l : List (Nat × GroupEntry),
      (∀ p ∈ l, p.2 = canonEntry env t0 p.1) →
      (∀ k ∈ l.map Prod.fst, k ≠ G → pidQuad env pid k = none) →
      G ∈ l.map Prod.fst → pidQuad env pid G = some q →
      l.findSome? (fun p =>
        if t1 - p.2.ts < TCGCSV_CACHE_TTL then
          match jsMapGet p.2.prices pid with
          | some q =>
            some (⟨q,
              p.2.products.find? (fun pr => decide (pr.productId = pid)),
              none⟩ : DirectResult)
          | none => none
        else none) = some (⟨q, pidProd env pid G, none⟩ : DirectResult) := by
  intro l
  induction l with
  | nil =>
    intro _ _ hm _
    simp at hm
  | cons p t ih =>
    intro hcanon honly hmem hq
    rw [List.findSome?_cons]
    have hc := hcanon p (List.mem_cons_self p t)
    by_cases hpg : p.1 = G
    · rw [hc]
      dsimp only [canonEntry]
      rw [if_pos httl, hpg,
        show jsMapGet (pricesOf env G) pid = some q from hq]
      rfl
    · have hn := honly p.1 (by simp) hpg
      rw [hc]
      dsimp only [canonEntry]
      rw [if_pos httl, show jsMapGet (pricesOf env p.1) pid = none from hn]
      refine ih (fun x hx => hcanon x (List.mem_cons_of_mem p hx))
        (fun k hk => honly k
          (by rw [List.map_cons]; exact List.mem_cons_of_mem _ hk)) ?_ hq
      rw [List.map_cons] at hmem
      rcases List.mem_cons.mp hmem with he | hmem2
      · exact absurd he.symm hpg
      · exact hmem2

theorem cacheScanDirect_hit (env : NetEnv) (t0 t1 pid G : Nat)
    (q : PriceQuad) (w : TWorld) (httl : t1 - t0 < TCGCSV_CACHE_TTL)
    (hcanon : canonCache env t0 w) (honly : onlyPid env pid G w)
    (hmem : G ∈ tKeys w) (hq : pidQuad env pid G = some q) :
    cacheScanDirect w t1 pid = some ⟨q, pidProd env pid G, none⟩ :=
  scanDirect_hit env t0 t1 pid G q httl w.tcgcsvCache hcanon honly hmem hq

theorem cacheScanForProduct_hit (env : NetEnv) (t0 t1 pid G : Nat)
    (q : PriceQuad) (w : TWorld) (httl : t1 - t0 < TCGCSV_CACHE_TTL)
    (hcanon : canonCache env t0 w) (honly : onlyPid env pid G w)
    (hmem : G ∈ tKeys w) (hq : pidQuad env pid G = some q) :
    cacheScanForProduct w t1 pid = some q :=
  scanProduct_hit env t0 t1 pid G q httl w.tcgcsvCache hcanon honly hmem hq

theorem tcgcsvCacheSet_fresh (env : NetEnv) (gs : List Group) (t0 : Nat)
    (w : TWorld) (gid : Nat) (e : GroupEntry)
    (hinv : tcgInv env gs t0 w)
    (hfresh : jsMapGet w.tcgcsvCache gid = none)
    (hgid : gid ∈ gs.map (fun g => g.groupId))
    (hglen : gs.length ≤ TCGCSV_CACHE_MAX) :
    tcgcsvCacheSet w gid e =
      { w with tcgcsvCache := w.tcgcsvCache ++ [(gid, e)] } := by
  have hnotin : gid ∉ tKeys w := (jsMapGet_none_iff _ _).mp hfresh
  have hsub2 : (gid :: tKeys w) ⊆ gs.map (fun g => g.groupId) := by
    intro x hx
    rcases List.mem_cons.mp hx with rfl | hx2
    · exact hgid
    · exact hinv.2.1 x hx2
  have hnd2 : (gid :: tKeys w).Nodup :=
    List.nodup_cons.mpr ⟨hnotin, hinv.2.2⟩
  have hle := List.Subperm.length_le (List.Nodup.subperm hnd2 hsub2)
  rw [List.length_cons, List.length_map] at hle
  have hkl : (tKeys w).length = w.tcgcsvCache.length := by
    unfold tKeys
    exact List.length_map _ _
  unfold tcgcsvCacheSet
  rw [cachePutEvict_small _ _ _ _ hfresh (by omega)]

theorem getTcgcsvGroups_memo (env : NetEnv) (gs : List Group) (w : TWorld)
    (h : w.tcgcsvGroups = some gs) :
    getTcgcsvGroups env w = (some gs, w) := by
  unfold getTcgcsvGroups
  rw [h]

theorem getTcgcsvGroups_first (env : NetEnv) (gs : List Group) (w : TWorld)
    (hg : env.tcgGroups = some gs) (h : w.tcgcsvGroups = none) :
    getTcgcsvGroups env w =
      (some gs, ⟨w.tcgcsvCache, some gs, w.fetchCount + 1⟩) := by
  unfold getTcgcsvGroups
  rw [h]
  dsimp only [TWorld.fetch1]
  rw [hg]

theorem tier1Alias_mem (groups : List Group) (target : String) (gid : Nat)
    (h : tier1Alias groups target = some gid) :
    gid ∈ groups.map (fun g => g.groupId) := by
  unfold tier1Alias at h
  rcases ha : ALIASES.find? (fun a => decide (a.1 = target)) with _ | a
  · rw [ha] at h
    cases h
  · rw [ha] at h
    obtain ⟨al, _, hal⟩ := List.exists_of_findSome?_eq_some h
    dsimp only at hal
    rcases hf : groups.find?
        (fun g => decide (normSetName g.name = normSetName al)) with _ | g
    · rw [hf] at hal
      cases hal
    · rw [hf] at hal
      simp only [Option.map_some', Option.some.injEq] at hal
      rw [← hal]
      exact List.mem_map_of_mem _ (List.mem_of_find?_eq_some hf)

theorem matchGroup_foldl_mem (target : String) (targetWords : List String) :
    ∀ (l : List Group) (acc : ℚ × Option Nat) (gid : Nat),
      (l.foldl (fun (acc : ℚ × Option Nat) g =>
        if (getSetWords g.name).length = 0 then acc
        else
          let s := groupScore target targetWords g
          if acc.1 < s then (s, some g.groupId) else acc) acc).2 =
        some gid →
      acc.2 = some gid ∨ gid ∈ l.map (fun g => g.groupId) := by
  intro l
  induction l with
  | nil =>
    intro acc gid h
    exact Or.inl h
  | cons g t ih =>
    intro acc gid h
    rw [List.foldl_cons] at h
    rcases ih _ gid h with hacc | hmem
    · by_cases h0 : (getSetWords g.name).length = 0
      · rw [if_pos h0] at hacc
        exact Or.inl hacc
      · rw [if_neg h0] at hacc
        dsimp only at hacc
        by_cases hlt : acc.1 < groupScore target targetWords g
        · rw [if_pos hlt] at hacc
          right
          rw [List.map_cons]
          exact List.mem_cons.mpr (Or.inl (Option.some.inj hacc).symm)
        · rw [if_neg hlt] at hacc
          exact Or.inl hacc
    · right
      rw [List.map_cons]
      exact List.mem_cons.mpr (Or.inr hmem)

theorem matchGroup_mem (groups : List Group) (s : String) (gid : Nat)
    (h : matchGroup groups s = some gid) :
    gid ∈ groups.map (fun g => g.groupId) := by
  unfold matchGroup at h
  by_cases hs : s = ""
  · rw [if_pos hs] at h
    cases h
  · rw [if_neg hs] at h
    dsimp only at h
    rcases ht : tier1Alias groups (normSetName s) with _ | g1
    · rw [ht] at h
      rcases hf : groups.find?
          (fun g => decide (normSetName g.name = normSetName s)) with _ | g
      · rw [hf] at h
        by_cases hw : (getSetWords s).length = 0
        · rw [if_pos hw] at h
          cases h
        · rw [if_neg hw] at h
          dsimp only at h
          split at h
          · rcases matchGroup_foldl_mem (normSetName s) (getSetWords s)
              groups (0, none) gid h with hacc | hmem
            · cases hacc
            · exact hmem
          · cases h
      · rw [hf] at h
        rw [← Option.some.inj h]
        exact List.mem_map_of_mem _ (List.mem_of_find?_eq_some hf)
    · rw [ht] at h
      rw [← Option.some.inj h]
      exact tier1Alias_mem groups (normSetName s) g1 ht

theorem matchAllGroups_mem (groups : List Group) (s : String)
    (c : GroupMatch) (h : c ∈ matchAllGroups groups s) :
    c.groupId ∈ groups.map (fun g => g.groupId) := by
  unfold matchAllGroups at h
  split at h
  · cases h
  · dsimp only at h
    split at h
    · cases h
    · have hmem := (mem_stableSortBy _ c _).mp h
      rcases List.mem_filterMap.mp hmem with ⟨g, hg, hfg⟩
      split at hfg
      · cases hfg
      · split at hfg
        · rw [← (show (⟨g.groupId, _, g.name⟩ : GroupMatch) = c
            from Option.some.inj hfg)]
          exact List.mem_map_of_mem _ hg
        · cases hfg

theorem tKeys_snoc (w w2 : TWorld) (gid : Nat) (e : GroupEntry)
    (h : w2.tcgcsvCache = w.tcgcsvCache ++ [(gid, e)]) :
    tKeys w2 = tKeys w ++ [gid] := by
  unfold tKeys
  rw [h, List.map_append]
  rfl

theorem tcgInv_snoc (env : NetEnv) (gs : List Group) (t0 : Nat)
    (w w2 : TWorld) (gid : Nat)
    (hinv : tcgInv env gs t0 w)
    (h : w2.tcgcsvCache = w.tcgcsvCache ++ [(gid, canonEntry env t0 gid)])
    (hgid : gid ∈ gs.map (fun g => g.groupId))
    (hfresh : jsMapGet w.tcgcsvCache gid = none) :
    tcgInv env gs t0 w2 := by
  obtain ⟨hc, hs, hn⟩ := hinv
  have hkeys := tKeys_snoc w w2 gid _ h
  refine ⟨?_, ?_, ?_⟩
  · intro p hp
    rw [h] at hp
    rcases List.mem_append.mp hp with h1 | h2
    · exact hc p h1
    · rw [List.mem_singleton.mp h2]
  · intro k hk
    rw [hkeys] at hk
    rcases List.mem_append.mp hk with h1 | h2
    · exact hs k h1
    · rw [List.mem_singleton.mp h2]
      exact hgid
  · rw [hkeys, List.nodup_append]
    refine ⟨hn, List.nodup_singleton _, ?_⟩
    intro a ha hb
    rw [List.mem_singleton.mp hb] at ha
    exact (jsMapGet_none_iff _ _).mp hfresh ha

theorem noPid_snoc (env : NetEnv) (pid : Nat) (w w2 : TWorld) (gid : Nat)
    (e : GroupEntry)
    (h : w2.tcgcsvCache = w.tcgcsvCache ++ [(gid, e)])
    (hno : noPid env pid w) (hq : pidQuad env pid gid = none) :
    noPid env pid w2 := by
  intro k hk
  rw [tKeys_snoc w w2 gid e h] at hk
  rcases List.mem_append.mp hk with h1 | h2
  · exact hno k h1
  · rw [List.mem_singleton.mp h2]
    exact hq

theorem onlyPid_snoc (env : NetEnv) (pid : Nat) (w w2 : TWorld)
    (gid : Nat) (e : GroupEntry)
    (h : w2.tcgcsvCache = w.tcgcsvCache ++ [(gid, e)])
    (hno : noPid env pid w) :
    onlyPid env pid gid w2 := by
  intro k hk hne
  rw [tKeys_snoc w w2 gid e h] at hk
  rcases List.mem_append.mp hk with h1 | h2
  · exact hno k h1
  · exact absurd (List.mem_singleton.mp h2) hne

theorem jsMapGet_some_mem_keys {α β : Type} [DecidableEq α]
    (l : List (α × β)) (k : α) (v : β) (h : jsMapGet l k = some v) :
    k ∈ l.map Prod.fst :=
  List.mem_map_of_mem Prod.fst (jsMapGet_mem l k v h)

/-- `directCandLoop` on the first run: from an invariant state with no
cached price for the product, the loop either exhausts the candidates —
caching each of them — or stops at the first group pricing the product,
which it has just cached last. -/
theorem directCandLoop_run1 (env : NetEnv) (gs : List Group) (t0 pid : Nat)
    (hgs : envOk env gs) :
    ∀ (cs : List GroupMatch) (tried : List Nat) (w : TWorld),
      tcgInv env gs t0 w →
      (∀ c ∈ cs, c.groupId ∈ gs.map (fun g => g.groupId)) →
      (∀ k ∈ tried, k ∈ tKeys w) →
      noPid env pid w →
      (∃ tried2 w2,
        directCandLoop env t0 pid cs tried w = (none, tried2, w2) ∧
        tcgInv env gs t0 w2 ∧ noPid env pid w2 ∧
        w2.tcgcsvGroups = w.tcgcsvGroups ∧
        (∀ k ∈ tKeys w, k ∈ tKeys w2) ∧
        (∀ k ∈ tried2, k ∈ tKeys w2) ∧
        (∀ c ∈ cs, c.groupId ∈ tKeys w2)) ∨
      (∃ G q nm tried2 w2,
        directCandLoop env t0 pid cs tried w =
          (some ⟨q, pidProd env pid G, some nm⟩, tried2, w2) ∧
        tcgInv env gs t0 w2 ∧ onlyPid env pid G w2 ∧
        G ∈ tKeys w2 ∧ pidQuad env pid G = some q ∧
        w2.tcgcsvGroups = w.tcgcsvGroups ∧
        (∀ k ∈ tKeys w, k ∈ tKeys w2)) := by
  intro cs
  induction cs with
  | nil =>
    intro tried w hinv hcs htr hno
    exact Or.inl ⟨tried, w, rfl, hinv, hno, rfl, fun k hk => hk, htr,
      fun c hc => absurd hc (List.not_mem_nil c)⟩
  | cons c cs ih =>
    intro tried w hinv hcs htr hno
    by_cases hct : tried.contains c.groupId
    · have hskip : directCandLoop env t0 pid (c :: cs) tried w =
          directCandLoop env t0 pid cs tried w := by
        simp only [directCandLoop]
        rw [if_pos hct]
      have hcmem : c.groupId ∈ tKeys w :=
        htr c.groupId (List.mem_of_elem_eq_true hct)
      rcases ih tried w hinv
          (fun x hx => hcs x (List.mem_cons_of_mem c hx)) htr hno with
        ⟨t2, w2, heq, hi2, hn2, hg2, hk2, ht2, hc2⟩ |
        ⟨G, q, nm, t2, w2, heq, hi2, ho2, hG2, hq2, hg2, hk2⟩
      · refine Or.inl ⟨t2, w2, hskip.trans heq, hi2, hn2, hg2, hk2, ht2,
          ?_⟩
        intro x hx
        rcases List.mem_cons.mp hx with rfl | hx2
        · exact hk2 _ hcmem
        · exact hc2 x hx2
      · exact Or.inr ⟨G, q, nm, t2, w2, hskip.trans heq, hi2, ho2, hG2,
          hq2, hg2, hk2⟩
    · rcases hjm : jsMapGet w.tcgcsvCache c.groupId with _ | cached
      · -- fresh candidate: fetch and cache it
        rcases hp : env.groupPrices c.groupId with _ | rows
        · have := hgs.2.1 c.groupId
          rw [hp] at this
          simp at this
        · have hpm : buildPriceMap rows = pricesOf env c.groupId := by
            unfold pricesOf
            rw [hp]
            rfl
          have hce : (⟨t0, buildPriceMap rows,
              (env.groupProducts c.groupId).getD []⟩ : GroupEntry) =
              canonEntry env t0 c.groupId := by
            rw [hpm]
            rfl
          have hcg : c.groupId ∈ gs.map (fun g => g.groupId) :=
            hcs c (List.mem_cons_self c cs)
          have hset : tcgcsvCacheSet w.fetch1.fetch1 c.groupId
              (canonEntry env t0 c.groupId) =
              (⟨w.tcgcsvCache ++ [(c.groupId, canonEntry env t0 c.groupId)],
                w.tcgcsvGroups, w.fetchCount + 1 + 1⟩ : TWorld) :=
            tcgcsvCacheSet_fresh env gs t0 (w.fetch1.fetch1)
              c.groupId (canonEntry env t0 c.groupId) hinv hjm hcg
              hgs.2.2.2.2.2
          have hcache : (⟨w.tcgcsvCache ++
              [(c.groupId, canonEntry env t0 c.groupId)],
              w.tcgcsvGroups, w.fetchCount + 1 + 1⟩ : TWorld).tcgcsvCache =
              w.tcgcsvCache ++ [(c.groupId, canonEntry env t0 c.groupId)] :=
            rfl
          have hstep : directCandLoop env t0 pid (c :: cs) tried w =
              (match pidQuad env pid c.groupId with
               | some q =>
                 (some ⟨q, pidProd env pid c.groupId, some c.name⟩,
                  c.groupId :: tried,
                  (⟨w.tcgcsvCache ++ [(c.groupId, canonEntry env t0
                      c.groupId)],
                    w.tcgcsvGroups, w.fetchCount + 1 + 1⟩ : TWorld))
               | none =>
                 directCandLoop env t0 pid cs (c.groupId :: tried)
                   (⟨w.tcgcsvCache ++ [(c.groupId, canonEntry env t0
                       c.groupId)],
                     w.tcgcsvGroups, w.fetchCount + 1 + 1⟩ : TWorld)) := by
            simp only [directCandLoop]
            rw [if_neg hct, hjm, hp]
            dsimp only
            rw [hce, hset]
            unfold pidQuad
            rw [hpm]
            rfl
          rcases hpq : pidQuad env pid c.groupId with _ | q
          · -- no price here: recurse on the extended cache
            rw [hpq] at hstep
            have hinv2 := tcgInv_snoc env gs t0 w _ c.groupId hinv hcache
              hcg hjm
            have hno2 := noPid_snoc env pid w _ c.groupId _ hcache hno hpq
            have hkey2 := tKeys_snoc w _ c.groupId _ hcache
            rcases ih (c.groupId :: tried) _ hinv2
                (fun x hx => hcs x (List.mem_cons_of_mem c hx))
                (fun k hk => by
                  rw [hkey2]
                  rcases List.mem_cons.mp hk with rfl | hk2
                  · exact List.mem_append_right _ (List.mem_singleton_self _)
                  · exact List.mem_append_left _ (htr k hk2)) hno2 with
              ⟨t2, w2, heq, hi2, hn2, hg2, hk2, ht2, hc2⟩ |
              ⟨G, q2, nm, t2, w2, heq, hi2, ho2, hG2, hq2, hg2, hk2⟩
            · refine Or.inl ⟨t2, w2, hstep.trans heq, hi2, hn2, hg2,
                ?_, ht2, ?_⟩
              · intro k hk
                refine hk2 k ?_
                rw [hkey2]
                exact List.mem_append_left _ hk
              · intro x hx
                rcases List.mem_cons.mp hx with rfl | hx2
                · refine hk2 _ ?_
                  rw [hkey2]
                  exact List.mem_append_right _ (List.mem_singleton_self _)
                · exact hc2 x hx2
            · refine Or.inr ⟨G, q2, nm, t2, w2, hstep.trans heq, hi2,
                ho2, hG2, hq2, hg2, ?_⟩
              intro k hk
              refine hk2 k ?_
              rw [hkey2]
              exact List.mem_append_left _ hk
          · -- the product is priced here: stop
            rw [hpq] at hstep
            refine Or.inr ⟨c.groupId, q, c.name, c.groupId :: tried, _,
              hstep, tcgInv_snoc env gs t0 w _ c.groupId hinv hcache
                hcg hjm,
              onlyPid_snoc env pid w _ c.groupId _ hcache hno,
              ?_, hpq, rfl, ?_⟩
            · rw [tKeys_snoc w _ c.groupId _ hcache]
              exact List.mem_append_right _ (List.mem_singleton_self _)
            · intro k hk
              rw [tKeys_snoc w _ c.groupId _ hcache]
              exact List.mem_append_left _ hk
      · -- cached candidate: consulted in place, no price for the product
        have hcc := hinv.1 _ (jsMapGet_mem _ _ _ hjm)
        dsimp only at hcc
        have hcmem : c.groupId ∈ tKeys w := jsMapGet_some_mem_keys _ _ _ hjm
        have hstep : directCandLoop env t0 pid (c :: cs) tried w =
            directCandLoop env t0 pid cs (c.groupId :: tried) w := by
          simp only [directCandLoop]
          rw [if_neg hct, hjm, hcc]
          dsimp only [canonEntry]
          rw [if_pos (by rw [Nat.sub_self]; decide),
            show jsMapGet (pricesOf env c.groupId) pid = none from
              hno c.groupId hcmem]
        rcases ih (c.groupId :: tried) w hinv
            (fun x hx => hcs x (List.mem_cons_of_mem c hx))
            (fun k hk => by
              rcases List.mem_cons.mp hk with rfl | hk2
              · exact hcmem
              · exact htr k hk2) hno with
          ⟨t2, w2, heq, hi2, hn2, hg2, hk2, ht2, hc2⟩ |
          ⟨G, q, nm, t2, w2, heq, hi2, ho2, hG2, hq2, hg2, hk2⟩
        · refine Or.inl ⟨t2, w2, hstep.trans heq, hi2, hn2, hg2, hk2,
            ht2, ?_⟩
          intro x hx
          rcases List.mem_cons.mp hx with rfl | hx2
          · exact hk2 _ hcmem
          · exact hc2 x hx2
        · exact Or.inr ⟨G, q, nm, t2, w2, hstep.trans heq, hi2, ho2,
            hG2, hq2, hg2, hk2⟩

/-- `directCandLoop` on the replay run: with every candidate already
cached fresh and none pricing the product, the loop walks through
without touching the state or the network. -/
theorem directCandLoop_run2 (env : NetEnv) (t0 t1 pid : Nat)
    (httl : t1 - t0 < TCGCSV_CACHE_TTL) :
    ∀ (cs : List GroupMatch) (tried : List Nat) (w : TWorld),
      canonCache env t0 w →
      noPid env pid w →
      (∀ c ∈ cs, c.groupId ∈ tKeys w) →
      ∃ tried2, directCandLoop env t1 pid cs tried w =
        (none, tried2, w) := by
  intro cs
  induction cs with
  | nil =>
    intro tried w _ _ _
    exact ⟨tried, rfl⟩
  | cons c cs ih =>
    intro tried w hcanon hno hcs
    by_cases hct : tried.contains c.groupId
    · obtain ⟨t2, heq⟩ := ih tried w hcanon hno
        (fun x hx => hcs x (List.mem_cons_of_mem c hx))
      refine ⟨t2, ?_⟩
      rw [← heq]
      simp only [directCandLoop]
      rw [if_pos hct]
    · have hcmem : c.groupId ∈ tKeys w := hcs c (List.mem_cons_self c cs)
      obtain ⟨e, hje, hme⟩ := mem_keys_jsMapGet _ _ hcmem
      have hce : e = canonEntry env t0 c.groupId := hcanon _ hme
      obtain ⟨t2, heq⟩ := ih (c.groupId :: tried) w hcanon hno
        (fun x hx => hcs x (List.mem_cons_of_mem c hx))
      refine ⟨t2, ?_⟩
      rw [← heq]
      simp only [directCandLoop]
      rw [if_neg hct, hje, hce]
      dsimp only [canonEntry]
      rw [if_pos httl,
        show jsMapGet (pricesOf env c.groupId) pid = none from
          hno c.groupId hcmem]

/-- `directHintLoop` on the first run, exhausting or stopping early. -/
theorem directHintLoop_run1 (env : NetEnv) (gs : List Group) (t0 pid : Nat)
    (hgs : envOk env gs) :
    ∀ (hints : List String) (tried : List Nat) (w : TWorld),
      tcgInv env gs t0 w →
      (∀ k ∈ tried, k ∈ tKeys w) →
      noPid env pid w →
      (∃ w2,
        directHintLoop env t0 pid gs hints tried w = (none, w2) ∧
        tcgInv env gs t0 w2 ∧ noPid env pid w2 ∧
        w2.tcgcsvGroups = w.tcgcsvGroups ∧
        (∀ k ∈ tKeys w, k ∈ tKeys w2) ∧
        (∀ h ∈ hints, h ≠ "" →
          ∀ c ∈ matchAllGroups gs h, c.groupId ∈ tKeys w2)) ∨
      (∃ G q nm w2,
        directHintLoop env t0 pid gs hints tried w =
          (some ⟨q, pidProd env pid G, some nm⟩, w2) ∧
        tcgInv env gs t0 w2 ∧ onlyPid env pid G w2 ∧
        G ∈ tKeys w2 ∧ pidQuad env pid G = some q ∧
        w2.tcgcsvGroups = w.tcgcsvGroups ∧
        (∀ k ∈ tKeys w, k ∈ tKeys w2)) := by
  intro hints
  induction hints with
  | nil =>
    intro tried w hinv htr hno
    exact Or.inl ⟨w, rfl, hinv, hno, rfl, fun k hk => hk,
      fun h hh => absurd hh (List.not_mem_nil h)⟩
  | cons h hs ih =>
    intro tried w hinv htr hno
    by_cases hhe : h = ""
    · have hskip : directHintLoop env t0 pid gs (h :: hs) tried w =
          directHintLoop env t0 pid gs hs tried w := by
        simp only [directHintLoop]
        rw [if_pos hhe]
      rcases ih tried w hinv htr hno with
        ⟨w2, heq, hi2, hn2, hg2, hk2, hh2⟩ |
        ⟨G, q, nm, w2, heq, hi2, ho2, hG2, hq2, hg2, hk2⟩
      · refine Or.inl ⟨w2, hskip.trans heq, hi2, hn2, hg2, hk2, ?_⟩
        intro x hx hxe
        rcases List.mem_cons.mp hx with rfl | hx2
        · exact absurd hhe hxe
        · exact hh2 x hx2 hxe
      · exact Or.inr ⟨G, q, nm, w2, hskip.trans heq, hi2, ho2, hG2,
          hq2, hg2, hk2⟩
    · rcases directCandLoop_run1 env gs t0 pid hgs
          (matchAllGroups gs h) tried w hinv
          (fun c hc => matchAllGroups_mem gs h c hc) htr hno with
        ⟨t2, w2, heq, hi2, hn2, hg2, hk2, ht2, hc2⟩ |
        ⟨G, q, nm, t2, w2, heq, hi2, ho2, hG2, hq2, hg2, hk2⟩
      · have hstep : directHintLoop env t0 pid gs (h :: hs) tried w =
            directHintLoop env t0 pid gs hs t2 w2 := by
          simp only [directHintLoop]
          rw [if_neg hhe, heq]
        rcases ih t2 w2 hi2 ht2 hn2 with
          ⟨w3, heq3, hi3, hn3, hg3, hk3, hh3⟩ |
          ⟨G, q, nm, w3, heq3, hi3, ho3, hG3, hq3, hg3, hk3⟩
        · refine Or.inl ⟨w3, hstep.trans heq3, hi3, hn3,
            hg3.trans hg2, fun k hk => hk3 k (hk2 k hk), ?_⟩
          intro x hx hxe
          rcases List.mem_cons.mp hx with rfl | hx2
          · intro cc hcc
            exact hk3 _ (hc2 cc hcc)
          · exact hh3 x hx2 hxe
        · exact Or.inr ⟨G, q, nm, w3, hstep.trans heq3, hi3, ho3, hG3,
            hq3, hg3.trans hg2, fun k hk => hk3 k (hk2 k hk)⟩
      · have hstep : directHintLoop env t0 pid gs (h :: hs) tried w =
            (some ⟨q, pidProd env pid G, some nm⟩, w2) := by
          simp only [directHintLoop]
          rw [if_neg hhe, heq]
        exact Or.inr ⟨G, q, nm, w2, hstep, hi2, ho2, hG2, hq2, hg2, hk2⟩

/-- `directHintLoop` on the replay run. -/
theorem directHintLoop_run2 (env : NetEnv) (gs : List Group)
    (t0 t1 pid : Nat) (httl : t1 - t0 < TCGCSV_CACHE_TTL) :
    ∀ (hints : List String) (tried : List Nat) (w : TWorld),
      canonCache env t0 w →
      noPid env pid w →
      (∀ h ∈ hints, h ≠ "" →
        ∀ c ∈ matchAllGroups gs h, c.groupId ∈ tKeys w) →
      directHintLoop env t1 pid gs hints tried w = (none, w) := by
  intro hints
  induction hints with
  | nil =>
    intro tried w _ _ _
    rfl
  | cons h hs ih =>
    intro tried w hcanon hno hcs
    by_cases hhe : h = ""
    · have hrec := ih tried w hcanon hno
        (fun x hx => hcs x (List.mem_cons_of_mem h hx))
      rw [← hrec]
      simp only [directHintLoop]
      rw [if_pos hhe]
    · obtain ⟨t2, heq⟩ := directCandLoop_run2 env t0 t1 pid httl
        (matchAllGroups gs h) tried w hcanon hno
        (hcs h (List.mem_cons_self h hs) hhe)
      have hrec := ih t2 w hcanon hno
        (fun x hx => hcs x (List.mem_cons_of_mem h hx))
      rw [← hrec]
      simp only [directHintLoop]
      rw [if_neg hhe, heq]

theorem tcgInv_cacheEq (env : NetEnv) (gs : List Group) (t0 : Nat)
    (w w2 : TWorld) (h : w2.tcgcsvCache = w.tcgcsvCache)
    (hinv : tcgInv env gs t0 w) : tcgInv env gs t0 w2 := by
  obtain ⟨ha, hb, hc⟩ := hinv
  have hk : tKeys w2 = tKeys w := by
    unfold tKeys
    rw [h]
  exact ⟨fun p hp => ha p (h ▸ hp), fun k hk2 => hb k (hk ▸ hk2),
    hk ▸ hc⟩

/-- `fetchTcgcsvPricesDirectByProductId` on the first run. -/
theorem direct_run1 (env : NetEnv) (gs : List Group) (t0 pid : Nat)
    (hints : List String) (hgs : envOk env gs) (w : TWorld)
    (hinv : tcgInv env gs t0 w) (hno : noPid env pid w)
    (hmemo : w.tcgcsvGroups = some gs ∨ w.tcgcsvGroups = none)
    (hpid : pid ≠ 0) :
    (∃ w2,
      fetchTcgcsvPricesDirectByProductId env t0 w (some pid) hints =
        (none, w2) ∧
      tcgInv env gs t0 w2 ∧ noPid env pid w2 ∧
      w2.tcgcsvGroups = some gs ∧
      (∀ k ∈ tKeys w, k ∈ tKeys w2) ∧
      (∀ h ∈ hints, h ≠ "" →
        ∀ c ∈ matchAllGroups gs h, c.groupId ∈ tKeys w2)) ∨
    (∃ G q nm w2,
      fetchTcgcsvPricesDirectByProductId env t0 w (some pid) hints =
        (some ⟨q, pidProd env pid G, some nm⟩, w2) ∧
      tcgInv env gs t0 w2 ∧ onlyPid env pid G w2 ∧
      G ∈ tKeys w2 ∧ pidQuad env pid G = some q ∧
      w2.tcgcsvGroups = some gs ∧
      (∀ k ∈ tKeys w, k ∈ tKeys w2)) := by
  obtain ⟨w1, hg, hc1, hm1⟩ : ∃ w1, getTcgcsvGroups env w =
      (some gs, w1) ∧ w1.tcgcsvCache = w.tcgcsvCache ∧
      w1.tcgcsvGroups = some gs := by
    rcases hmemo with hm | hm
    · exact ⟨w, getTcgcsvGroups_memo env gs w hm, rfl, hm⟩
    · exact ⟨_, getTcgcsvGroups_first env gs w hgs.1 hm, rfl, rfl⟩
  obtain ⟨wc1, wg1, wf1⟩ := w1
  dsimp only at hc1 hm1
  subst hc1
  subst hm1
  have hinv1 : tcgInv env gs t0 ⟨w.tcgcsvCache, some gs, wf1⟩ := by
    exact tcgInv_cacheEq env gs t0 w _ rfl hinv
  have hno1 : noPid env pid (⟨w.tcgcsvCache, some gs, wf1⟩ : TWorld) :=
    fun k hk => hno k hk
  have hstep : fetchTcgcsvPricesDirectByProductId env t0 w (some pid)
      hints = directHintLoop env t0 pid gs hints []
        ⟨w.tcgcsvCache, some gs, wf1⟩ := by
    unfold fetchTcgcsvPricesDirectByProductId
    dsimp only
    rw [if_neg hpid, scanDirect_none env t0 t0 pid w hinv.1 hno, hg]
  rcases directHintLoop_run1 env gs t0 pid hgs hints []
      ⟨w.tcgcsvCache, some gs, wf1⟩ hinv1
      (fun k hk => absurd hk (List.not_mem_nil k)) hno1 with
    ⟨w2, heq, hi2, hn2, hg2, hk2, hh2⟩ |
    ⟨G, q, nm, w2, heq, hi2, ho2, hG2, hq2, hg2, hk2⟩
  · exact Or.inl ⟨w2, hstep.trans heq, hi2, hn2, hg2,
      fun k hk => hk2 k hk, hh2⟩
  · exact Or.inr ⟨G, q, nm, w2, hstep.trans heq, hi2, ho2, hG2, hq2,
      hg2, fun k hk => hk2 k hk⟩

/-- `fetchTcgcsvPricesDirectByProductId` on the replay run, when the
first run found the product: the cached scan answers with a null group
name. -/
theorem direct_run2_found (env : NetEnv) (t0 t1 pid G : Nat)
    (q : PriceQuad) (hints : List String) (w : TWorld)
    (httl : t1 - t0 < TCGCSV_CACHE_TTL)
    (hcanon : canonCache env t0 w) (honly : onlyPid env pid G w)
    (hmem : G ∈ tKeys w) (hq : pidQuad env pid G = some q)
    (hpid : pid ≠ 0) :
    fetchTcgcsvPricesDirectByProductId env t1 w (some pid) hints =
      (some ⟨q, pidProd env pid G, none⟩, w) := by
  unfold fetchTcgcsvPricesDirectByProductId
  dsimp only
  rw [if_neg hpid,
    cacheScanDirect_hit env t0 t1 pid G q w httl hcanon honly hmem hq]

/-- `fetchTcgcsvPricesDirectByProductId` on the replay run, when the
first run exhausted every candidate without finding the product. -/
theorem direct_run2_none (env : NetEnv) (gs : List Group)
    (t0 t1 pid : Nat) (hints : List String) (w : TWorld)
    (httl : t1 - t0 < TCGCSV_CACHE_TTL)
    (hcanon : canonCache env t0 w) (hno : noPid env pid w)
    (hmemo : w.tcgcsvGroups = some gs)
    (hc : ∀ h ∈ hints, h ≠ "" →
      ∀ c ∈ matchAllGroups gs h, c.groupId ∈ tKeys w)
    (hpid : pid ≠ 0) :
    fetchTcgcsvPricesDirectByProductId env t1 w (some pid) hints =
      (none, w) := by
  unfold fetchTcgcsvPricesDirectByProductId
  dsimp only
  rw [if_neg hpid, scanDirect_none env t0 t1 pid w hcanon hno,
    getTcgcsvGroups_memo env gs w hmemo]
  dsimp only
  exact directHintLoop_run2 env gs t0 t1 pid httl hints [] w hcanon
    hno hc

/-- `fetchTcgcsvPrices` on the first run. -/
theorem fetchTcgcsv_run1 (env : NetEnv) (gs : List Group) (t0 pid : Nat)
    (setName : String) (cardName : Option String) (hgs : envOk env gs)
    (w : TWorld) (hinv : tcgInv env gs t0 w) (hno : noPid env pid w)
    (hmemo : w.tcgcsvGroups = some gs ∨ w.tcgcsvGroups = none)
    (hpid : pid ≠ 0) (hset : setName ≠ "") :
    ∃ w2,
      fetchTcgcsvPrices env t0 w (some pid) setName cardName =
        ((matchGroup gs setName).bind (fun gid =>
          pricesFromGroupData (pricesOf env gid) (prodsOf env gid) pid
            cardName), w2) ∧
      tcgInv env gs t0 w2 ∧ w2.tcgcsvGroups = some gs ∧
      (∀ k ∈ tKeys w, k ∈ tKeys w2) ∧
      (match matchGroup gs setName with
       | none => tKeys w2 = tKeys w
       | some gid => gid ∈ tKeys w2 ∧ onlyPid env pid gid w2 ∧
           (tKeys w2 = tKeys w ∨ tKeys w2 = tKeys w ++ [gid])) := by
  obtain ⟨w1, hg, hc1, hm1⟩ : ∃ w1, getTcgcsvGroups env w =
      (some gs, w1) ∧ w1.tcgcsvCache = w.tcgcsvCache ∧
      w1.tcgcsvGroups = some gs := by
    rcases hmemo with hm | hm
    · exact ⟨w, getTcgcsvGroups_memo env gs w hm, rfl, hm⟩
    · exact ⟨_, getTcgcsvGroups_first env gs w hgs.1 hm, rfl, rfl⟩
  obtain ⟨wc1, wg1, wf1⟩ := w1
  dsimp only at hc1 hm1
  subst hc1
  subst hm1
  have hkeq : tKeys (⟨w.tcgcsvCache, some gs, wf1⟩ : TWorld) = tKeys w :=
    rfl
  have hstep : fetchTcgcsvPrices env t0 w (some pid) setName cardName =
      (match matchGroup gs setName with
       | none => (none, (⟨w.tcgcsvCache, some gs, wf1⟩ : TWorld))
       | some gid =>
         match jsMapGet w.tcgcsvCache gid with
         | some cached =>
           if t0 - cached.ts < TCGCSV_CACHE_TTL then
             (pricesFromGroupData cached.prices cached.products pid
               cardName, (⟨w.tcgcsvCache, some gs, wf1⟩ : TWorld))
           else fetchGroupAndPrice env t0
             ⟨w.tcgcsvCache, some gs, wf1⟩ gid pid cardName
         | none => fetchGroupAndPrice env t0
             ⟨w.tcgcsvCache, some gs, wf1⟩ gid pid cardName) := by
    unfold fetchTcgcsvPrices
    dsimp only
    rw [if_neg (by simp [hpid, hset]),
      scanProduct_none env t0 t0 pid w hinv.1 hno, hg]
  rcases hmg : matchGroup gs setName with _ | gid
  · rw [hmg] at hstep
    dsimp only at hstep ⊢
    exact ⟨⟨w.tcgcsvCache, some gs, wf1⟩, hstep,
      tcgInv_cacheEq env gs t0 w _ rfl hinv, rfl, fun k hk => hk, rfl⟩
  · rw [hmg] at hstep
    dsimp only at hstep ⊢
    have hgid : gid ∈ gs.map (fun g => g.groupId) :=
      matchGroup_mem gs setName gid hmg
    rcases hjg : jsMapGet w.tcgcsvCache gid with _ | cached
    · -- fresh group: fetch and cache
      rw [hjg] at hstep
      rcases hp : env.groupPrices gid with _ | rows
      · have := hgs.2.1 gid
        rw [hp] at this
        simp at this
      · have hpm : buildPriceMap rows = pricesOf env gid := by
          unfold pricesOf
          rw [hp]
          rfl
        have hinv1 : tcgInv env gs t0
            (⟨w.tcgcsvCache, some gs, wf1⟩ : TWorld) :=
          tcgInv_cacheEq env gs t0 w _ rfl hinv
        have hset2 : tcgcsvCacheSet
            (⟨w.tcgcsvCache, some gs, wf1⟩ : TWorld).fetch1.fetch1 gid
            (canonEntry env t0 gid) =
            (⟨w.tcgcsvCache ++ [(gid, canonEntry env t0 gid)],
              some gs, wf1 + 1 + 1⟩ : TWorld) :=
          tcgcsvCacheSet_fresh env gs t0 _ gid (canonEntry env t0 gid)
            hinv1 hjg hgid hgs.2.2.2.2.2
        have hcache : (⟨w.tcgcsvCache ++ [(gid, canonEntry env t0 gid)],
            some gs, wf1 + 1 + 1⟩ : TWorld).tcgcsvCache =
            w.tcgcsvCache ++ [(gid, canonEntry env t0 gid)] := rfl
        have hfg : fetchGroupAndPrice env t0
            ⟨w.tcgcsvCache, some gs, wf1⟩ gid pid cardName =
            (pricesFromGroupData (pricesOf env gid) (prodsOf env gid)
              pid cardName,
             (⟨w.tcgcsvCache ++ [(gid, canonEntry env t0 gid)],
               some gs, wf1 + 1 + 1⟩ : TWorld)) := by
          unfold fetchGroupAndPrice
          dsimp only
          rw [hp]
          dsimp only
          rw [show (⟨t0, buildPriceMap rows,
              (env.groupProducts gid).getD []⟩ : GroupEntry) =
              canonEntry env t0 gid from by rw [hpm]; rfl, hset2, hpm]
          rfl
        rw [hfg] at hstep
        refine ⟨_, hstep, tcgInv_snoc env gs t0 w _ gid hinv hcache
          hgid hjg, rfl, ?_, ?_, ?_, ?_⟩
        · intro k hk
          rw [tKeys_snoc w _ gid _ hcache]
          exact List.mem_append_left _ hk
        · rw [tKeys_snoc w _ gid _ hcache]
          exact List.mem_append_right _ (List.mem_singleton_self _)
        · exact onlyPid_snoc env pid w _ gid _ hcache hno
        · exact Or.inr (tKeys_snoc w _ gid _ hcache)
    · -- cached group, consulted in place
      rw [hjg] at hstep
      have hcc := hinv.1 _ (jsMapGet_mem _ _ _ hjg)
      dsimp only at hcc
      rw [hcc] at hstep
      dsimp only [canonEntry] at hstep
      rw [if_pos (by rw [Nat.sub_self]; decide)] at hstep
      refine ⟨_, hstep, tcgInv_cacheEq env gs t0 w _ rfl hinv, rfl,
        fun k hk => hk, ?_, ?_, Or.inl rfl⟩
      · exact jsMapGet_some_mem_keys _ _ _ hjg
      · intro k hk hne
        exact hno k hk

/-- `fetchTcgcsvPrices` on the replay run when the cached scan hits. -/
theorem fetchTcgcsv_scanHit (env : NetEnv) (t1 pid : Nat)
    (setName : String) (cardName : Option String) (q : PriceQuad)
    (w : TWorld) (hscan : cacheScanForProduct w t1 pid = some q)
    (hpid : pid ≠ 0) (hset : setName ≠ "") :
    fetchTcgcsvPrices env t1 w (some pid) setName cardName =
      (some q, w) := by
  unfold fetchTcgcsvPrices
  dsimp only
  rw [if_neg (by simp [hpid, hset]), hscan]

/-- `fetchTcgcsvPrices` on the replay run. -/
theorem fetchTcgcsv_run2 (env : NetEnv) (gs : List Group)
    (t0 t1 pid : Nat) (setName : String) (cardName : Option String)
    (w : TWorld) (hcanon : canonCache env t0 w)
    (hmemo : w.tcgcsvGroups = some gs)
    (httl : t1 - t0 < TCGCSV_CACHE_TTL) (hpid : pid ≠ 0)
    (hset : setName ≠ "")
    (hok : (∃ G, matchGroup gs setName = some G ∧ G ∈ tKeys w ∧
        onlyPid env pid G w) ∨
      (noPid env pid w ∧
        ∀ gid, matchGroup gs setName = some gid → gid ∈ tKeys w)) :
    fetchTcgcsvPrices env t1 w (some pid) setName cardName =
      ((matchGroup gs setName).bind (fun gid =>
        pricesFromGroupData (pricesOf env gid) (prodsOf env gid) pid
          cardName), w) := by
  have hB : noPid env pid w →
      (∀ gid, matchGroup gs setName = some gid → gid ∈ tKeys w) →
      fetchTcgcsvPrices env t1 w (some pid) setName cardName =
        ((matchGroup gs setName).bind (fun gid =>
          pricesFromGroupData (pricesOf env gid) (prodsOf env gid) pid
            cardName), w) := by
    intro hno hmem
    unfold fetchTcgcsvPrices
    dsimp only
    rw [if_neg (by simp [hpid, hset]),
      scanProduct_none env t0 t1 pid w hcanon hno,
      getTcgcsvGroups_memo env gs w hmemo]
    dsimp only
    rcases hmg : matchGroup gs setName with _ | gid
    · rfl
    · dsimp only
      obtain ⟨e, hje, hme⟩ := mem_keys_jsMapGet _ _ (hmem gid hmg)
      have hce : e = canonEntry env t0 gid := hcanon _ hme
      rw [hje, hce]
      dsimp only [canonEntry]
      rw [if_pos httl]
      rfl
  rcases hok with ⟨G, hmg, hGm, honly⟩ | ⟨hno, hmem⟩
  · rcases hpq : pidQuad env pid G with _ | q
    · have hno : noPid env pid w := by
        intro k hk
        by_cases hkG : k = G
        · rw [hkG]
          exact hpq
        · exact honly k hk hkG
      exact hB hno (fun gid hgid => by
        rw [hgid] at hmg
        rw [Option.some.inj hmg]
        exact hGm)
    · have hscan := cacheScanForProduct_hit env t0 t1 pid G q w httl
        hcanon honly hGm hpq
      rw [fetchTcgcsv_scanHit env t1 pid setName cardName q w hscan
        hpid hset, hmg, Option.some_bind]
      unfold pricesFromGroupData
      rw [show jsMapGet (pricesOf env G) pid = some q from hpq]
  · exact hB hno hmem

theorem byNameResult_tail (env : NetEnv) (t0 gid : Nat)
    (cardName : String) (fe fin : List String) (bc : String)
    (w2 : TWorld) :
    (if (canonEntry env t0 gid).products.isEmpty then
       ((none : Option PriceQuad), w2)
     else
       let product :=
         match findProductByNameAndVariant (canonEntry env t0 gid).products
             cardName fe fin bc with
         | some p => some p
         | none =>
           findProductByName (canonEntry env t0 gid).products cardName
       match product with
       | none => ((none : Option PriceQuad), w2)
       | some p =>
         match jsMapGet (canonEntry env t0 gid).prices p.productId with
         | some q => (some q, w2)
         | none => (some emptyQuad, w2)) =
      (byNameResult env gid cardName fe fin bc, w2) := by
  unfold byNameResult
  dsimp only [canonEntry]
  split
  · rfl
  · split
    · rfl
    · split
      · rfl
      · rfl

/-- `fetchTcgcsvPricesByName` paired lemma: the second run within the
TTL reproduces the first run's answer from the cache with no state
change. -/
theorem byName_pair (env : NetEnv) (gs : List Group) (t0 t1 : Nat)
    (cardName setName : String) (fe fin : List String) (bc : String)
    (hgs : envOk env gs) (httl : t1 - t0 < TCGCSV_CACHE_TTL)
    (w : TWorld) (hinv : tcgInv env gs t0 w)
    (hmemo : w.tcgcsvGroups = some gs ∨ w.tcgcsvGroups = none) :
    ∃ q w2,
      fetchTcgcsvPricesByName env t0 w cardName setName fe fin bc =
        (q, w2) ∧
      fetchTcgcsvPricesByName env t1 w2 cardName setName fe fin bc =
        (q, w2) := by
  by_cases hcn : cardName = ""
  · refine ⟨none, w, ?_, ?_⟩ <;>
      (unfold fetchTcgcsvPricesByName; rw [if_pos (by simp [hcn])])
  · by_cases hsn : setName = ""
    · refine ⟨none, w, ?_, ?_⟩ <;>
        (unfold fetchTcgcsvPricesByName; rw [if_pos (by simp [hsn])])
    · obtain ⟨w1, hg, hc1, hm1⟩ : ∃ w1, getTcgcsvGroups env w =
          (some gs, w1) ∧ w1.tcgcsvCache = w.tcgcsvCache ∧
          w1.tcgcsvGroups = some gs := by
        rcases hmemo with hm | hm
        · exact ⟨w, getTcgcsvGroups_memo env gs w hm, rfl, hm⟩
        · exact ⟨_, getTcgcsvGroups_first env gs w hgs.1 hm, rfl, rfl⟩
      obtain ⟨wc1, wg1, wf1⟩ := w1
      dsimp only at hc1 hm1
      subst hc1
      subst hm1
      rcases hmg : matchGroup gs setName with _ | gid
      · refine ⟨none, ⟨w.tcgcsvCache, some gs, wf1⟩, ?_, ?_⟩
        · unfold fetchTcgcsvPricesByName
          rw [if_neg (by simp [hcn, hsn]), hg]
          dsimp only
          rw [hmg]
        · unfold fetchTcgcsvPricesByName
          rw [if_neg (by simp [hcn, hsn]),
            getTcgcsvGroups_memo env gs _ rfl]
          dsimp only
          rw [hmg]
      · rcases hjg : jsMapGet w.tcgcsvCache gid with _ | cached
        · -- fresh group: fetch, cache, compute
          rcases hp : env.groupPrices gid with _ | rows
          · have := hgs.2.1 gid
            rw [hp] at this
            simp at this
          · rcases hq : env.groupProducts gid with _ | prods
            · have := hgs.2.2.1 gid
              rw [hq] at this
              simp at this
            · have hpm : buildPriceMap rows = pricesOf env gid := by
                unfold pricesOf
                rw [hp]
                rfl
              have hpr : prods = prodsOf env gid := by
                unfold prodsOf
                rw [hq]
                rfl
              have hinv1 : tcgInv env gs t0
                  (⟨w.tcgcsvCache, some gs, wf1⟩ : TWorld) :=
                tcgInv_cacheEq env gs t0 w _ rfl hinv
              have hgid : gid ∈ gs.map (fun g => g.groupId) :=
                matchGroup_mem gs setName gid hmg
              have hset2 : tcgcsvCacheSet
                  (⟨w.tcgcsvCache, some gs, wf1⟩ : TWorld).fetch1.fetch1
                  gid (canonEntry env t0 gid) =
                  (⟨w.tcgcsvCache ++ [(gid, canonEntry env t0 gid)],
                    some gs, wf1 + 1 + 1⟩ : TWorld) :=
                tcgcsvCacheSet_fresh env gs t0 _ gid
                  (canonEntry env t0 gid) hinv1 hjg hgid hgs.2.2.2.2.2
              have hbstep : byNameFetchStep env t0
                  ⟨w.tcgcsvCache, some gs, wf1⟩ gid =
                  (some (canonEntry env t0 gid),
                   (⟨w.tcgcsvCache ++ [(gid, canonEntry env t0 gid)],
                     some gs, wf1 + 1 + 1⟩ : TWorld)) := by
                unfold byNameFetchStep
                dsimp only
                rw [hp, hq]
                dsimp only
                rw [show (⟨t0, buildPriceMap rows, prods⟩ : GroupEntry) =
                    canonEntry env t0 gid from by rw [hpm, hpr]; rfl,
                  hset2]
              have hjg2 : jsMapGet (w.tcgcsvCache ++
                  [(gid, canonEntry env t0 gid)]) gid =
                  some (canonEntry env t0 gid) :=
                jsMapGet_snoc_self _ _ _ hjg
              refine ⟨byNameResult env gid cardName fe fin bc,
                ⟨w.tcgcsvCache ++ [(gid, canonEntry env t0 gid)],
                  some gs, wf1 + 1 + 1⟩, ?_, ?_⟩
              · unfold fetchTcgcsvPricesByName
                rw [if_neg (by simp [hcn, hsn]), hg]
                dsimp only
                rw [hmg]
                dsimp only
                rw [hjg, hbstep]
                dsimp only
                exact byNameResult_tail env t0 gid cardName fe fin bc _
              · unfold fetchTcgcsvPricesByName
                rw [if_neg (by simp [hcn, hsn]),
                  getTcgcsvGroups_memo env gs _ rfl]
                dsimp only
                rw [hmg]
                dsimp only
                rw [hjg2]
                dsimp only [canonEntry]
                rw [if_pos httl]
                exact byNameResult_tail env t0 gid cardName fe fin bc _
        · -- cached group
          have hcc := hinv.1 _ (jsMapGet_mem _ _ _ hjg)
          dsimp only at hcc
          refine ⟨byNameResult env gid cardName fe fin bc,
            ⟨w.tcgcsvCache, some gs, wf1⟩, ?_, ?_⟩
          · unfold fetchTcgcsvPricesByName
            rw [if_neg (by simp [hcn, hsn]), hg]
            dsimp only
            rw [hmg]
            dsimp only
            rw [hjg, hcc]
            dsimp only [canonEntry]
            rw [if_pos (by rw [Nat.sub_self]; decide)]
            exact byNameResult_tail env t0 gid cardName fe fin bc _
          · unfold fetchTcgcsvPricesByName
            rw [if_neg (by simp [hcn, hsn]),
              getTcgcsvGroups_memo env gs _ rfl]
            dsimp only
            rw [hmg]
            dsimp only
            rw [hjg, hcc]
            dsimp only [canonEntry]
            rw [if_pos httl]
            exact byNameResult_tail env t0 gid cardName fe fin bc _

theorem tcgInv_init (env : NetEnv) (gs : List Group) (t0 : Nat) :
    tcgInv env gs t0 TWorld.init :=
  ⟨fun p hp => absurd hp (List.not_mem_nil p),
   fun k hk => absurd hk (List.not_mem_nil k), List.nodup_nil⟩

theorem noPid_init (env : NetEnv) (pid : Nat) :
    noPid env pid TWorld.init :=
  fun k hk => absurd hk (List.not_mem_nil k)

theorem pricesFromGroupData_none (pm : List (Nat × PriceQuad))
    (prods : List Product) (pid : Nat) (cn : Option String)
    (h : pricesFromGroupData pm prods pid cn = none) :
    jsMapGet pm pid = none := by
  unfold pricesFromGroupData at h
  rcases hj : jsMapGet pm pid with _ | q
  · rfl
  · rw [hj] at h
    cases h

theorem noPid_keysEq (env : NetEnv) (pid : Nat) (w w2 : TWorld)
    (h : tKeys w2 = tKeys w) (hno : noPid env pid w) :
    noPid env pid w2 :=
  fun k hk => hno k (h ▸ hk)

theorem noPid_of_onlyPid (env : NetEnv) (pid G : Nat) (w : TWorld)
    (honly : onlyPid env pid G w) (hq : pidQuad env pid G = none) :
    noPid env pid w := by
  intro k hk
  by_cases hkG : k = G
  · rw [hkG]
    exact hq
  · exact honly k hk hkG

/-- The non-override enrichment chain paired lemma: from worker start,
the second run within the TTL returns the same price quad with the state
untouched — in particular with zero additional network requests. -/
theorem enrichNormal_pair (env : NetEnv) (gs : List Group) (t0 t1 : Nat)
    (card : Card) (hgs : envOk env gs)
    (httl : t1 - t0 < TCGCSV_CACHE_TTL) :
    ∃ q w2, enrichNormal env t0 TWorld.init card = (q, w2) ∧
      enrichNormal env t1 w2 card = (q, w2) := by
  cases hcond : jsTruthyNat card.tcgplayerId && !decide (card.set = "")
  · -- no usable tcgplayer id
    cases hsb2 : (!decide (card.set = "") : Bool)
    · -- and no set name: nothing to do
      refine ⟨none, TWorld.init, ?_, ?_⟩ <;>
        (unfold enrichNormal
         rw [if_neg (by simp [hcond]), if_neg (by simp [hsb2])])
    · -- name-and-set search
      obtain ⟨q, w2, h1, h2⟩ := byName_pair env gs t0 t1 card.name
        card.set card.frameEffects card.finishes card.borderColor hgs
        httl TWorld.init (tcgInv_init env gs t0) (Or.inr rfl)
      refine ⟨q, w2, ?_, ?_⟩
      · unfold enrichNormal
        rw [if_neg (by simp [hcond]), if_pos hsb2, h1]
      · unfold enrichNormal
        rw [if_neg (by simp [hcond]), if_pos hsb2, h2]
  · -- id-and-set enrichment chain
    have hand := hcond
    rw [Bool.and_eq_true] at hand
    obtain ⟨htr, hsb⟩ := hand
    rcases hpid0 : card.tcgplayerId with _ | pid
    · rw [hpid0] at htr
      simp [jsTruthyNat] at htr
    · have hpidne : pid ≠ 0 := by
        rw [hpid0] at htr
        simpa [jsTruthyNat] using htr
      have hset : card.set ≠ "" := by simpa using hsb
      obtain ⟨w1, hstep1, hinv1, hmemo1, hkeys1, hpost1⟩ :=
        fetchTcgcsv_run1 env gs t0 pid card.set none hgs TWorld.init
          (tcgInv_init env gs t0) (noPid_init env pid) (Or.inr rfl)
          hpidne hset
      rcases hr1 : (matchGroup gs card.set).bind (fun gid =>
          pricesFromGroupData (pricesOf env gid) (prodsOf env gid) pid
            none) with _ | q
      · -- step 1 finds nothing by direct id
        rw [hr1] at hstep1
        have hno1 : noPid env pid w1 := by
          rcases hmg : matchGroup gs card.set with _ | G
          · rw [hmg] at hpost1
            exact noPid_keysEq env pid TWorld.init w1 hpost1
              (noPid_init env pid)
          · rw [hmg] at hpost1 hr1
            rw [Option.some_bind] at hr1
            exact noPid_of_onlyPid env pid G w1 hpost1.2.1
              (pricesFromGroupData_none _ _ _ _ hr1)
        rcases direct_run1 env gs t0 pid [card.set] hgs w1 hinv1 hno1
            (Or.inl hmemo1) hpidne with
          ⟨w2, hstep2, hinv2, hno2, hmemo2, hkeys2, hcands2⟩ |
          ⟨G2, q2, nm, w2, hstep2, hinv2, honly2, hG2, hq2, hmemo2,
            hkeys2⟩
        · -- nothing found anywhere by id: the name fallback
          obtain ⟨w3, hstep3, hinv3, hmemo3, hkeys3, hpost3⟩ :=
            fetchTcgcsv_run1 env gs t0 pid card.set (some card.name) hgs
              w2 hinv2 hno2 (Or.inl hmemo2) hpidne hset
          have hno3 : noPid env pid w3 := by
            rcases hmg : matchGroup gs card.set with _ | G
            · rw [hmg] at hpost3
              exact noPid_keysEq env pid w2 w3 hpost3 hno2
            · rw [hmg] at hpost1 hpost3 hr1
              rw [Option.some_bind] at hr1
              exact noPid_of_onlyPid env pid G w3 hpost3.2.1
                (pricesFromGroupData_none _ _ _ _ hr1)
          have hmem3 : ∀ gid, matchGroup gs card.set = some gid →
              gid ∈ tKeys w3 := by
            intro gid hgid
            rw [hgid] at hpost3
            exact hpost3.1
          have hcands3 : ∀ h ∈ [card.set], h ≠ "" →
              ∀ c ∈ matchAllGroups gs h, c.groupId ∈ tKeys w3 := by
            intro h hh hhe cc hcc
            exact hkeys3 _ (hcands2 h hh hhe cc hcc)
          refine ⟨(matchGroup gs card.set).bind (fun gid =>
            pricesFromGroupData (pricesOf env gid) (prodsOf env gid)
              pid (some card.name)), w3, ?_, ?_⟩
          · unfold enrichNormal
            rw [if_pos hcond, hpid0, hstep1]
            dsimp only
            rw [hstep2]
            dsimp only
            exact hstep3
          · unfold enrichNormal
            rw [if_pos hcond, hpid0,
              fetchTcgcsv_run2 env gs t0 t1 pid card.set none w3
                hinv3.1 hmemo3 httl hpidne hset (Or.inr ⟨hno3, hmem3⟩),
              hr1]
            dsimp only
            rw [direct_run2_none env gs t0 t1 pid [card.set] w3 httl
              hinv3.1 hno3 hmemo3 hcands3 hpidne]
            dsimp only
            exact fetchTcgcsv_run2 env gs t0 t1 pid card.set
              (some card.name) w3 hinv3.1 hmemo3 httl hpidne hset
              (Or.inr ⟨hno3, hmem3⟩)
        · -- the multi-group search found the product
          refine ⟨some q2, w2, ?_, ?_⟩
          · unfold enrichNormal
            rw [if_pos hcond, hpid0, hstep1]
            dsimp only
            rw [hstep2]
          · unfold enrichNormal
            rw [if_pos hcond, hpid0,
              fetchTcgcsv_scanHit env t1 pid card.set none q2 w2
                (cacheScanForProduct_hit env t0 t1 pid G2 q2 w2 httl
                  hinv2.1 honly2 hG2 hq2) hpidne hset]
      · -- step 1 answers directly
        rw [hr1] at hstep1
        have hpostG : ∃ G, matchGroup gs card.set = some G ∧
            G ∈ tKeys w1 ∧ onlyPid env pid G w1 := by
          rcases hmg : matchGroup gs card.set with _ | G
          · rw [hmg] at hr1
            cases hr1
          · rw [hmg] at hpost1
            exact ⟨G, rfl, hpost1.1, hpost1.2.1⟩
        refine ⟨some q, w1, ?_, ?_⟩
        · unfold enrichNormal
          rw [if_pos hcond, hpid0, hstep1]
        · unfold enrichNormal
          rw [if_pos hcond, hpid0,
            fetchTcgcsv_run2 env gs t0 t1 pid card.set none w1 hinv1.1
              hmemo1 httl hpidne hset (Or.inl hpostG), hr1]

/-- The id-override fetch paired lemma from worker start: the replay
returns the same result except for a null group name, without fetching. -/
theorem direct_pair_init (env : NetEnv) (gs : List Group)
    (t0 t1 pid : Nat) (hints : List String) (hgs : envOk env gs)
    (httl : t1 - t0 < TCGCSV_CACHE_TTL) (hpid : pid ≠ 0) :
    ∃ res w2,
      fetchTcgcsvPricesDirectByProductId env t0 TWorld.init (some pid)
        hints = (res, w2) ∧
      fetchTcgcsvPricesDirectByProductId env t1 w2 (some pid) hints =
        (res.map (fun d => { d with groupName := none }), w2) := by
  rcases direct_run1 env gs t0 pid hints hgs TWorld.init
      (tcgInv_init env gs t0) (noPid_init env pid) (Or.inr rfl) hpid with
    ⟨w2, h1, hinv2, hno2, hmemo2, _, hcands2⟩ |
    ⟨G, q, nm, w2, h1, hinv2, honly2, hG2, hq2, hmemo2, _⟩
  · exact ⟨none, w2, h1, direct_run2_none env gs t0 t1 pid hints w2 httl
      hinv2.1 hno2 hmemo2 hcands2 hpid⟩
  · refine ⟨some ⟨q, pidProd env pid G, some nm⟩, w2, h1, ?_⟩
    rw [direct_run2_found env t0 t1 pid G q hints w2 httl hinv2.1
      honly2 hG2 hq2 hpid]
    rfl

theorem direct_zero (env : NetEnv) (t : Nat) (w : TWorld)
    (hints : List String) :
    fetchTcgcsvPricesDirectByProductId env t w (some 0) hints =
      (none, w) := by
  unfold fetchTcgcsvPricesDirectByProductId
  dsimp only
  rw [if_pos rfl]

theorem stripCard_setEbay (c : Card) :
    stripCard (setEbay c) = stripCard c := rfl

theorem stripCard_mergePrices (c : Card) (q : PriceQuad) :
    stripCard (mergePrices c q) = mergePrices (stripCard c) q := rfl

set_option maxHeartbeats 2000000 in
/-- The override enhancement produces strip-equal cards for any two
group names: only the displayed set name (and later the eBay link built
from it) depends on the group name. -/
theorem stripCard_applyOverride (c : Card) (q : PriceQuad)
    (p : Option Product) (g1 g2 : Option String) (oid : Nat) :
    stripCard (applyOverrideProduct c ⟨q, p, g1⟩ oid) =
      stripCard (applyOverrideProduct c ⟨q, p, g2⟩ oid) := by
  unfold applyOverrideProduct
  cases p with
  | none => rfl
  | some product =>
    dsimp only
    rcases firstParenNum product.name.toList with _ | ds <;>
      rcases product.imageUrl with _ | img <;>
        split_ifs <;> simp [stripCard, mergePrices] <;> split_ifs <;>
          (repeat' apply And.intro) <;> rfl

theorem swBump (b : Bool) (s : SWorld) :
    (if b = true then s
     else { s with activeLookupGen := s.activeLookupGen + 1 }) =
      ⟨s.scryfallCache, if b = true then s.activeLookupGen
        else s.activeLookupGen + 1, s.fetchCount⟩ := by
  cases b
  · simp
  · simp

/-- C8, amended.  From worker start, with the TCGCSV groups index and
every consulted provider endpoint answering, the matched groups fitting
the group cache, and the second resolution within the 30-minute cache
TTL of the first: the second resolution of the same message issues zero
additional network requests on either layer, and its response is
byte-identical to the first except possibly for the displayed set name
and the eBay link derived from it (which the id-override cached path
reverts to the Scryfall set name, because the cached scan returns a null
group name). -/
theorem C8_idem_amended (env : NetEnv) (gs : List Group) (m : Msg)
    (t0 t1 : Nat)
    (hgs : env.tcgGroups = some gs)
    (hp : ∀ g, (env.groupPrices g).isSome = true)
    (hq : ∀ g, (env.groupProducts g).isSome = true)
    (hcmk : ∀ c, (env.cardmarketById c).isSome = true)
    (hnd : (gs.map (fun g => g.groupId)).Nodup)
    (hlen : gs.length ≤ TCGCSV_CACHE_MAX)
    (httl : t1 - t0 < CACHE_TTL) :
    ∃ resp1 resp2 sw1 sw2 tw1 tw2,
      handleLookup env t0 SWorld.init TWorld.init m =
        (resp1, sw1, tw1) ∧
      handleLookup env t1 sw1 tw1 m = (resp2, sw2, tw2) ∧
      sw2.fetchCount = sw1.fetchCount ∧
      tw2.fetchCount = tw1.fetchCount ∧
      stripVolatile resp2 = stripVolatile resp1 := by
  have hok : envOk env gs := ⟨hgs, hp, hq, hcmk, hnd, hlen⟩
  have httl2 : t1 - t0 < TCGCSV_CACHE_TTL := by
    have h12 : CACHE_TTL ≤ TCGCSV_CACHE_TTL := by decide
    omega
  obtain ⟨r, ov, c1, fc, hrs1, hrs2⟩ :=
    resolveStage_pair env m t0 t1
      (if (m.cardmarketProductId.isSome && m.setHint.isNone &&
        m.setCode.isNone && m.scryfallId.isNone &&
        m.tcgplayerId.isNone) = true then 0
       else 0 + 1) 0 hcmk httl
  rcases hrun1 : handleLookup env t0 SWorld.init TWorld.init m with
    ⟨resp1, sw1, tw1⟩
  unfold handleLookup at hrun1
  dsimp only at hrun1
  rw [swBump] at hrun1
  dsimp only [SWorld.init] at hrun1
  rw [hrs1] at hrun1
  rcases hrun2 : handleLookup env t1 sw1 tw1 m with ⟨resp2, sw2, tw2⟩
  refine ⟨resp1, resp2, sw1, sw2, tw1, tw2, rfl, hrun2, ?_⟩
  cases r with
  | err e =>
    dsimp only at hrun1
    injection hrun1 with h1 h23
    injection h23 with h2 h3
    subst h1
    subst h2
    subst h3
    unfold handleLookup at hrun2
    dsimp only at hrun2
    rw [swBump] at hrun2
    dsimp only at hrun2
    rw [hrs2] at hrun2
    dsimp only at hrun2
    injection hrun2 with h1 h23
    injection h23 with h2 h3
    subst h1
    subst h2
    subst h3
    exact ⟨rfl, rfl, rfl⟩
  | ok data pm =>
    dsimp only at hrun1
    rw [if_neg (lt_irrefl _)] at hrun1
    cases ov with
    | none =>
      obtain ⟨qE, w2E, he1, he2⟩ :=
        enrichNormal_pair env gs t0 t1 (setEbay data) hok httl2
      dsimp only at hrun1
      rw [he1] at hrun1
      dsimp only at hrun1
      injection hrun1 with h1 h23
      injection h23 with h2 h3
      subst h1
      subst h2
      subst h3
      unfold handleLookup at hrun2
      dsimp only at hrun2
      rw [swBump] at hrun2
      dsimp only at hrun2
      rw [hrs2] at hrun2
      dsimp only at hrun2
      rw [if_neg (lt_irrefl _)] at hrun2
      rw [he2] at hrun2
      dsimp only at hrun2
      injection hrun2 with h1 h23
      injection h23 with h2 h3
      subst h1
      subst h2
      subst h3
      exact ⟨rfl, rfl, rfl⟩
    | some oid =>
      by_cases hoid : oid = 0
      · subst hoid
        dsimp only at hrun1
        rw [direct_zero] at hrun1
        dsimp only at hrun1
        injection hrun1 with h1 h23
        injection h23 with h2 h3
        subst h1
        subst h2
        subst h3
        unfold handleLookup at hrun2
        dsimp only at hrun2
        rw [swBump] at hrun2
        dsimp only at hrun2
        rw [hrs2] at hrun2
        dsimp only at hrun2
        rw [if_neg (lt_irrefl _)] at hrun2
        rw [direct_zero] at hrun2
        dsimp only at hrun2
        injection hrun2 with h1 h23
        injection h23 with h2 h3
        subst h1
        subst h2
        subst h3
        exact ⟨rfl, rfl, rfl⟩
      · obtain ⟨res, w2, hd1, hd2⟩ := direct_pair_init env gs t0 t1 oid
          ((match m.setHint with
            | some h => if h = "" then [] else [h]
            | none => []) ++
           (if (setEbay data).set = "" then []
            else [(setEbay data).set])) hok httl2 hoid
        dsimp only at hrun1
        rw [hd1] at hrun1
        cases res with
        | none =>
          dsimp only at hrun1
          injection hrun1 with h1 h23
          injection h23 with h2 h3
          subst h1
          subst h2
          subst h3
          unfold handleLookup at hrun2
          dsimp only at hrun2
          rw [swBump] at hrun2
          dsimp only at hrun2
          rw [hrs2] at hrun2
          dsimp only at hrun2
          rw [if_neg (lt_irrefl _)] at hrun2
          rw [hd2, Option.map_none'] at hrun2
          dsimp only at hrun2
          injection hrun2 with h1 h23
          injection h23 with h2 h3
          subst h1
          subst h2
          subst h3
          exact ⟨rfl, rfl, rfl⟩
        | some dres =>
          obtain ⟨qd, pd, gd⟩ := dres
          dsimp only at hrun1
          injection hrun1 with h1 h23
          injection h23 with h2 h3
          subst h1
          subst h2
          subst h3
          unfold handleLookup at hrun2
          dsimp only at hrun2
          rw [swBump] at hrun2
          dsimp only at hrun2
          rw [hrs2] at hrun2
          dsimp only at hrun2
          rw [if_neg (lt_irrefl _)] at hrun2
          rw [hd2, Option.map_some'] at hrun2
          dsimp only at hrun2
          injection hrun2 with h1 h23
          injection h23 with h2 h3
          subst h1
          subst h2
          subst h3
          refine ⟨rfl, rfl, ?_⟩
          unfold stripVolatile
          dsimp only
          rw [stripCard_setEbay, stripCard_setEbay, stripCard_mergePrices,
            stripCard_mergePrices,
            stripCard_applyOverride _ qd pd (none : Option String) gd oid]


/-- Concrete instantiation of the amended idempotence theorem: the
counterexample environment with every consulted endpoint answering, the
single Secret Lair Drop group, and a second lookup one second after the
first. -/
theorem C8_idem_amended_witness :
    wEnv.tcgGroups = some [⟨77, "Secret Lair Drop"⟩] ∧
    (1000 : Nat) - 0 < CACHE_TTL ∧
    ∃ resp1 resp2 sw1 sw2 tw1 tw2,
      handleLookup wEnv 0 SWorld.init TWorld.init ceMsg = (resp1, sw1, tw1) ∧
      handleLookup wEnv 1000 sw1 tw1 ceMsg = (resp2, sw2, tw2) ∧
      sw2.fetchCount = sw1.fetchCount ∧
      tw2.fetchCount = tw1.fetchCount ∧
      stripVolatile resp2 = stripVolatile resp1 :=
  ⟨rfl, by decide,
   C8_idem_amended wEnv [⟨77, "Secret Lair Drop"⟩] ceMsg 0 1000 rfl
     (fun g => rfl) (fun g => rfl) (fun c => rfl) (by decide) (by decide)
     (by decide)⟩

end MtgPc
